import Mathlib

/-!
# Verification of the adjacency-list graph core of the repository

Shallow embedding of the Python modules named in the claims:

* `MinCut`   — `1-.../7-Minimum Cut Problem/Python/undirected_graph.py`
* `BfsGraph` — `2-.../3-Graph Search/BFS & DFS/Python/undirected_graph.py`
* `Digraph`  — `2-.../3-Graph Search (BFS & DFS)/Python/directed_graph.py`
* `SPR`      — `4-.../1-Shortest Paths Revisit/Python/directed_graph.py`
* `APSP`     — `4-.../2-All-Pair Shortest Paths Problem/Python/directed_graph.py`
* `MST`      — `3-.../3-Minimum Spanning Tree Problem/Python/undirected_graph.py`
* `UF`       — `3-.../3-Minimum Spanning Tree Problem/Python/union_find.py`

Python objects are modelled by records; object identity is modelled by the
unique integer ids the code itself maintains (`vtx_id` for vertices; edges get
a fresh allocation id).  Python exceptions are modelled by a result type that
carries the state at the moment of the raise, so that "the graph is unchanged
on failure" is a real theorem rather than a modelling artefact.
-/

/-- The Python exceptions (and error situations) the embedded code can hit. -/
inductive PyErr where
  /-- `IllegalArgumentError(msg)`, the repo's `ValueError` subclass. -/
  | illegalArgument (msg : String)
  /-- `AttributeError` — attribute lookup on an object that lacks it. -/
  | attributeError (msg : String)
  /-- `IndexError` — sequence subscript out of range. -/
  | indexError
  /-- `ValueError` — e.g. `list.remove(x)` with `x` absent, `random.randint(0,-1)`. -/
  | valueError
  /-- `TypeError` — e.g. `None - 1`. -/
  | typeError
  /-- `KeyError` — dict subscript with a missing key. -/
  | keyError
  /-- Artefact of the embedding: recursion fuel ran out (never happens for the
  fuel values used by the public entry points; see the fuel lemmas). -/
  | outOfFuel
  /-- Artefact of the embedding: a dereference of a vertex object that is no
  longer in `vtx_list` (cannot happen in well-formed states). -/
  | orphanRef
deriving Repr, DecidableEq

/-- Result of running a stateful Python computation: Python exceptions do not
roll the heap back, so the error case also carries the state. -/
inductive PyResult (σ : Type) (α : Type) where
  | ok (a : α) (s : σ)
  | err (e : PyErr) (s : σ)
deriving Repr, DecidableEq

/-- The state after the computation, whether it returned or raised. -/
def PyResult.state : PyResult σ α → σ
  | .ok _ s => s
  | .err _ s => s

/-- Did the computation raise? -/
def PyResult.isErr : PyResult σ α → Bool
  | .ok _ _ => false
  | .err _ _ => true

namespace Py

/-- `d.get(k)` on a Python dict modelled as an insertion-ordered association
list (`None` when the key is missing). -/
def dictGet? : List (Nat × Nat) → Nat → Option Nat
  | [], _ => none
  | p :: d, k => if p.1 = k then some p.2 else dictGet? d k

/-- `d.get(k, default)`. -/
def dictGet (d : List (Nat × Nat)) (k : Nat) (dflt : Nat) : Nat :=
  match dictGet? d k with
  | some v => v
  | none => dflt

/-- `d[k] = v`: overwrite in place if the key is present (keeping its
position), else append (insertion order). -/
def dictSet : List (Nat × Nat) → Nat → Nat → List (Nat × Nat)
  | [], k, v => [(k, v)]
  | p :: d, k, v => if p.1 = k then (k, v) :: d else p :: dictSet d k v

/-- `d.pop(k)`: drop the entry with the key (dict keys are unique). -/
def dictPop : List (Nat × Nat) → Nat → List (Nat × Nat)
  | [], _ => []
  | p :: d, k => if p.1 = k then d else p :: dictPop d k

/-- Generic insertion-ordered dict (same semantics as the `Nat`-valued one
above, for other key/value types). -/
def dictFind? {κ ν : Type} [BEq κ] : List (κ × ν) → κ → Option ν
  | [], _ => none
  | (k', v) :: rest, k => if k' == k then some v else dictFind? rest k

/-- `d[k] = v` for the generic dict. -/
def dictPut {κ ν : Type} [BEq κ] : List (κ × ν) → κ → ν → List (κ × ν)
  | [], k, v => [(k, v)]
  | (k', v') :: rest, k, v =>
    if k' == k then (k, v) :: rest else (k', v') :: dictPut rest k v

/-- `d.pop(k)` for the generic dict (the callers ignore the value). -/
def dictDrop {κ ν : Type} [BEq κ] : List (κ × ν) → κ → List (κ × ν)
  | [], _ => []
  | (k', v') :: rest, k => if k' == k then rest else (k', v') :: dictDrop rest k

end Py

/-! ## The `MinCut` module

`1-Divide and Conquer .../7-Minimum Cut Problem/Python/undirected_graph.py`
(claims C1, C2, C9).  Parallel edges are allowed, self-loops are not. -/

namespace MinCut

/-- `Vertex` of the min-cut module: `vtx_id`, `_freq_of_neighbors` (dict
neighbor id → multiplicity) and `_edges` (list of references to
`UndirectedEdge` objects, modelled by allocation ids). -/
structure Vertex where
  vtxId : Nat
  freqOfNeighbors : List (Nat × Nat)
  edges : List Nat
deriving Repr, DecidableEq

/-- `UndirectedEdge`: the two endpoint vertex references (modelled by the
endpoints' unique `vtx_id`s; `end1`/`end2` have setters and are mutated during
contraction). -/
structure UndirectedEdge where
  end1 : Nat
  end2 : Nat
deriving Repr, DecidableEq

/-- `UndirectedGraph`: `_vtx_list` (insertion-ordered vertex objects) and
`_edge_list` (edge references).  `edgeHeap` is the object store for edges
(entries are never deleted, mirroring the Python heap; only the two lists
determine the visible graph), `nextEdgeId` the allocator. -/
structure Graph where
  vtxList : List Vertex
  edgeList : List Nat
  edgeHeap : List (Nat × UndirectedEdge)
  nextEdgeId : Nat
deriving Repr, DecidableEq

def emptyGraph : Graph :=
  { vtxList := [], edgeList := [], edgeHeap := [], nextEdgeId := 0 }

/-- Dereference an edge object. -/
def Graph.edgeObj (g : Graph) (eid : Nat) : Option UndirectedEdge :=
  (g.edgeHeap.find? (fun p => p.1 == eid)).map (·.2)

/-- `AbstractGraph._find_vtx`: linear scan of `_vtx_list` by `vtx_id`. -/
def Graph.findVtx (g : Graph) (i : Nat) : Option Vertex :=
  g.vtxList.find? (fun v => v.vtxId == i)

/-- `_vtx_list.remove(obj)`: drop the first occurrence of the object (object
identity; ids are unique in the list, so matching on the id is the same). -/
def removeFirstById : List Vertex → Nat → List Vertex
  | [], _ => []
  | v :: vs, i => if v.vtxId = i then vs else v :: removeFirstById vs i

/-- In-place mutation of the vertex object with id `v.vtxId` (object identity
is its unique id). -/
def Graph.updateVtx (g : Graph) (v : Vertex) : Graph :=
  { g with vtxList := g.vtxList.map (fun w => if w.vtxId == v.vtxId then v else w) }

/-- In-place mutation of the edge object `eid` (the `end1`/`end2` setters). -/
def Graph.updateEdge (g : Graph) (eid : Nat) (e : UndirectedEdge) : Graph :=
  { g with edgeHeap := g.edgeHeap.map (fun p => if p.1 == eid then (eid, e) else p) }

/-- `Vertex.add_edge(new_edge)` — appends the edge and bumps the neighbor
frequency.  The `None` check cannot fire (we always pass an allocated edge);
the involve-this-vertex check is kept.  No partial mutation is possible, so a
plain `Except` is faithful here. -/
def Vertex.addEdge (self : Vertex) (eid : Nat) (e : UndirectedEdge) :
    Except PyErr Vertex :=
  if e.end1 ≠ self.vtxId ∧ e.end2 ≠ self.vtxId then
    .error (.illegalArgument "The edge to add should involve this vertex.")
  else
    let nbr := if e.end1 == self.vtxId then e.end2 else e.end1
    let freq := Py.dictGet self.freqOfNeighbors nbr 0 + 1
    .ok { self with
          edges := self.edges ++ [eid],
          freqOfNeighbors := Py.dictSet self.freqOfNeighbors nbr freq }

/-- `Vertex.remove_edge(edge_to_remove)`.  `list.remove` raises `ValueError`
when the edge is absent (before mutating); the frequency update reads
`dict.get` with no default, and `None == 1` is false, so a missing key leads
to `None -= 1`, a `TypeError`, with `_edges` already mutated — hence the
result pairs the (possibly partially mutated) vertex with an optional error. -/
def Vertex.removeEdge (self : Vertex) (eid : Nat) (e : UndirectedEdge) :
    Vertex × Option PyErr :=
  if e.end1 ≠ self.vtxId ∧ e.end2 ≠ self.vtxId then
    (self, some (.illegalArgument "The edge to remove should involve this vertex."))
  else if eid ∉ self.edges then
    (self, some .valueError)
  else
    let edges := self.edges.erase eid
    let nbr := if e.end1 == self.vtxId then e.end2 else e.end1
    match Py.dictGet? self.freqOfNeighbors nbr with
    | none => ({ self with edges := edges }, some .typeError)
    | some f =>
      if f = 1 then
        ({ self with edges := edges,
                     freqOfNeighbors := Py.dictPop self.freqOfNeighbors nbr }, none)
      else
        ({ self with edges := edges,
                     freqOfNeighbors := Py.dictSet self.freqOfNeighbors nbr (f - 1) }, none)

/-- `Vertex.get_edge_with_neighbor(neighbor)`: first edge of `self` whose
endpoint pair is `{self, neighbor}` (object identity = unique ids). -/
def Vertex.getEdgeWithNeighbor (g : Graph) (self : Vertex) (nbrId : Nat) : Option Nat :=
  self.edges.find? (fun eid =>
    match g.edgeObj eid with
    | some e => (e.end1 == self.vtxId && e.end2 == nbrId) ||
                (e.end1 == nbrId && e.end2 == self.vtxId)
    | none => false)

/-- `UndirectedGraph.add_vtx(new_vtx_id)`. -/
def addVtx (g : Graph) (i : Nat) : PyResult Graph Unit :=
  match g.findVtx i with
  | some _ => .err (.illegalArgument "The input vertex is repeated.") g
  | none =>
    .ok () { g with vtxList := g.vtxList ++ [{ vtxId := i, freqOfNeighbors := [], edges := [] }] }

/-- `UndirectedGraph._add_edge(new_edge)` for the already-allocated edge `eid`:
`end1.add_edge`, `end2.add_edge`, then append to `_edge_list`. -/
def addEdgeObj (g : Graph) (eid : Nat) : PyResult Graph Unit :=
  match g.edgeObj eid with
  | none => .err .orphanRef g
  | some e =>
    match g.findVtx e.end1 with
    | none => .err .orphanRef g
    | some v1 =>
      match v1.addEdge eid e with
      | .error er => .err er g
      | .ok v1' =>
        let g1 := g.updateVtx v1'
        match g1.findVtx e.end2 with
        | none => .err .orphanRef g1
        | some v2 =>
          match v2.addEdge eid e with
          | .error er => .err er g1
          | .ok v2' =>
            let g2 := g1.updateVtx v2'
            .ok () { g2 with edgeList := g2.edgeList ++ [eid] }

/-- `UndirectedGraph.add_edge(end1_id, end2_id)`: validate endpoints, reject
self-loops, allocate `UndirectedEdge(end1, end2)`, then `_add_edge`. -/
def addEdge (g : Graph) (a b : Nat) : PyResult Graph Unit :=
  match g.findVtx a, g.findVtx b with
  | none, _ => .err (.illegalArgument "The endpoints don't both exist.") g
  | _, none => .err (.illegalArgument "The endpoints don't both exist.") g
  | some _, some _ =>
    if a = b then
      .err (.illegalArgument "The endpoints are the same (self-loop).") g
    else
      let eid := g.nextEdgeId
      let g1 := { g with edgeHeap := g.edgeHeap ++ [(eid, ⟨a, b⟩)], nextEdgeId := eid + 1 }
      addEdgeObj g1 eid

/-- `UndirectedGraph._remove_edge(edge_to_remove)`: `end1.remove_edge`,
`end2.remove_edge`, then `_edge_list.remove` — a raise partway through leaves
the earlier mutations in place. -/
def removeEdgeObj (g : Graph) (eid : Nat) : PyResult Graph Unit :=
  match g.edgeObj eid with
  | none => .err .orphanRef g
  | some e =>
    match g.findVtx e.end1 with
    | none => .err .orphanRef g
    | some v1 =>
      match v1.removeEdge eid e with
      | (v1', some er) => .err er (g.updateVtx v1')
      | (v1', none) =>
        let g1 := g.updateVtx v1'
        match g1.findVtx e.end2 with
        | none => .err .orphanRef g1
        | some v2 =>
          match v2.removeEdge eid e with
          | (v2', some er) => .err er (g1.updateVtx v2')
          | (v2', none) =>
            let g2 := g1.updateVtx v2'
            if eid ∈ g2.edgeList then
              .ok () { g2 with edgeList := g2.edgeList.erase eid }
            else
              .err .valueError g2

/-- `UndirectedGraph.remove_edge(end1_id, end2_id)`: validate endpoints, find
the first edge between them from `end1`, then `_remove_edge`. -/
def removeEdge (g : Graph) (a b : Nat) : PyResult Graph Unit :=
  match g.findVtx a, g.findVtx b with
  | none, _ => .err (.illegalArgument "The endpoints don't both exist.") g
  | _, none => .err (.illegalArgument "The endpoints don't both exist.") g
  | some v1, some _ =>
    match v1.getEdgeWithNeighbor g b with
    | none => .err (.illegalArgument "The edge to remove doesn't exist.") g
    | some eid => removeEdgeObj g eid

/-- The loop body of `UndirectedGraph._remove_vtx`: while the vertex object's
`_edges` is non-empty (re-read each iteration — `edges_to_remove` aliases the
live list), `_remove_edge(edges_to_remove[0])`.  Fuel bounds the recursion;
each successful `_remove_edge` strictly shrinks the list, so fuel
`(length of the list) + 1` suffices (see `removeVtxLoop_fuel`). -/
def removeVtxLoop (fuel : Nat) (g : Graph) (i : Nat) : PyResult Graph Unit :=
  match fuel with
  | 0 => .err .outOfFuel g
  | fuel + 1 =>
    match g.findVtx i with
    | none => .err .orphanRef g
    | some v =>
      match v.edges with
      | [] => .ok () g
      | eid :: _ =>
        match removeEdgeObj g eid with
        | .ok _ g' => removeVtxLoop fuel g' i
        | .err e g' => .err e g'

/-- `UndirectedGraph._remove_vtx(vtx_to_remove)`: cascade-remove all incident
edges (the loop above terminates because `edges_to_remove` aliases
`vtx_to_remove._edges`), then `_vtx_list.remove(vtx_to_remove)`. -/
def removeVtxObj (g : Graph) (i : Nat) : PyResult Graph Unit :=
  match g.findVtx i with
  | none => .err .orphanRef g
  | some v =>
    match removeVtxLoop (v.edges.length + 1) g i with
    | .err e g' => .err e g'
    | .ok _ g' =>
      .ok () { g' with vtxList := removeFirstById g'.vtxList i }

/-- `AbstractGraph.remove_vtx(vtx_id)` (from `graph_basics.py`): check the
vertex exists, then `_remove_vtx`. -/
def removeVtx (g : Graph) (i : Nat) : PyResult Graph Unit :=
  match g.findVtx i with
  | none => .err (.illegalArgument "The input vertex doesn't exist.") g
  | some _ => removeVtxObj g i

/-- `UndirectedGraph.remove_edges_between_pair(end1_id, end2_id)`:
`remove_edge` in a `while True` until it raises `IllegalArgumentError`
(caught and swallowed; any other exception propagates).  Each successful
round strictly shrinks `_edge_list`, so fuel `(length of _edge_list) + 1`
suffices (see `removeEdgesBetweenPair_fuel`). -/
def removeEdgesBetweenPair (fuel : Nat) (g : Graph) (a b : Nat) : PyResult Graph Unit :=
  match fuel with
  | 0 => .err .outOfFuel g
  | fuel + 1 =>
    match removeEdge g a b with
    | .ok _ g' => removeEdgesBetweenPair fuel g' a b
    | .err (.illegalArgument _) g' => .ok () g'
    | .err e g' => .err e g'

/-- `UndirectedGraph._get_next_vtx_id`:
`return max(vtx.id for vtx in self._vtx_list) + 1`.
The class defines the attribute `vtx_id` (with no `id` alias), so evaluating
`vtx.id` on the first vertex raises `AttributeError`; with an empty
`_vtx_list`, `max()` of an empty generator raises `ValueError` first. -/
def getNextVtxId (g : Graph) : PyResult Graph Nat :=
  match g.vtxList with
  | [] => .err .valueError g
  | _ :: _ => .err (.attributeError "'Vertex' object has no attribute 'id'") g

/-- Body of the `for edge_from_end in end.edges` loop of
`UndirectedGraph._reconnect_edges`: detach the edge from the neighbor,
redirect its `end`-side endpoint to the merged vertex, then re-attach it to
the neighbor and attach it to the merged vertex.  The iterated list is a
snapshot of `end._edges`, which the loop never mutates. -/
def reconnectEdgesLoop (endId mergedId : Nat) : List Nat → Graph → PyResult Graph Unit
  | [], g => .ok () g
  | eid :: rest, g =>
    match g.edgeObj eid with
    | none => .err .orphanRef g
    | some e =>
      -- find the neighbor on the far side of `end`
      let nbrId := if e.end1 == endId then e.end2 else e.end1
      let e' := if e.end1 == endId then { e with end1 := mergedId }
                else { e with end2 := mergedId }
      match g.findVtx nbrId with
      | none => .err .orphanRef g
      | some nbrV =>
        match nbrV.removeEdge eid e with
        | (nbrV', some er) => .err er (g.updateVtx nbrV')
        | (nbrV', none) =>
          -- `edge_from_end.end1 = merged_vtx` (resp. `.end2`)
          let g1 := (g.updateVtx nbrV').updateEdge eid e'
          -- `neighbor.add_edge(edge_from_end)` — on the redirected edge
          match g1.findVtx nbrId with
          | none => .err .orphanRef g1
          | some nbrV1 =>
            match nbrV1.addEdge eid e' with
            | .error er => .err er g1
            | .ok nbrV2 =>
              let g2 := g1.updateVtx nbrV2
              -- `merged_vtx.add_edge(edge_from_end)`
              match g2.findVtx mergedId with
              | none => .err .orphanRef g2
              | some mV =>
                match mV.addEdge eid e' with
                | .error er => .err er g2
                | .ok mV' => reconnectEdgesLoop endId mergedId rest (g2.updateVtx mV')

/-- `UndirectedGraph._reconnect_edges(end, merged_vtx)`: loop over
`end.edges`, then `_vtx_list.remove(end)`. -/
def reconnectEdges (g : Graph) (endId mergedId : Nat) : PyResult Graph Unit :=
  match g.findVtx endId with
  | none => .err .orphanRef g
  | some v =>
    match reconnectEdgesLoop endId mergedId v.edges g with
    | .err e g' => .err e g'
    | .ok _ g' => .ok () { g' with vtxList := removeFirstById g'.vtxList endId }

/-- One pass of the `while len(self._vtx_list) > 2` loop of
`UndirectedGraph.compute_minimum_cut`, with the random draws supplied as a
stream: iteration `t` draws `random.randint(0, len(edge_list) - 1)`, modelled
as `rand t % len` (every index is reachable by a suitable stream; with an
empty `_edge_list`, `randint(0, -1)` raises `ValueError`). -/
def computeMinimumCutLoop (fuel : Nat) (rand : Nat → Nat) (t : Nat) (g : Graph) :
    PyResult Graph Nat :=
  match fuel with
  | 0 => .err .outOfFuel g
  | fuel + 1 =>
    if g.vtxList.length > 2 then
      match g.edgeList with
      | [] => .err .valueError g
      | _ :: _ =>
        match g.edgeList[rand t % g.edgeList.length]? with
        | none => .err .indexError g
        | some eid =>
          match g.edgeObj eid with
          | none => .err .orphanRef g
          | some e =>
            -- `end1, end2 = edge_to_contract.end1, edge_to_contract.end2`
            match removeEdgesBetweenPair (g.edgeList.length + 1) g e.end1 e.end2 with
            | .err er g' => .err er g'
            | .ok _ g' =>
              match getNextVtxId g' with
              | .err er g'' => .err er g''
              | .ok mid g'' =>
                match addVtx g'' mid with
                | .err er g3 => .err er g3
                | .ok _ g3 =>
                  match reconnectEdges g3 e.end1 mid with
                  | .err er g4 => .err er g4
                  | .ok _ g4 =>
                    match reconnectEdges g4 e.end2 mid with
                    | .err er g5 => .err er g5
                    | .ok _ g5 => computeMinimumCutLoop fuel rand (t + 1) g5
    else
      .ok g.edgeList.length g

/-- `UndirectedGraph.compute_minimum_cut()`.  Each successful contraction
shrinks `_vtx_list` by one, so `len(_vtx_list) + 1` rounds of fuel suffice. -/
def computeMinimumCut (rand : Nat → Nat) (g : Graph) : PyResult Graph Nat :=
  if g.vtxList.length ≤ 1 then .ok 0 g
  else computeMinimumCutLoop (g.vtxList.length + 1) rand 0 g

/-- Does edge `eid` join vertex `vid` to the neighbor `n`?  The neighbor is
read off an edge exactly as the code does (`end2` if `end1 is self` else
`end1`). -/
def nbrTest (g : Graph) (vid n eid : Nat) : Bool :=
  match g.edgeObj eid with
  | some e => (if e.end1 == vid then e.end2 else e.end1) == n
  | none => false

/-- Number of edges in `l` joining vertex `vid` to the neighbor `n`. -/
def nbrCount (g : Graph) (vid n : Nat) (l : List Nat) : Nat :=
  (l.filter (nbrTest g vid n)).length

/-- Well-formedness of a graph state.  `sync1`/`sync2` express the edge-list /
incidence-list synchronisation of claim C1; the remaining fields are the
bookkeeping facts needed to push the invariant through the operations. -/
structure WF (g : Graph) : Prop where
  nodupIds : (g.vtxList.map Vertex.vtxId).Nodup
  nodupEdges : g.edgeList.Nodup
  heapFresh : ∀ p ∈ g.edgeHeap, p.1 < g.nextEdgeId
  sync1 : ∀ eid ∈ g.edgeList, ∃ e, g.edgeObj eid = some e ∧ e.end1 ≠ e.end2 ∧
    (∃ v1, g.findVtx e.end1 = some v1 ∧ eid ∈ v1.edges) ∧
    (∃ v2, g.findVtx e.end2 = some v2 ∧ eid ∈ v2.edges)
  vNodup : ∀ v ∈ g.vtxList, v.edges.Nodup
  sync2 : ∀ v ∈ g.vtxList, ∀ eid ∈ v.edges, eid ∈ g.edgeList ∧
    ∃ e, g.edgeObj eid = some e ∧ (e.end1 = v.vtxId ∨ e.end2 = v.vtxId)
  freqKeys : ∀ v ∈ g.vtxList, (v.freqOfNeighbors.map Prod.fst).Nodup
  freq : ∀ v ∈ g.vtxList, ∀ n, Py.dictGet? v.freqOfNeighbors n =
    (if nbrCount g v.vtxId n v.edges = 0 then none
     else some (nbrCount g v.vtxId n v.edges))

/-- Graph states reachable through the public mutation operations, starting
from a freshly-constructed graph; a failed operation contributes the state at
the moment of the raise. -/
inductive Reachable : Graph → Prop where
  | empty : Reachable emptyGraph
  | addVtx {g} (h : Reachable g) (i : Nat) : Reachable (MinCut.addVtx g i).state
  | addEdge {g} (h : Reachable g) (a b : Nat) : Reachable (MinCut.addEdge g a b).state
  | removeEdge {g} (h : Reachable g) (a b : Nat) : Reachable (MinCut.removeEdge g a b).state
  | removeVtx {g} (h : Reachable g) (i : Nat) : Reachable (MinCut.removeVtx g i).state

/-- The vertex after `Vertex.add_edge` succeeds: the edge appended, the
neighbor frequency bumped. -/
def Vertex.withEdgeAdded (self : Vertex) (eid nbr : Nat) : Vertex :=
  { self with
    edges := self.edges ++ [eid],
    freqOfNeighbors :=
      Py.dictSet self.freqOfNeighbors nbr (Py.dictGet self.freqOfNeighbors nbr 0 + 1) }

/-- The synchronisation property of claim C1: an edge object is in
`_edge_list` iff it is in the incidence list of each of its two endpoint
vertices. -/
def EdgeSync (g : Graph) : Prop :=
  ∀ eid e, g.edgeObj eid = some e →
    (eid ∈ g.edgeList ↔
      (∃ v1, g.findVtx e.end1 = some v1 ∧ eid ∈ v1.edges) ∧
      (∃ v2, g.findVtx e.end2 = some v2 ∧ eid ∈ v2.edges))

/-- Example graph for the witnesses: vertices 1, 2, 3 and edges
(1,2), (2,3), (1,3), built through the public operations. -/
def exampleGraph : Graph :=
  (MinCut.addEdge (MinCut.addEdge (MinCut.addEdge
    (MinCut.addVtx (MinCut.addVtx (MinCut.addVtx emptyGraph 1).state 2).state 3).state
    1 2).state 2 3).state 1 3).state

end MinCut

/-! ## BFS and shortest paths
(`src/2-Graph Search, Shortest Path, and Data Structures/3-Graph Search/BFS & DFS/Python/undirected_graph.py`)

Object identity is modelled by vertex ids (unique in graphs built through
`add_vtx`, which rejects duplicates) and by allocation ids for edges, as in
the `MinCut` embedding.  The base class `AbstractVertex` (from the sibling
`graph_basics.py`, which this module imports) contributes the `_explored`
flag and the `_layer` counter used by `bfs` and `shortest_path`. -/

namespace Bfs

/-- `Vertex(vtx_id)`: `_explored = False` and `_layer = 0` from
`AbstractVertex.__init__`, plus `_freq_of_neighbors = {}` and `_edges = []`. -/
structure Vertex where
  vtxId : Nat
  explored : Bool
  layer : Nat
  freqOfNeighbors : List (Nat × Nat)
  edges : List Nat
deriving Repr, DecidableEq

/-- `UndirectedEdge(end1, end2)`, endpoints by vertex id. -/
structure UEdge where
  end1 : Nat
  end2 : Nat
deriving Repr, DecidableEq

/-- `UndirectedGraph`: `_vtx_list`, `_edge_list` (edge ids into the
never-deleted object store `edgeHeap`), and the allocation counter. -/
structure Graph where
  vtxList : List Vertex
  edgeList : List Nat
  edgeHeap : List (Nat × UEdge)
  nextEdgeId : Nat
deriving Repr, DecidableEq

/-- `UndirectedGraph.__init__`. -/
def emptyGraph : Graph := ⟨[], [], [], 0⟩

/-- Dereference an edge id in the object store. -/
def Graph.edgeObj (g : Graph) (eid : Nat) : Option UEdge :=
  (g.edgeHeap.find? (fun p => p.1 == eid)).map Prod.snd

/-- `AbstractGraph._find_vtx(vtx_id)`: first vertex with the given id. -/
def Graph.findVtx (g : Graph) (i : Nat) : Option Vertex :=
  g.vtxList.find? (fun v => v.vtxId == i)

/-- Write back a mutated vertex object (object identity = vertex id). -/
def Graph.updateVtx (g : Graph) (v' : Vertex) : Graph :=
  { g with vtxList := g.vtxList.map (fun w => if w.vtxId == v'.vtxId then v' else w) }

/-- `Vertex.add_edge(new_edge)`: involve-this-vertex check, append to
`_edges`, bump the neighbor's frequency. -/
def Vertex.addEdge (self : Vertex) (eid : Nat) (e : UEdge) : Except PyErr Vertex :=
  if e.end1 ≠ self.vtxId ∧ e.end2 ≠ self.vtxId then
    .error (.illegalArgument "The edge to add should involve this vertex.")
  else
    let nbr := if e.end1 == self.vtxId then e.end2 else e.end1
    let freq := Py.dictGet self.freqOfNeighbors nbr 0 + 1
    .ok { self with
          edges := self.edges ++ [eid],
          freqOfNeighbors := Py.dictSet self.freqOfNeighbors nbr freq }

/-- `UndirectedGraph.add_vtx(new_vtx_id)`: reject duplicates, append a fresh
vertex. -/
def addVtx (g : Graph) (i : Nat) : PyResult Graph Unit :=
  match g.findVtx i with
  | some _ => .err (.illegalArgument "The input vertex is repeated.") g
  | none =>
    .ok () { g with vtxList := g.vtxList ++
      [{ vtxId := i, explored := false, layer := 0, freqOfNeighbors := [], edges := [] }] }

/-- `UndirectedGraph._add_edge(new_edge)` for the already-allocated edge
`eid`: `end1.add_edge`, `end2.add_edge`, then append to `_edge_list`. -/
def addEdgeObj (g : Graph) (eid : Nat) : PyResult Graph Unit :=
  match g.edgeObj eid with
  | none => .err .orphanRef g
  | some e =>
    match g.findVtx e.end1 with
    | none => .err .orphanRef g
    | some v1 =>
      match v1.addEdge eid e with
      | .error er => .err er g
      | .ok v1' =>
        let g1 := g.updateVtx v1'
        match g1.findVtx e.end2 with
        | none => .err .orphanRef g1
        | some v2 =>
          match v2.addEdge eid e with
          | .error er => .err er g1
          | .ok v2' =>
            let g2 := g1.updateVtx v2'
            .ok () { g2 with edgeList := g2.edgeList ++ [eid] }

/-- `UndirectedGraph.add_edge(end1_id, end2_id)`: validate endpoints, reject
self-loops, allocate `UndirectedEdge(end1, end2)`, then `_add_edge`. -/
def addEdge (g : Graph) (a b : Nat) : PyResult Graph Unit :=
  match g.findVtx a, g.findVtx b with
  | none, _ => .err (.illegalArgument "The endpoints don't both exist.") g
  | _, none => .err (.illegalArgument "The endpoints don't both exist.") g
  | some _, some _ =>
    if a = b then
      .err (.illegalArgument "The endpoints are the same (self-loop).") g
    else
      let eid := g.nextEdgeId
      let g1 := { g with edgeHeap := g.edgeHeap ++ [(eid, ⟨a, b⟩)], nextEdgeId := eid + 1 }
      addEdgeObj g1 eid

/-- The declared vertex ids, in insertion order. -/
def ids (g : Graph) : List Nat := g.vtxList.map Vertex.vtxId

/-- The `_explored` flag of the vertex with id `i` (`false` if absent). -/
def exploredFlag (g : Graph) (i : Nat) : Bool :=
  match g.findVtx i with
  | some v => v.explored
  | none => false

/-- The `_layer` field of the vertex with id `i` (`0` if absent). -/
def layerOf (g : Graph) (i : Nat) : Nat :=
  match g.findVtx i with
  | some v => v.layer
  | none => 0

/-- The inner `for edge in vtx.edges` loop of `shortest_path`, over the
snapshot `todo` of `vtx.edges` (the loop mutates no incidence list).
`destOpt` is the identity of the destination object looked up before the
loop (`none` when the destination id names no vertex, and then
`neighbor is dest_vtx` can never hold).  The popped vertex's `layer` is
re-read from the live state at each use, as `vtx.layer` is.  Returns
`Sum.inr layer` for the early `return dest_vtx.layer`, otherwise the updated
graph and queue. -/
def spProcessEdges (destOpt : Option Nat) (vid : Nat) :
    List Nat → Graph → List Nat → Except PyErr (Sum (Graph × List Nat) Nat)
  | [], g, q => .ok (.inl (g, q))
  | eid :: rest, g, q =>
    match g.edgeObj eid with
    | none => .error .orphanRef
    | some e =>
      let nbrId := if e.end1 == vid then e.end2 else e.end1
      match g.findVtx nbrId with
      | none => .error .orphanRef
      | some nbr =>
        if nbr.explored then
          spProcessEdges destOpt vid rest g q
        else
          match g.findVtx vid with
          | none => .error .orphanRef
          | some v =>
            let g' := g.updateVtx { nbr with explored := true, layer := v.layer + 1 }
            if destOpt == some nbrId then
              .ok (.inr (v.layer + 1))
            else
              spProcessEdges destOpt vid rest g' (q ++ [nbrId])

/-- The `while not queue.empty()` loop of `shortest_path`, fuel-bounded. -/
def spLoop (destOpt : Option Nat) : Nat → Graph → List Nat → Except PyErr Int
  | 0, _, _ => .error .outOfFuel
  | fuel + 1, g, queue =>
    match queue with
    | [] => .ok (-1)
    | vid :: qrest =>
      match g.findVtx vid with
      | none => .error .orphanRef
      | some v =>
        match spProcessEdges destOpt vid v.edges g qrest with
        | .error er => .error er
        | .ok (.inr ans) => .ok (Int.ofNat ans)
        | .ok (.inl (g', q')) => spLoop destOpt fuel g' q'

/-- `UndirectedGraph.shortest_path(src_vtx_id, dest_vtx_id)`: both endpoints
are looked up, but only the source is checked; `-1` when the BFS drains the
queue without discovering the destination.  One vertex is enqueued at most
once, so `len(_vtx_list) + 1` rounds of fuel suffice (`spLoop_fuel` facts in
the main theorem). -/
def shortestPath (g : Graph) (srcId destId : Nat) : Except PyErr Int :=
  match g.findVtx srcId with
  | none =>
    .error (.illegalArgument "The input source and destination vertices don't both exist.")
  | some src =>
    let destOpt := (g.findVtx destId).map Vertex.vtxId
    spLoop destOpt (g.vtxList.length + 1) (g.updateVtx { src with explored := true }) [srcId]

/-- The inner `for edge in vtx.edges` loop of `bfs`: unexplored neighbors are
marked explored, appended to `findable_vtx_ids` and enqueued. -/
def bfsProcessEdges (vid : Nat) :
    List Nat → Graph → List Nat → List Nat → Except PyErr (Graph × List Nat × List Nat)
  | [], g, q, found => .ok (g, q, found)
  | eid :: rest, g, q, found =>
    match g.edgeObj eid with
    | none => .error .orphanRef
    | some e =>
      let nbrId := if e.end1 == vid then e.end2 else e.end1
      match g.findVtx nbrId with
      | none => .error .orphanRef
      | some nbr =>
        if nbr.explored then
          bfsProcessEdges vid rest g q found
        else
          bfsProcessEdges vid rest (g.updateVtx { nbr with explored := true })
            (q ++ [nbrId]) (found ++ [nbrId])

/-- The `while not queue.empty()` loop of `bfs`, fuel-bounded. -/
def bfsLoop : Nat → Graph → List Nat → List Nat → Except PyErr (List Nat)
  | 0, _, _, _ => .error .outOfFuel
  | fuel + 1, g, queue, found =>
    match queue with
    | [] => .ok found
    | vid :: qrest =>
      match g.findVtx vid with
      | none => .error .orphanRef
      | some v =>
        match bfsProcessEdges vid v.edges g qrest found with
        | .error er => .error er
        | .ok (g', q', found') => bfsLoop fuel g' q' found'

/-- `UndirectedGraph.bfs(src_vtx_id)`: check the source, mark it explored,
run the queue loop starting from `[src]`, return `findable_vtx_ids`. -/
def bfs (g : Graph) (srcId : Nat) : Except PyErr (List Nat) :=
  match g.findVtx srcId with
  | none => .error (.illegalArgument "The input source vertex doesn't exist.")
  | some src =>
    bfsLoop (g.vtxList.length + 1) (g.updateVtx { src with explored := true })
      [srcId] [srcId]

/-- One edge step read off the incidence list of `a`, exactly as the BFS
loop reads neighbors: some edge of `a` dereferences to an edge whose far
endpoint (`end2` if `end1 is a` else `end1`) is `b`. -/
def Adj (g : Graph) (a b : Nat) : Prop :=
  ∃ va, g.findVtx a = some va ∧ ∃ eid ∈ va.edges, ∃ e, g.edgeObj eid = some e ∧
    (if e.end1 == a then e.end2 else e.end1) = b

/-- A walk of exactly `n` edges from `src`, following `Adj`. -/
inductive HasPath (g : Graph) (src : Nat) : Nat → Nat → Prop
  | zero : HasPath g src src 0
  | succ {z y : Nat} {m : Nat} : HasPath g src z m → Adj g z y → HasPath g src y (m + 1)

/-- Executable well-formedness of one incidence-list entry: the edge id
dereferences, and the far endpoint read off it is a declared vertex id. -/
def edgeOkB (g : Graph) (vid eid : Nat) : Bool :=
  match g.edgeObj eid with
  | some e => (ids g).contains (if e.end1 == vid then e.end2 else e.end1)
  | none => false

/-- The incidence list of the vertex with id `i` (empty if absent). -/
def edgesOf (g : Graph) (i : Nat) : List Nat :=
  match g.findVtx i with
  | some v => v.edges
  | none => []

/-- The far endpoint of edge `eid` as read from vertex `a` (`end2` if
`end1 is a` else `end1`). -/
def edgeStep (g : Graph) (eid : Nat) (a : Nat) : Option Nat :=
  (g.edgeObj eid).map (fun e => if e.end1 == a then e.end2 else e.end1)

/-- Number of unexplored vertices (the BFS termination measure, together
with the queue length). -/
def unexploredCount (g : Graph) : Nat :=
  g.vtxList.countP (fun v => !v.explored)

/-- Loop invariant of the `shortest_path` BFS at the top of the `while`:
`g₀` is the graph as passed in (before the source was marked explored), `g`
the live state, `q` the queue contents (vertex ids).  The queue splits into
a block at layer `c` followed by a block at layer `c + 1`; every explored
vertex's `layer` is its exact BFS distance from `src`; explored vertices no
longer in the queue are fully processed; the destination object (if any) is
still unexplored, or the loop would have returned. -/
structure SpInv (g₀ : Graph) (src : Nat) (destOpt : Option Nat)
    (g : Graph) (q : List Nat) : Prop where
  hids : ids g = ids g₀
  hedges : ∀ j, edgesOf g j = edgesOf g₀ j
  hheap : g.edgeHeap = g₀.edgeHeap
  srcExp : exploredFlag g src = true
  qIds : ∀ x ∈ q, x ∈ ids g₀
  qExp : ∀ x ∈ q, exploredFlag g x = true
  qSplit : ∃ c q1 q2, q = q1 ++ q2 ∧ (q1 = [] → q2 = []) ∧
    (∀ x ∈ q1, layerOf g x = c) ∧ (∀ x ∈ q2, layerOf g x = c + 1)
  expDist : ∀ x, exploredFlag g x = true →
    HasPath g₀ src x (layerOf g x) ∧ ∀ m, HasPath g₀ src x m → layerOf g x ≤ m
  expFP : ∀ x, exploredFlag g x = true → x ∉ q →
    ∀ y, Adj g₀ x y → exploredFlag g y = true
  destUnexp : ∀ d, destOpt = some d → exploredFlag g d = false

/-- Invariant of the inner `for edge in vtx.edges` loop: vertex `vid` (at
layer `c`) has been popped, `todo` is the unprocessed suffix of the snapshot
of its incidence list, `q` the current queue. -/
structure SpMidInv (g₀ : Graph) (src : Nat) (destOpt : Option Nat)
    (g : Graph) (vid : Nat) (c : Nat) (q : List Nat) (todo : List Nat) : Prop where
  hids : ids g = ids g₀
  hedges : ∀ j, edgesOf g j = edgesOf g₀ j
  hheap : g.edgeHeap = g₀.edgeHeap
  srcExp : exploredFlag g src = true
  vExp : exploredFlag g vid = true
  vLayer : layerOf g vid = c
  vSplit : ∃ done, edgesOf g₀ vid = done ++ todo ∧
    ∀ eid ∈ done, ∀ b, edgeStep g₀ eid vid = some b → exploredFlag g b = true
  qIds : ∀ x ∈ q, x ∈ ids g₀
  qExp : ∀ x ∈ q, exploredFlag g x = true
  qSplit : ∃ q1 q2, q = q1 ++ q2 ∧
    (∀ x ∈ q1, layerOf g x = c) ∧ (∀ x ∈ q2, layerOf g x = c + 1)
  expDist : ∀ x, exploredFlag g x = true →
    HasPath g₀ src x (layerOf g x) ∧ ∀ m, HasPath g₀ src x m → layerOf g x ≤ m
  expFP : ∀ x, exploredFlag g x = true → x ≠ vid → x ∉ q →
    ∀ y, Adj g₀ x y → exploredFlag g y = true
  destUnexp : ∀ d, destOpt = some d → exploredFlag g d = false

/-- The 6-vertex cycle-plus-chord graph of the claim,
edges {(1,2),(2,3),(3,4),(4,5),(5,6),(6,1),(1,4)}, built through the public
operations. -/
def example6 : Graph :=
  (addEdge (addEdge (addEdge (addEdge (addEdge (addEdge (addEdge
    (addVtx (addVtx (addVtx (addVtx (addVtx (addVtx emptyGraph
      1).state 2).state 3).state 4).state 5).state 6).state
    1 2).state 2 3).state 3 4).state 4 5).state 5 6).state 6 1).state 1 4).state

end Bfs

/-! ## Directed graphs
(`src/2-Graph Search, Shortest Path, and Data Structures/3-Graph Search (BFS & DFS)/Python/directed_graph.py`)

Object identity by vertex id / edge allocation id as before.  The Python
`set`s `_emissive_neighbors` / `_incident_neighbors` are modelled as
duplicate-free lists (`add_edge` checks membership before inserting). -/

namespace Digraph

/-- `Vertex(vtx_id)`: `_explored`/`_layer` from `AbstractVertex`, plus the
emissive/incident edge lists and neighbor-id sets. -/
structure DVertex where
  vtxId : Nat
  explored : Bool
  layer : Nat
  emissiveEdges : List Nat
  emissiveNbrs : List Nat
  incidentEdges : List Nat
  incidentNbrs : List Nat
deriving Repr, DecidableEq

/-- `DirectedEdge(tail, head)`, endpoints by vertex id. -/
structure DEdge where
  tail : Nat
  head : Nat
deriving Repr, DecidableEq

/-- `DirectedGraph`. -/
structure DGraph where
  vtxList : List DVertex
  edgeList : List Nat
  edgeHeap : List (Nat × DEdge)
  nextEdgeId : Nat
deriving Repr, DecidableEq

def emptyGraph : DGraph := ⟨[], [], [], 0⟩

def DGraph.edgeObj (g : DGraph) (eid : Nat) : Option DEdge :=
  (g.edgeHeap.find? (fun p => p.1 == eid)).map Prod.snd

/-- `AbstractGraph._find_vtx(vtx_id)`. -/
def DGraph.findVtx (g : DGraph) (i : Nat) : Option DVertex :=
  g.vtxList.find? (fun v => v.vtxId == i)

def DGraph.updateVtx (g : DGraph) (v' : DVertex) : DGraph :=
  { g with vtxList := g.vtxList.map (fun w => if w.vtxId == v'.vtxId then v' else w) }

/-- `Vertex.add_emissive_edge(new_emissive_edge)`: tail-identity check, then
the duplicate check against `_emissive_neighbors`. -/
def DVertex.addEmissiveEdge (self : DVertex) (eid : Nat) (e : DEdge) :
    Except PyErr DVertex :=
  if e.tail ≠ self.vtxId then
    .error (.illegalArgument "The emissive edge to add should involve this vertex as the tail.")
  else if e.head ∈ self.emissiveNbrs then
    .error (.illegalArgument "The emissive edge already exists.")
  else
    .ok { self with emissiveEdges := self.emissiveEdges ++ [eid],
                    emissiveNbrs := self.emissiveNbrs ++ [e.head] }

/-- `Vertex.add_incident_edge(new_incident_edge)`. -/
def DVertex.addIncidentEdge (self : DVertex) (eid : Nat) (e : DEdge) :
    Except PyErr DVertex :=
  if e.head ≠ self.vtxId then
    .error (.illegalArgument "The incident edge to add should involve this vertex as the head.")
  else if e.tail ∈ self.incidentNbrs then
    .error (.illegalArgument "The incident edge already exists.")
  else
    .ok { self with incidentEdges := self.incidentEdges ++ [eid],
                    incidentNbrs := self.incidentNbrs ++ [e.tail] }

/-- `Vertex.remove_emissive_edge(emissive_edge_to_remove)`: the two checks
raise before any mutation; afterwards `list.remove` and `set.remove`. -/
def DVertex.removeEmissiveEdge (self : DVertex) (eid : Nat) (e : DEdge) :
    DVertex × Option PyErr :=
  if e.tail ≠ self.vtxId then
    (self, some (.illegalArgument
      "The emissive edge to remove should involve this vertex as the tail."))
  else if e.head ∉ self.emissiveNbrs then
    (self, some (.illegalArgument "The emissive edge to remove doesn't exist."))
  else if eid ∉ self.emissiveEdges then
    (self, some .valueError)
  else
    ({ self with emissiveEdges := self.emissiveEdges.erase eid,
                 emissiveNbrs := self.emissiveNbrs.erase e.head }, none)

/-- `Vertex.remove_incident_edge(incident_edge_to_remove)`. -/
def DVertex.removeIncidentEdge (self : DVertex) (eid : Nat) (e : DEdge) :
    DVertex × Option PyErr :=
  if e.head ≠ self.vtxId then
    (self, some (.illegalArgument
      "The incident edge to remove should involve this vertex as the head."))
  else if e.tail ∉ self.incidentNbrs then
    (self, some (.illegalArgument "The incident edge to remove doesn't exist."))
  else if eid ∉ self.incidentEdges then
    (self, some .valueError)
  else
    ({ self with incidentEdges := self.incidentEdges.erase eid,
                 incidentNbrs := self.incidentNbrs.erase e.tail }, none)

/-- `DirectedGraph.add_vtx(new_vtx_id)`. -/
def addVtx (g : DGraph) (i : Nat) : PyResult DGraph Unit :=
  match g.findVtx i with
  | some _ => .err (.illegalArgument "The input vertex is repeated.") g
  | none =>
    .ok () { g with vtxList := g.vtxList ++
      [{ vtxId := i, explored := false, layer := 0, emissiveEdges := [],
         emissiveNbrs := [], incidentEdges := [], incidentNbrs := [] }] }

/-- `DirectedGraph._add_edge(new_edge)` for the allocated edge `eid`. -/
def addEdgeObj (g : DGraph) (eid : Nat) : PyResult DGraph Unit :=
  match g.edgeObj eid with
  | none => .err .orphanRef g
  | some e =>
    match g.findVtx e.tail with
    | none => .err .orphanRef g
    | some vt =>
      match vt.addEmissiveEdge eid e with
      | .error er => .err er g
      | .ok vt' =>
        let g1 := g.updateVtx vt'
        match g1.findVtx e.head with
        | none => .err .orphanRef g1
        | some vh =>
          match vh.addIncidentEdge eid e with
          | .error er => .err er g1
          | .ok vh' =>
            let g2 := g1.updateVtx vh'
            .ok () { g2 with edgeList := g2.edgeList ++ [eid] }

/-- `DirectedGraph.add_edge(tail_id, head_id)`. -/
def addEdge (g : DGraph) (a b : Nat) : PyResult DGraph Unit :=
  match g.findVtx a, g.findVtx b with
  | none, _ => .err (.illegalArgument "The endpoints don't both exist.") g
  | _, none => .err (.illegalArgument "The endpoints don't both exist.") g
  | some _, some _ =>
    if a = b then
      .err (.illegalArgument "The endpoints are the same (self-loop).") g
    else
      let eid := g.nextEdgeId
      let g1 := { g with edgeHeap := g.edgeHeap ++ [(eid, ⟨a, b⟩)], nextEdgeId := eid + 1 }
      addEdgeObj g1 eid

/-- `DirectedGraph._remove_edge(edge_to_remove)`: `tail.remove_emissive_edge`,
`head.remove_incident_edge`, `_edge_list.remove` — raises midway leave the
earlier mutations in place. -/
def removeEdgeObjD (g : DGraph) (eid : Nat) : PyResult DGraph Unit :=
  match g.edgeObj eid with
  | none => .err .orphanRef g
  | some e =>
    match g.findVtx e.tail with
    | none => .err .orphanRef g
    | some vt =>
      match vt.removeEmissiveEdge eid e with
      | (vt', some er) => .err er (g.updateVtx vt')
      | (vt', none) =>
        let g1 := g.updateVtx vt'
        match g1.findVtx e.head with
        | none => .err .orphanRef g1
        | some vh =>
          match vh.removeIncidentEdge eid e with
          | (vh', some er) => .err er (g1.updateVtx vh')
          | (vh', none) =>
            let g2 := g1.updateVtx vh'
            if eid ∈ g2.edgeList then
              .ok () { g2 with edgeList := g2.edgeList.erase eid }
            else
              .err .valueError g2

/-- The `while len(edges_to_remove) > 0` loop of `DirectedGraph._remove_vtx`.
Unlike the undirected variant, `edges_to_remove` here is a NEW list built
with `extend`, so removing an edge from the graph never shrinks it: the loop
re-processes `edges_to_remove[0]` forever.  On the second round
`tail.remove_emissive_edge` raises `IllegalArgumentError` (the head id is no
longer in `_emissive_neighbors`), which propagates. -/
def removeVtxLoopD (fuel : Nat) (g : DGraph) (edges : List Nat) : PyResult DGraph Unit :=
  match fuel with
  | 0 => .err .outOfFuel g
  | fuel + 1 =>
    match edges with
    | [] => .ok () g
    | eid :: _ =>
      match removeEdgeObjD g eid with
      | .ok _ g' => removeVtxLoopD fuel g' edges
      | .err e g' => .err e g'

/-- `DirectedGraph._remove_vtx(vtx_to_remove)`. -/
def removeVtxObjD (g : DGraph) (i : Nat) : PyResult DGraph Unit :=
  match g.findVtx i with
  | none => .err .orphanRef g
  | some v =>
    let edgesToRemove := v.emissiveEdges ++ v.incidentEdges
    match removeVtxLoopD (edgesToRemove.length + 2) g edgesToRemove with
    | .err e g' => .err e g'
    | .ok _ g' =>
      .ok () { g' with vtxList :=
        match g'.vtxList.findIdx? (fun w => w.vtxId == i) with
        | some k => g'.vtxList.eraseIdx k
        | none => g'.vtxList }

/-- The inner `for edge in vtx.emissive_edges` loop of
`_dfs_helper_with_finish_time`, parametrized by the recursive call on the
discovered head. -/
def dfsFinEdges
    (recurse : DGraph → Nat → List Nat → Except PyErr (DGraph × List Nat)) :
    DGraph → List Nat → List Nat → Except PyErr (DGraph × List Nat)
  | g, [], acc => .ok (g, acc)
  | g, eid :: rest, acc =>
    match g.edgeObj eid with
    | none => .error .orphanRef
    | some e =>
      match g.findVtx e.head with
      | none => .error .orphanRef
      | some w =>
        if w.explored then
          dfsFinEdges recurse g rest acc
        else
          match recurse (g.updateVtx { w with explored := true }) e.head acc with
          | .error er => .error er
          | .ok (g2, acc2) => dfsFinEdges recurse g2 rest acc2

/-- `_dfs_helper_with_finish_time(vtx, ...)`: process the emissive edges,
then append `vtx` (its finishing time). -/
def dfsFinVtx : Nat → DGraph → Nat → List Nat → Except PyErr (DGraph × List Nat)
  | 0, _, _, _ => .error .outOfFuel
  | fuel + 1, g, vid, acc =>
    match g.findVtx vid with
    | none => .error .orphanRef
    | some v =>
      match dfsFinEdges (dfsFinVtx fuel) g v.emissiveEdges acc with
      | .error er => .error er
      | .ok (g', acc') => .ok (g', acc' ++ [vid])

/-- The inner loop of `_dfs_helper` (findable ids appended at discovery). -/
def dfsPlainEdges
    (recurse : DGraph → Nat → List Nat → Except PyErr (DGraph × List Nat)) :
    DGraph → List Nat → List Nat → Except PyErr (DGraph × List Nat)
  | g, [], acc => .ok (g, acc)
  | g, eid :: rest, acc =>
    match g.edgeObj eid with
    | none => .error .orphanRef
    | some e =>
      match g.findVtx e.head with
      | none => .error .orphanRef
      | some w =>
        if w.explored then
          dfsPlainEdges recurse g rest acc
        else
          match recurse (g.updateVtx { w with explored := true }) e.head
              (acc ++ [e.head]) with
          | .error er => .error er
          | .ok (g2, acc2) => dfsPlainEdges recurse g2 rest acc2

/-- `DirectedGraph._dfs_helper(vtx, findable_vtx_ids)`. -/
def dfsPlainVtx : Nat → DGraph → Nat → List Nat → Except PyErr (DGraph × List Nat)
  | 0, _, _, _ => .error .outOfFuel
  | fuel + 1, g, vid, acc =>
    match g.findVtx vid with
    | none => .error .orphanRef
    | some v => dfsPlainEdges (dfsPlainVtx fuel) g v.emissiveEdges acc

/-- Pass 1 (`_get_vtxs_sorted_by_finish_time`): DFS-loop over `_vtx_list` on
the ORIGINAL graph, collecting vertices by increasing finishing time. -/
def passOne : List Nat → DGraph → List Nat → Except PyErr (DGraph × List Nat)
  | [], g, acc => .ok (g, acc)
  | vid :: rest, g, acc =>
    match g.findVtx vid with
    | none => .error .orphanRef
    | some v =>
      if v.explored then
        passOne rest g acc
      else
        match dfsFinVtx (g.vtxList.length + 1) (g.updateVtx { v with explored := true })
            vid acc with
        | .error er => .error er
        | .ok (g2, acc2) => passOne rest g2 acc2

/-- `AbstractGraph.clear_explored()`. -/
def clearExplored (g : DGraph) : DGraph :=
  { g with vtxList := g.vtxList.map (fun v => { v with explored := false }) }

/-- Pass 2 of `num_of_connected_components_with_dfs`: iterate the vertices in
INCREASING finishing-time order (the list is not reversed), launching
`dfs` from each unexplored one and counting launches. -/
def passTwo : List Nat → DGraph → Nat → Except PyErr (DGraph × Nat)
  | [], g, count => .ok (g, count)
  | vid :: rest, g, count =>
    match g.findVtx vid with
    | none => .error .orphanRef
    | some v =>
      if v.explored then
        passTwo rest g count
      else
        match dfsPlainVtx (g.vtxList.length + 1)
            (g.updateVtx { v with explored := true }) vid [vid] with
        | .error er => .error er
        | .ok (g2, _) => passTwo rest g2 (count + 1)

/-- `DirectedGraph.num_of_connected_components_with_dfs()`. -/
def numOfConnectedComponentsWithDfs (g : DGraph) : Except PyErr Nat :=
  match passOne (g.vtxList.map DVertex.vtxId) g [] with
  | .error er => .error er
  | .ok (g1, sorted) =>
    match passTwo sorted (clearExplored g1) 0 with
    | .error er => .error er
    | .ok (_, count) => .ok count

/-- `DirectedGraph._get_sink_vertex()`: first vertex with no emissive edges. -/
def getSinkVertex (g : DGraph) : Option DVertex :=
  g.vtxList.find? (fun v => v.emissiveEdges.isEmpty)

/-- `DirectedGraph._topological_sort_straightforward_helper`. -/
def topoHelper : Nat → DGraph → List Nat → PyResult DGraph (List Nat)
  | 0, g, arr => .ok arr g
  | curr + 1, g, arr =>
    match getSinkVertex g with
    | none => .ok arr g
    | some v =>
      match removeVtxObjD g v.vtxId with
      | .err e g' => .err e g'
      | .ok _ g' => topoHelper curr g' (arr.set curr v.vtxId)

/-- `DirectedGraph.topological_sort_straightforward()`. -/
def topologicalSortStraightforward (g : DGraph) : PyResult DGraph (List Nat) :=
  topoHelper g.vtxList.length g (List.replicate g.vtxList.length 0)

/-- One directed step read off a vertex's emissive list. -/
def dAdjB (g : DGraph) (a b : Nat) : Bool :=
  match g.findVtx a with
  | some va => va.emissiveEdges.any (fun eid =>
      match g.edgeObj eid with
      | some e => e.head == b
      | none => false)
  | none => false

/-- Directed reachability along emissive edges (the spec-side notion used to
count strongly-connected components). -/
inductive DReach (g : DGraph) (a : Nat) : Nat → Prop
  | refl : DReach g a a
  | step {b c : Nat} : DReach g a b → dAdjB g b c = true → DReach g a c

/-- The 3-vertex counterexample graph: edges 1→2, 2→1, 1→3.  Its
strongly-connected components are {1, 2} and {3}. -/
def exampleD : DGraph :=
  (addEdge (addEdge (addEdge
    (addVtx (addVtx (addVtx emptyGraph 1).state 2).state 3).state
    1 2).state 2 1).state 1 3).state

/-- The 2-vertex acyclic graph with the single edge 1→2. -/
def exampleD2 : DGraph :=
  (addEdge (addVtx (addVtx emptyGraph 1).state 2).state 1 2).state

/-- The 2-vertex pure cycle 1→2, 2→1. -/
def exampleD3 : DGraph :=
  (addEdge (addEdge (addVtx (addVtx emptyGraph 1).state 2).state 1 2).state 2 1).state

end Digraph

/-- The returned value of a stateful computation, if it returned normally. -/
def PyResult.val? : PyResult σ α → Option α
  | .ok a _ => some a
  | .err _ _ => none

/-! ## Weighted directed graphs: Bellman-Ford and Floyd-Warshall
(`src/4-Shortest Paths Revisit, .../1-Shortest Paths Revisit/Python/directed_graph.py`
and `.../2-All-Pair Shortest Paths Problem/Python/directed_graph.py`)

Both files' `AbstractGraph` (their `graph_basics.py`) defines only the class
attribute `_INFINITY = 1000000`; the algorithms read `super().INFINITY`, an
attribute that does not exist, so the first evaluation of that expression
raises `AttributeError: 'super' object has no attribute 'INFINITY'`.  In
`bellman_ford_shortest_paths` it is evaluated as soon as the initialization
loop meets a vertex other than the source; in `floyd_warshall_apsp` as soon
as the double loop meets a pair of distinct vertices — in both cases,
whenever the graph has at least 2 vertices.  The code after that point is
reachable only for graphs with at most one vertex and is traced faithfully
below (`subproblems[vtx.vtx_id][...]` then demands `vtx_id = 0`, else
`IndexError`); one-vertex graphs cannot carry edges through the public
interface (self-loops are rejected), and that unconstructible corner is
mapped to the embedding artifact `orphanRef`. -/

namespace SPR

/-- `Vertex(vtx_id)` of the Bellman-Ford module: emissive/incident edge
lists with neighbor-frequency dicts. -/
structure WVertex where
  vtxId : Nat
  emissiveEdges : List Nat
  freqEmissive : List (Nat × Nat)
  incidentEdges : List Nat
  freqIncident : List (Nat × Nat)
deriving Repr, DecidableEq

/-- `DirectedEdge(tail, head, length)`, endpoints by vertex id. -/
structure WEdge where
  tail : Nat
  head : Nat
  length : Int
deriving Repr, DecidableEq

/-- `DirectedGraph`. -/
structure WGraph where
  vtxList : List WVertex
  edgeList : List Nat
  edgeHeap : List (Nat × WEdge)
  nextEdgeId : Nat
deriving Repr, DecidableEq

def emptyGraph : WGraph := ⟨[], [], [], 0⟩

def WGraph.edgeObj (g : WGraph) (eid : Nat) : Option WEdge :=
  (g.edgeHeap.find? (fun p => p.1 == eid)).map Prod.snd

def WGraph.findVtx (g : WGraph) (i : Nat) : Option WVertex :=
  g.vtxList.find? (fun v => v.vtxId == i)

def WGraph.updateVtx (g : WGraph) (v' : WVertex) : WGraph :=
  { g with vtxList := g.vtxList.map (fun w => if w.vtxId == v'.vtxId then v' else w) }

/-- `Vertex.add_emissive_edge(new_emissive_edge)`. -/
def WVertex.addEmissiveEdge (self : WVertex) (eid : Nat) (e : WEdge) :
    Except PyErr WVertex :=
  if e.tail ≠ self.vtxId then
    .error (.illegalArgument "The emissive edge to add should involve this vertex as the tail.")
  else
    .ok { self with
          emissiveEdges := self.emissiveEdges ++ [eid],
          freqEmissive :=
            Py.dictSet self.freqEmissive e.head (Py.dictGet self.freqEmissive e.head 0 + 1) }

/-- `Vertex.add_incident_edge(new_incident_edge)`. -/
def WVertex.addIncidentEdge (self : WVertex) (eid : Nat) (e : WEdge) :
    Except PyErr WVertex :=
  if e.head ≠ self.vtxId then
    .error (.illegalArgument "The incident edge to add should involve this vertex as the head.")
  else
    .ok { self with
          incidentEdges := self.incidentEdges ++ [eid],
          freqIncident :=
            Py.dictSet self.freqIncident e.tail (Py.dictGet self.freqIncident e.tail 0 + 1) }

/-- `DirectedGraph.add_vtx(new_vtx_id)`. -/
def addVtx (g : WGraph) (i : Nat) : PyResult WGraph Unit :=
  match g.findVtx i with
  | some _ => .err (.illegalArgument "The input vertex is repeated.") g
  | none =>
    .ok () { g with vtxList := g.vtxList ++
      [{ vtxId := i, emissiveEdges := [], freqEmissive := [],
         incidentEdges := [], freqIncident := [] }] }

/-- `DirectedGraph._add_edge(new_edge)` for the allocated edge `eid`. -/
def addEdgeObj (g : WGraph) (eid : Nat) : PyResult WGraph Unit :=
  match g.edgeObj eid with
  | none => .err .orphanRef g
  | some e =>
    match g.findVtx e.tail with
    | none => .err .orphanRef g
    | some vt =>
      match vt.addEmissiveEdge eid e with
      | .error er => .err er g
      | .ok vt' =>
        let g1 := g.updateVtx vt'
        match g1.findVtx e.head with
        | none => .err .orphanRef g1
        | some vh =>
          match vh.addIncidentEdge eid e with
          | .error er => .err er g1
          | .ok vh' =>
            let g2 := g1.updateVtx vh'
            .ok () { g2 with edgeList := g2.edgeList ++ [eid] }

/-- `DirectedGraph.add_edge(tail_id, head_id, length)`. -/
def addEdge (g : WGraph) (a b : Nat) (len : Int) : PyResult WGraph Unit :=
  match g.findVtx a, g.findVtx b with
  | none, _ => .err (.illegalArgument "The endpoints don't both exist.") g
  | _, none => .err (.illegalArgument "The endpoints don't both exist.") g
  | some _, some _ =>
    if a = b then
      .err (.illegalArgument "The endpoints are the same (self-loop).") g
    else
      let eid := g.nextEdgeId
      let g1 := { g with edgeHeap := g.edgeHeap ++ [(eid, ⟨a, b, len⟩)],
                         nextEdgeId := eid + 1 }
      addEdgeObj g1 eid

/-- `DirectedGraph.bellman_ford_shortest_paths(src_vtx_id)` (see the section
comment): source check, then the initialization loop, whose body
`subproblems[vtx.vtx_id][0] = super().INFINITY` raises `AttributeError` at
the first vertex that is not the source. -/
def bellmanFordShortestPaths (g : WGraph) (srcId : Nat) :
    Except PyErr (List (List Nat)) :=
  match g.findVtx srcId with
  | none => .error (.illegalArgument "The source vertex doesn't exist.")
  | some _ =>
    match g.vtxList with
    | [] => .error .orphanRef
    | [v] =>
      if v.vtxId = 0 then
        match v.incidentEdges with
        | [] => .ok [[0]]
        | _ :: _ => .error .orphanRef
      else .error .indexError
    | _ :: _ :: _ =>
      .error (.attributeError "'super' object has no attribute 'INFINITY'")

/-- `DirectedGraph.floyd_warshall_apsp()` (see the section comment): the
initialization double loop raises `AttributeError` at the first pair of
distinct vertices. -/
def floydWarshallApsp (g : WGraph) : Except PyErr (List (List Int)) :=
  match g.vtxList with
  | [] => .ok []
  | [v] =>
    match g.edgeList with
    | [] => if v.vtxId = 0 then .ok [[0]] else .error .indexError
    | _ :: _ => .error .orphanRef
  | _ :: _ :: _ =>
    .error (.attributeError "'super' object has no attribute 'INFINITY'")

/-- The 2-vertex negative-cycle graph of the claim: edges (1→2, weight -1)
and (2→1, weight -1). -/
def negCycleGraph : WGraph :=
  (addEdge (addEdge (addVtx (addVtx emptyGraph 1).state 2).state
    1 2 (-1)).state 2 1 (-1)).state

end SPR

/-! ## Minimum spanning trees
(`src/3-Greedy Algorithms, .../3-Minimum Spanning Tree Problem/Python/undirected_graph.py`
with that folder's `union_find.py`)

The MST `Vertex` mixes in `UnionFindObj`, whose `_leader` starts as the
object itself (here: the vertex's own id) and whose `name` property is
`pass` — it returns `None`; the vertex defines `obj_name = str(vtx_id)` but
never overrides `name`.  Edge costs are floats in the source; every cost in
the claim's example is an integer multiple of ½, so costs are embedded
exactly as integers in HALF-UNITS (1.0 ↦ 2, 2.0 ↦ 4, 2.5 ↦ 5, 3.0 ↦ 6):
scaling by a positive constant preserves every comparison and sum, and the
claimed totals 4.0 and 6.5 read as 8 and 13.  Fields of `Vertex` that none
of the three embedded algorithms read
(`_min_cost_incident_edge`, `_min_incident_cost`) are omitted.  Names are
modelled as `Option Nat`: `none` is Python's `None` (the value of `name`),
`some i` is the string `str(i)` (the value of `obj_name`), which is never
empty, so only the `is None` half of `union`'s first check can fire. -/

namespace Mst

/-- `Vertex(vtx_id)` of the MST module. -/
structure MVertex where
  vtxId : Nat
  explored : Bool
  freqOfNeighbors : List (Nat × Nat)
  edges : List Nat
  leader : Nat
deriving Repr, DecidableEq

/-- `UndirectedEdge(end1, end2, cost)`, endpoints by vertex id. -/
structure MEdge where
  end1 : Nat
  end2 : Nat
  cost : Int
deriving Repr, DecidableEq

/-- `UndirectedGraph`. -/
structure MGraph where
  vtxList : List MVertex
  edgeList : List Nat
  edgeHeap : List (Nat × MEdge)
  nextEdgeId : Nat
deriving Repr, DecidableEq

def emptyGraph : MGraph := ⟨[], [], [], 0⟩

def MGraph.edgeObj (g : MGraph) (eid : Nat) : Option MEdge :=
  (g.edgeHeap.find? (fun p => p.1 == eid)).map Prod.snd

def MGraph.findVtx (g : MGraph) (i : Nat) : Option MVertex :=
  g.vtxList.find? (fun v => v.vtxId == i)

def MGraph.updateVtx (g : MGraph) (v' : MVertex) : MGraph :=
  { g with vtxList := g.vtxList.map (fun w => if w.vtxId == v'.vtxId then v' else w) }

/-- `Vertex.add_edge(new_edge)` (involve check, append, bump frequency). -/
def MVertex.addEdge (self : MVertex) (eid : Nat) (e : MEdge) : Except PyErr MVertex :=
  if e.end1 ≠ self.vtxId ∧ e.end2 ≠ self.vtxId then
    .error (.illegalArgument "The edge to add should involve this vertex.")
  else
    let nbr := if e.end1 == self.vtxId then e.end2 else e.end1
    .ok { self with
          edges := self.edges ++ [eid],
          freqOfNeighbors :=
            Py.dictSet self.freqOfNeighbors nbr (Py.dictGet self.freqOfNeighbors nbr 0 + 1) }

/-- `UndirectedGraph.add_vtx(new_vtx_id)`: the fresh vertex is its own
union-find leader. -/
def addVtx (g : MGraph) (i : Nat) : PyResult MGraph Unit :=
  match g.findVtx i with
  | some _ => .err (.illegalArgument "The input vertex is repeated.") g
  | none =>
    .ok () { g with vtxList := g.vtxList ++
      [{ vtxId := i, explored := false, freqOfNeighbors := [], edges := [], leader := i }] }

/-- `UndirectedGraph._add_edge(new_edge)`. -/
def addEdgeObj (g : MGraph) (eid : Nat) : PyResult MGraph Unit :=
  match g.edgeObj eid with
  | none => .err .orphanRef g
  | some e =>
    match g.findVtx e.end1 with
    | none => .err .orphanRef g
    | some v1 =>
      match v1.addEdge eid e with
      | .error er => .err er g
      | .ok v1' =>
        let g1 := g.updateVtx v1'
        match g1.findVtx e.end2 with
        | none => .err .orphanRef g1
        | some v2 =>
          match v2.addEdge eid e with
          | .error er => .err er g1
          | .ok v2' =>
            let g2 := g1.updateVtx v2'
            .ok () { g2 with edgeList := g2.edgeList ++ [eid] }

/-- `UndirectedGraph.add_edge(end1_id, end2_id, cost)`. -/
def addEdge (g : MGraph) (a b : Nat) (cost : Int) : PyResult MGraph Unit :=
  match g.findVtx a, g.findVtx b with
  | none, _ => .err (.illegalArgument "The endpoints don't both exist.") g
  | _, none => .err (.illegalArgument "The endpoints don't both exist.") g
  | some _, some _ =>
    if a = b then
      .err (.illegalArgument "The endpoints are the same (self-loop).") g
    else
      let eid := g.nextEdgeId
      let g1 := { g with edgeHeap := g.edgeHeap ++ [(eid, ⟨a, b, cost⟩)],
                         nextEdgeId := eid + 1 }
      addEdgeObj g1 eid

/-- The cost of an edge id (`0` for a dangling id — an embedding artifact
that never fires on built graphs). -/
def edgeCost (g : MGraph) (eid : Nat) : Int :=
  match g.edgeObj eid with
  | some e => e.cost
  | none => 0

/-- `UndirectedEdge.__lt__` (`@total_ordering` on `cost`), lifted to ids. -/
def edgeLt (g : MGraph) (e1 e2 : Nat) : Bool :=
  decide (edgeCost g e1 < edgeCost g e2)

/-- Stable insertion used by `pySorted`: an element goes after all earlier
elements that are not strictly greater. -/
def insertEdge (g : MGraph) (x : Nat) : List Nat → List Nat
  | [] => [x]
  | y :: ys => if edgeLt g x y then x :: y :: ys else y :: insertEdge g x ys

/-- `sorted(edge_list)`: ascending by `__lt__` (cost), stable — same result
as Python's Timsort for this total preorder. -/
def pySorted (g : MGraph) (l : List Nat) : List Nat :=
  l.foldl (fun acc x => insertEdge g x acc) []

/-! ### `heapq` (CPython `heapq.heappush` / `heapq.heappop`) -/

/-- The inner `while pos > startpos` loop of `heapq._siftdown`: sift the new
item's hole toward the root, moving larger parents down.  Returns the array
and the final hole position; fuel `pos + 1` always suffices since `pos`
strictly decreases. -/
def siftdownLoop (lt : Nat → Nat → Bool) :
    Nat → List Nat → Nat → Nat → Nat → List Nat × Nat
  | 0, heap, _, pos, _ => (heap, pos)
  | fuel + 1, heap, startpos, pos, newitem =>
    if startpos < pos then
      let parentpos := (pos - 1) / 2
      match heap[parentpos]? with
      | none => (heap, pos)
      | some parent =>
        if lt newitem parent then
          siftdownLoop lt fuel (heap.set pos parent) startpos parentpos newitem
        else (heap, pos)
    else (heap, pos)

/-- `heapq._siftdown(heap, startpos, pos)`. -/
def siftdown (lt : Nat → Nat → Bool) (heap : List Nat) (startpos pos : Nat) : List Nat :=
  match heap[pos]? with
  | none => heap
  | some newitem =>
    let hp := siftdownLoop lt (pos + 1) heap startpos pos newitem
    hp.1.set hp.2 newitem

/-- `heapq.heappush(heap, item)`. -/
def heappush (lt : Nat → Nat → Bool) (heap : List Nat) (item : Nat) : List Nat :=
  siftdown lt (heap ++ [item]) 0 heap.length

/-- The `while childpos < endpos` loop of `heapq._siftup`: move the smaller
child up until the hole reaches a leaf.  Fuel `endpos + 1` suffices since
`pos` strictly increases. -/
def siftupLoop (lt : Nat → Nat → Bool) :
    Nat → List Nat → Nat → Nat → List Nat × Nat
  | 0, heap, pos, _ => (heap, pos)
  | fuel + 1, heap, pos, endpos =>
    let childpos := 2 * pos + 1
    if childpos < endpos then
      match heap[childpos]? with
      | none => (heap, pos)
      | some c =>
        let rightpos := childpos + 1
        let pc :=
          if rightpos < endpos then
            match heap[rightpos]? with
            | some r => if ¬lt c r then (rightpos, r) else (childpos, c)
            | none => (childpos, c)
          else (childpos, c)
        siftupLoop lt fuel (heap.set pos pc.2) pc.1 endpos
    else (heap, pos)

/-- `heapq._siftup(heap, pos)`: walk the hole to a leaf, then sift the saved
item back down toward the root. -/
def siftup (lt : Nat → Nat → Bool) (heap : List Nat) (pos : Nat) : List Nat :=
  match heap[pos]? with
  | none => heap
  | some newitem =>
    let hp := siftupLoop lt (heap.length + 1) heap pos heap.length
    siftdown lt (hp.1.set hp.2 newitem) pos hp.2

/-- `heapq.heappop(heap)`: pop the last element; if the heap is still
nonempty, move it to the root and sift up.  Raises `IndexError` on an empty
heap. -/
def heappop (lt : Nat → Nat → Bool) (heap : List Nat) : Except PyErr (Nat × List Nat) :=
  match heap.getLast? with
  | none => .error .indexError
  | some lastelt =>
    match heap.dropLast with
    | [] => .ok (lastelt, [])
    | r :: rest => .ok (r, siftup lt ((r :: rest).set 0 lastelt) 0)

/-! ### The three MST routines -/

/-- The `for w_edge in w.edges` loop of `prim_mst_straightforward`: push the
crossing edges of the freshly spanned vertex. -/
def primPushEdges (g : MGraph) (wId : Nat) (spanned : List Nat) :
    List Nat → List Nat → Except PyErr (List Nat)
  | [], heap => .ok heap
  | eid :: rest, heap =>
    match g.edgeObj eid with
    | none => .error .orphanRef
    | some e =>
      let nbrId := if e.end1 == wId then e.end2 else e.end1
      if nbrId ∈ spanned then primPushEdges g wId spanned rest heap
      else primPushEdges g wId spanned rest (heappush (edgeLt g) heap eid)

/-- The `while len(spanned) < len(vtx_list)` loop of
`prim_mst_straightforward`. -/
def primLoop (g : MGraph) :
    Nat → List Nat → List Nat → List Nat → Except PyErr (List Nat)
  | 0, _, _, _ => .error .outOfFuel
  | fuel + 1, spanned, heap, tree =>
    if spanned.length < g.vtxList.length then
      match heappop (edgeLt g) heap with
      | .error er => .error er
      | .ok (eid, heap1) =>
        match g.edgeObj eid with
        | none => .error .orphanRef
        | some e =>
          let tree1 := tree ++ [eid]
          let wId := if e.end1 ∈ spanned then e.end2 else e.end1
          let spanned1 := if wId ∈ spanned then spanned else spanned ++ [wId]
          match g.findVtx wId with
          | none => .error .orphanRef
          | some w =>
            match primPushEdges g wId spanned1 w.edges heap1 with
            | .error er => .error er
            | .ok heap2 => primLoop g fuel spanned1 heap2 tree1
    else .ok tree

/-- `UndirectedGraph.prim_mst_straightforward()`, with the single
`random.randint(0, n - 1)` draw supplied as `randIdx`. -/
def primMstStraightforward (g : MGraph) (randIdx : Nat) : Except PyErr Int :=
  match g.vtxList[randIdx]? with
  | none => .error .indexError
  | some srcVtx =>
    match primPushEdges g srcVtx.vtxId [srcVtx.vtxId] srcVtx.edges [] with
    | .error er => .error er
    | .ok heap0 =>
      match primLoop g (2 * g.edgeList.length + g.vtxList.length + 2)
          [srcVtx.vtxId] heap0 [] with
      | .error er => .error er
      | .ok tree => .ok ((tree.map (edgeCost g)).sum)

/-- `_add_neighbor(connections, v, neighbor)`. -/
def addNeighbor (conns : List (Nat × List Nat)) (v nbr : Nat) : List (Nat × List Nat) :=
  Py.dictPut conns v ((Py.dictFind? conns v).getD [] ++ [nbr])

/-- `_construct_connections(edges)`. -/
def constructConnections (g : MGraph) (tree : List Nat) : List (Nat × List Nat) :=
  tree.foldl
    (fun conns eid =>
      match g.edgeObj eid with
      | some e => addNeighbor (addNeighbor conns e.end1 e.end2) e.end2 e.end1
      | none => conns)
    []

/-- The `for neighbor in connections[curr.vtx_id]` loop of
`_dfs_and_check_path_helper`, parametrized by the recursive call. -/
def dfsCheckNbrs
    (recurse : MGraph → Nat → Except PyErr (MGraph × Bool)) (targetId : Nat) :
    MGraph → List Nat → Except PyErr (MGraph × Bool)
  | g, [] => .ok (g, false)
  | g, n :: rest =>
    if n == targetId then .ok (g, true)
    else
      match g.findVtx n with
      | none => .error .orphanRef
      | some nv =>
        if nv.explored then dfsCheckNbrs recurse targetId g rest
        else
          match recurse g n with
          | .error er => .error er
          | .ok (g2, true) => .ok (g2, true)
          | .ok (g2, false) => dfsCheckNbrs recurse targetId g2 rest

/-- `_dfs_and_check_path_helper(connections, curr, target)`: marks `curr`
explored ON THE GRAPH (the flags are never cleared between calls!). -/
def dfsCheckPath (conns : List (Nat × List Nat)) (targetId : Nat) :
    Nat → MGraph → Nat → Except PyErr (MGraph × Bool)
  | 0, _, _ => .error .outOfFuel
  | fuel + 1, g, currId =>
    match g.findVtx currId with
    | none => .error .orphanRef
    | some cv =>
      let g1 := g.updateVtx { cv with explored := true }
      match Py.dictFind? conns currId with
      | none => .error .keyError
      | some nbrs => dfsCheckNbrs (dfsCheckPath conns targetId fuel) targetId g1 nbrs

/-- `_dfs_and_check_path(spanning_tree, v, w)`. -/
def dfsAndCheckPath (g : MGraph) (tree : List Nat) (aId bId : Nat) :
    Except PyErr (MGraph × Bool) :=
  let conns := constructConnections g tree
  match Py.dictFind? conns aId, Py.dictFind? conns bId with
  | none, _ => .ok (g, false)
  | _, none => .ok (g, false)
  | some _, some _ => dfsCheckPath conns bId (g.vtxList.length + 1) g aId

/-- The edge loop of `kruskal_mst_straightforward`. -/
def kruskalLoop : List Nat → MGraph → List Nat → Except PyErr (MGraph × List Nat)
  | [], g, tree => .ok (g, tree)
  | eid :: rest, g, tree =>
    match g.edgeObj eid with
    | none => .error .orphanRef
    | some e =>
      match dfsAndCheckPath g tree e.end1 e.end2 with
      | .error er => .error er
      | .ok (g2, true) => kruskalLoop rest g2 tree
      | .ok (g2, false) => kruskalLoop rest g2 (tree ++ [eid])

/-- `UndirectedGraph.kruskal_mst_straightforward()`. -/
def kruskalMstStraightforward (g : MGraph) : Except PyErr Int :=
  match kruskalLoop (pySorted g g.edgeList) g [] with
  | .error er => .error er
  | .ok (g2, tree) => .ok ((tree.map (edgeCost g2)).sum)

/-- `UnionFind.__init__(objs)` as called by `kruskal_mst_improved`: the dict
key for every vertex is `obj.name`, which is `None`, so all the init
entries collapse onto the single key `none`. -/
def ufGroupsInit (g : MGraph) : List (Option Nat × List Nat) :=
  g.vtxList.foldl (fun gs v => Py.dictPut gs none [v.vtxId]) []

/-- `Vertex.name` is inherited from `UnionFindObj`, whose body is `pass` —
it returns `None`. -/
def MVertex.ufName (_ : MVertex) : Option Nat := none

/-- `UnionFind.union(group_name_a, group_name_b)` over the vertex store of
the graph (the vertices are the union-find objects; their `_leader` fields
live on the graph).  Only the branches reachable in `kruskal_mst_improved`
need to run: with the collapsed `ufGroupsInit` groups, the existence check
fails at the first call. -/
def mstUnion (g : MGraph) (groups : List (Option Nat × List Nat))
    (a b : Option Nat) : PyResult (MGraph × List (Option Nat × List Nat)) Unit :=
  if a.isNone || b.isNone then
    .err (.illegalArgument "The input strings should not be None or empty.") (g, groups)
  else
    match Py.dictFind? groups a, Py.dictFind? groups b with
    | none, _ =>
      .err (.illegalArgument "The input group names don't both exist.") (g, groups)
    | _, none =>
      .err (.illegalArgument "The input group names don't both exist.") (g, groups)
    | some ga, some gb =>
      let lgsm := if ga.length ≥ gb.length then (ga, gb, a) else (gb, ga, b)
      match lgsm.1 with
      | [] => .err .indexError (g, groups)
      | l0 :: _ =>
        match g.findVtx l0 with
        | none => .err .orphanRef (g, groups)
        | some o0 =>
          let largerLeader := o0.leader
          match lgsm.2.1 with
          | [] => .err .indexError (g, groups)
          | s0 :: _ =>
            match g.findVtx s0 with
            | none => .err .orphanRef (g, groups)
            | some so0 =>
              match g.findVtx so0.leader with
              | none => .err .orphanRef (g, groups)
              | some sl =>
                let smallerName := sl.ufName
                let g' := { g with vtxList := g.vtxList.map (fun v =>
                    if v.vtxId ∈ lgsm.2.1 then { v with leader := largerLeader } else v) }
                let groups' :=
                  Py.dictDrop (Py.dictPut groups lgsm.2.2 (lgsm.1 ++ lgsm.2.1)) smallerName
                .ok () (g', groups')

/-- The edge loop of `kruskal_mst_improved`. -/
def kruskalImprovedLoop :
    List Nat → MGraph → List (Option Nat × List Nat) → List Nat →
    PyResult (MGraph × List (Option Nat × List Nat)) (List Nat)
  | [], g, groups, tree => .ok tree (g, groups)
  | eid :: rest, g, groups, tree =>
    match g.edgeObj eid with
    | none => .err .orphanRef (g, groups)
    | some e =>
      match g.findVtx e.end1, g.findVtx e.end2 with
      | none, _ => .err .orphanRef (g, groups)
      | _, none => .err .orphanRef (g, groups)
      | some v1, some v2 =>
        if v1.leader ≠ v2.leader then
          let tree1 := tree ++ [eid]
          match g.findVtx v1.leader, g.findVtx v2.leader with
          | none, _ => .err .orphanRef (g, groups)
          | _, none => .err .orphanRef (g, groups)
          | some l1, some l2 =>
            match mstUnion g groups (some l1.vtxId) (some l2.vtxId) with
            | .err er gg => .err er gg
            | .ok _ (g2, groups2) => kruskalImprovedLoop rest g2 groups2 tree1
        else kruskalImprovedLoop rest g groups tree

/-- `UndirectedGraph.kruskal_mst_improved()`. -/
def kruskalMstImproved (g : MGraph) : PyResult (MGraph × List (Option Nat × List Nat)) Int :=
  match kruskalImprovedLoop (pySorted g g.edgeList) g (ufGroupsInit g) [] with
  | .err er gg => .err er gg
  | .ok tree (g2, groups2) => .ok ((tree.map (edgeCost g2)).sum) (g2, groups2)

/-- The 4-vertex graph of the claim:
edges (1,2,1.0), (2,3,2.0), (3,4,1.0), (1,4,3.0), (1,3,2.5), with costs in
half-units. -/
def exampleM : MGraph :=
  (addEdge (addEdge (addEdge (addEdge (addEdge
    (addVtx (addVtx (addVtx (addVtx emptyGraph 1).state 2).state 3).state 4).state
    1 2 2).state 2 3 4).state 3 4 2).state 1 4 6).state 1 3 5).state

end Mst

/-! ## Union-find
(`src/3-Greedy Algorithms, .../3-Minimum Spanning Tree Problem/Python/union_find.py`)

The data structure proper, over objects that carry an id, a (group) name
and a mutable leader reference.  As in the `Mst` section, names are
`Option Nat` (`none` = Python `None`); the objects live in a store keyed by
id (object identity).  `_groups` maps group names to lists of object ids. -/

namespace UF

/-- A `UnionFindObj`: `_leader` starts as the object itself. -/
structure UFObj where
  objId : Nat
  name : Option Nat
  leader : Nat
deriving Repr, DecidableEq

/-- A `UnionFind` instance together with its live objects. -/
structure UFState where
  store : List UFObj
  groups : List (Option Nat × List Nat)
deriving Repr, DecidableEq

def findObj (s : UFState) (i : Nat) : Option UFObj :=
  s.store.find? (fun o => o.objId == i)

/-- `UnionFind.__init__(objs)`: `_groups[obj.name] = [obj]` for each object. -/
def ufInit (objs : List UFObj) : UFState :=
  { store := objs,
    groups := objs.foldl (fun gs o => Py.dictPut gs o.name [o.objId]) [] }

/-- `UnionFind.find(obj)`: the name of the object's leader. -/
def find (s : UFState) (i : Nat) : Except PyErr (Option Nat) :=
  match findObj s i with
  | none => .error .orphanRef
  | some o =>
    match findObj s o.leader with
    | none => .error .orphanRef
    | some l => .ok l.name

/-- `UnionFind._update_leader(group, new_leader)`: re-parent every object of
the group (setting each member's leader is order-independent, so the loop is
a map over the store). -/
def updateLeaders (store : List UFObj) (group : List Nat) (newLeader : Nat) :
    List UFObj :=
  store.map (fun o => if o.objId ∈ group then { o with leader := newLeader } else o)

/-- `UnionFind.union(group_name_a, group_name_b)`.  The `None`-or-empty
check can only fire on `None` here (names of the form `str(i)` are never
empty).  The smaller group is re-parented to the larger group's leader
(`larger[0].leader`), the larger group's list is extended, and the entry
under the smaller leader's name is popped. -/
def union (s : UFState) (a b : Option Nat) : Except PyErr UFState :=
  if a.isNone || b.isNone then
    .error (.illegalArgument "The input strings should not be None or empty.")
  else
    match Py.dictFind? s.groups a, Py.dictFind? s.groups b with
    | none, _ => .error (.illegalArgument "The input group names don't both exist.")
    | _, none => .error (.illegalArgument "The input group names don't both exist.")
    | some ga, some gb =>
      let lgsm := if ga.length ≥ gb.length then (ga, gb, a) else (gb, ga, b)
      match lgsm.1 with
      | [] => .error .indexError
      | l0 :: _ =>
        match findObj s l0 with
        | none => .error .orphanRef
        | some o0 =>
          let largerLeader := o0.leader
          match lgsm.2.1 with
          | [] => .error .indexError
          | s0 :: _ =>
            match findObj s s0 with
            | none => .error .orphanRef
            | some so0 =>
              match findObj s so0.leader with
              | none => .error .orphanRef
              | some sl =>
                .ok { store := updateLeaders s.store lgsm.2.1 largerLeader,
                      groups := Py.dictDrop
                        (Py.dictPut s.groups lgsm.2.2 (lgsm.1 ++ lgsm.2.1)) sl.name }

/-- A concrete instance for the witness: objects 1, 2, 3 with 3 already
merged into 2's group. -/
def exampleUF : UFState :=
  { store := [⟨1, some 1, 1⟩, ⟨2, some 2, 2⟩, ⟨3, some 3, 2⟩],
    groups := [(some 1, [1]), (some 2, [2, 3])] }

end UF

/-! ## Theorems: dictionary lemmas -/

namespace Py

@[simp] theorem dictGet?_nil (k : Nat) : dictGet? [] k = none := rfl

@[simp] theorem dictGet?_cons (p : Nat × Nat) (d : List (Nat × Nat)) (k : Nat) :
    dictGet? (p :: d) k = if p.1 = k then some p.2 else dictGet? d k := rfl

theorem dictGet?_eq_none_of_not_mem (d : List (Nat × Nat)) (j : Nat)
    (h : j ∉ d.map Prod.fst) : dictGet? d j = none := by
  induction d with
  | nil => rfl
  | cons p d ih =>
    rw [List.map_cons, List.mem_cons, not_or] at h
    rw [dictGet?_cons, if_neg (fun hc => h.1 hc.symm)]
    exact ih h.2

theorem dictGet?_set (d : List (Nat × Nat)) (k v j : Nat) :
    dictGet? (dictSet d k v) j = if j = k then some v else dictGet? d j := by
  induction d with
  | nil =>
    show dictGet? [(k, v)] j = _
    rw [dictGet?_cons]
    by_cases h : j = k
    · rw [if_pos h.symm, if_pos h]
    · rw [if_neg (fun hc : k = j => h hc.symm), if_neg h, dictGet?_nil]
  | cons p d ih =>
    by_cases hp : p.1 = k
    · rw [dictSet, if_pos hp, dictGet?_cons]
      by_cases h : j = k
      · rw [if_pos h.symm, if_pos h]
      · rw [if_neg (fun hc : k = j => h hc.symm), if_neg h, dictGet?_cons,
          if_neg (fun hc : p.1 = j => h (hp ▸ hc).symm)]
    · rw [dictSet, if_neg hp, dictGet?_cons]
      by_cases hpj : p.1 = j
      · rw [if_pos hpj, if_neg (fun hc : j = k => hp (hpj.trans hc)), dictGet?_cons, if_pos hpj]
      · rw [if_neg hpj, ih]
        by_cases h : j = k
        · rw [if_pos h, if_pos h]
        · rw [if_neg h, if_neg h, dictGet?_cons, if_neg hpj]

theorem mem_keys_dictSet (d : List (Nat × Nat)) (k v j : Nat) :
    j ∈ (dictSet d k v).map Prod.fst ↔ j = k ∨ j ∈ d.map Prod.fst := by
  induction d with
  | nil => simp [dictSet]
  | cons p d ih =>
    by_cases hp : p.1 = k
    · subst hp
      simp [dictSet]
    · simp only [dictSet, hp, if_false, List.map_cons, List.mem_cons, ih]
      tauto

theorem nodupKeys_dictSet (d : List (Nat × Nat)) (k v : Nat)
    (h : (d.map Prod.fst).Nodup) : ((dictSet d k v).map Prod.fst).Nodup := by
  induction d with
  | nil => simp [dictSet]
  | cons p d ih =>
    rw [List.map_cons, List.nodup_cons] at h
    by_cases hp : p.1 = k
    · rw [dictSet, if_pos hp, List.map_cons, List.nodup_cons]
      exact ⟨by simpa [← hp] using h.1, h.2⟩
    · rw [dictSet, if_neg hp, List.map_cons, List.nodup_cons]
      refine ⟨fun hc => ?_, ih h.2⟩
      rcases (mem_keys_dictSet d k v p.1).1 hc with h1 | h1
      · exact hp h1
      · exact h.1 h1

theorem mem_keys_dictPop (d : List (Nat × Nat)) (k j : Nat)
    (h : j ∈ (dictPop d k).map Prod.fst) : j ∈ d.map Prod.fst := by
  induction d with
  | nil => rw [dictPop] at h; exact h
  | cons p d ih =>
    by_cases hp : p.1 = k
    · rw [dictPop, if_pos hp] at h
      exact List.mem_cons_of_mem _ h
    · rw [dictPop, if_neg hp, List.map_cons, List.mem_cons] at h
      rw [List.map_cons, List.mem_cons]
      rcases h with h | h
      · exact Or.inl h
      · exact Or.inr (ih h)

theorem nodupKeys_dictPop (d : List (Nat × Nat)) (k : Nat)
    (h : (d.map Prod.fst).Nodup) : ((dictPop d k).map Prod.fst).Nodup := by
  induction d with
  | nil => simp [dictPop]
  | cons p d ih =>
    rw [List.map_cons, List.nodup_cons] at h
    by_cases hp : p.1 = k
    · rw [dictPop, if_pos hp]; exact h.2
    · rw [dictPop, if_neg hp, List.map_cons, List.nodup_cons]
      exact ⟨fun hc => h.1 (mem_keys_dictPop d k p.1 hc), ih h.2⟩

theorem dictGet?_pop (d : List (Nat × Nat)) (k j : Nat)
    (h : (d.map Prod.fst).Nodup) :
    dictGet? (dictPop d k) j = if j = k then none else dictGet? d j := by
  induction d with
  | nil => simp [dictPop]
  | cons p d ih =>
    rw [List.map_cons, List.nodup_cons] at h
    by_cases hp : p.1 = k
    · rw [dictPop, if_pos hp]
      by_cases hj : j = k
      · rw [if_pos hj]
        exact dictGet?_eq_none_of_not_mem d j (fun hc => h.1 (by rw [hp, ← hj]; exact hc))
      · rw [if_neg hj, dictGet?_cons, if_neg (fun hc : p.1 = j => hj (hp ▸ hc).symm)]
    · rw [dictPop, if_neg hp, dictGet?_cons]
      by_cases hpj : p.1 = j
      · rw [if_pos hpj, if_neg (fun hc : j = k => hp (hpj.trans hc)), dictGet?_cons, if_pos hpj]
      · rw [if_neg hpj, ih h.2]
        by_cases hj : j = k
        · rw [if_pos hj, if_pos hj]
        · rw [if_neg hj, if_neg hj, dictGet?_cons, if_neg hpj]


end Py

/-! ## Theorems: `MinCut` basics -/

namespace MinCut

theorem find?_append {α : Type} (l1 l2 : List α) (p : α → Bool) :
    (l1 ++ l2).find? p =
      match l1.find? p with
      | some x => some x
      | none => l2.find? p := by
  induction l1 with
  | nil => simp
  | cons a l ih =>
    cases h : p a
    · rw [List.cons_append, List.find?_cons_of_neg _ (by simp [h]),
        List.find?_cons_of_neg _ (by simp [h]), ih]
    · rw [List.cons_append, List.find?_cons_of_pos _ h, List.find?_cons_of_pos _ h]

theorem findVtx_some {g : Graph} {i : Nat} {v : Vertex} (h : g.findVtx i = some v) :
    v ∈ g.vtxList ∧ v.vtxId = i := by
  refine ⟨List.mem_of_find?_eq_some h, ?_⟩
  have := List.find?_some h
  simpa using this

theorem findVtx_none_iff {g : Graph} {i : Nat} :
    g.findVtx i = none ↔ ∀ v ∈ g.vtxList, v.vtxId ≠ i := by
  unfold Graph.findVtx
  rw [List.find?_eq_none]
  simp

theorem find?_byId_mem {l : List Vertex} {v : Vertex}
    (hnd : (l.map Vertex.vtxId).Nodup) (hv : v ∈ l) :
    l.find? (fun w => w.vtxId == v.vtxId) = some v := by
  induction l with
  | nil => cases hv
  | cons a l ih =>
    rw [List.map_cons, List.nodup_cons] at hnd
    rcases List.mem_cons.1 hv with h | h
    · subst h
      exact List.find?_cons_of_pos _ (by simp)
    · have hne : a.vtxId ≠ v.vtxId := fun hc => hnd.1 (hc ▸ List.mem_map_of_mem _ h)
      rw [List.find?_cons_of_neg _ (by simp [hne]), ih hnd.2 h]

theorem findVtx_mem {g : Graph} {v : Vertex}
    (hnd : (g.vtxList.map Vertex.vtxId).Nodup) (hv : v ∈ g.vtxList) :
    g.findVtx v.vtxId = some v :=
  find?_byId_mem hnd hv

@[simp] theorem updateVtx_edgeList (g : Graph) (v : Vertex) :
    (g.updateVtx v).edgeList = g.edgeList := rfl

@[simp] theorem updateVtx_edgeHeap (g : Graph) (v : Vertex) :
    (g.updateVtx v).edgeHeap = g.edgeHeap := rfl

@[simp] theorem updateVtx_edgeObj (g : Graph) (v : Vertex) (eid : Nat) :
    (g.updateVtx v).edgeObj eid = g.edgeObj eid := rfl

@[simp] theorem updateVtx_nextEdgeId (g : Graph) (v : Vertex) :
    (g.updateVtx v).nextEdgeId = g.nextEdgeId := rfl

theorem vtxId_subst (v w : Vertex) :
    (if w.vtxId == v.vtxId then v else w).vtxId = w.vtxId := by
  by_cases h : w.vtxId = v.vtxId
  · simp [h]
  · simp [h]

theorem updateVtx_ids (g : Graph) (v : Vertex) :
    (g.updateVtx v).vtxList.map Vertex.vtxId = g.vtxList.map Vertex.vtxId := by
  unfold Graph.updateVtx
  rw [List.map_map]
  exact List.map_congr_left (fun w _ => vtxId_subst v w)

theorem findVtx_updateVtx (g : Graph) (v : Vertex) (j : Nat) :
    (g.updateVtx v).findVtx j =
      (g.findVtx j).map (fun w => if w.vtxId == v.vtxId then v else w) := by
  unfold Graph.findVtx Graph.updateVtx
  induction g.vtxList with
  | nil => rfl
  | cons w l ih =>
    simp only [List.map_cons, List.find?]
    rw [vtxId_subst]
    cases h : (w.vtxId == j)
    · simpa using ih
    · rfl

theorem mem_updateVtx {g : Graph} {v w' : Vertex} (h : w' ∈ (g.updateVtx v).vtxList) :
    ∃ w ∈ g.vtxList, w' = if w.vtxId == v.vtxId then v else w := by
  unfold Graph.updateVtx at h
  rcases List.mem_map.1 h with ⟨w, hw, he⟩
  exact ⟨w, hw, he.symm⟩

theorem edgeObj_addHeap (g : Graph) (eid : Nat) (e : UndirectedEdge) (j : Nat)
    (hfresh : ∀ p ∈ g.edgeHeap, p.1 ≠ eid) :
    (Graph.edgeObj { g with edgeHeap := g.edgeHeap ++ [(eid, e)] } j) =
      if j = eid then some e else g.edgeObj j := by
  unfold Graph.edgeObj
  rw [find?_append]
  cases hf : g.edgeHeap.find? (fun p => p.1 == j) with
  | some p =>
    have hmem := List.mem_of_find?_eq_some hf
    have hpj : p.1 = j := by simpa using List.find?_some hf
    have hne : j ≠ eid := fun hc => hfresh p hmem (hpj.trans hc)
    rw [if_neg hne]
  | none =>
    by_cases hj : j = eid
    · subst hj
      rw [if_pos rfl]
      simp
    · rw [if_neg hj]
      have : (eid == j) = false := by simp [Ne.symm hj]
      simp [List.find?, this]

theorem removeFirstById_ids (l : List Vertex) (i : Nat) :
    (removeFirstById l i).map Vertex.vtxId = (l.map Vertex.vtxId).erase i := by
  induction l with
  | nil => rfl
  | cons v vs ih =>
    by_cases h : v.vtxId = i
    · rw [removeFirstById, if_pos h, List.map_cons, List.erase_cons, if_pos (by simp [h])]
    · rw [removeFirstById, if_neg h, List.map_cons, List.map_cons,
        List.erase_cons, if_neg (by simp [h]), ih]

theorem mem_removeFirstById {l : List Vertex} {i : Nat} {v : Vertex}
    (h : v ∈ removeFirstById l i) : v ∈ l := by
  induction l with
  | nil => cases h
  | cons w vs ih =>
    by_cases hw : w.vtxId = i
    · rw [removeFirstById, if_pos hw] at h
      exact List.mem_cons_of_mem _ h
    · rw [removeFirstById, if_neg hw] at h
      rcases List.mem_cons.1 h with h | h
      · exact h ▸ List.mem_cons_self _ _
      · exact List.mem_cons_of_mem _ (ih h)

theorem find?_removeFirstById (l : List Vertex) (i j : Nat) (hij : j ≠ i) :
    (removeFirstById l i).find? (fun w => w.vtxId == j) =
      l.find? (fun w => w.vtxId == j) := by
  induction l with
  | nil => rfl
  | cons v vs ih =>
    by_cases hv : v.vtxId = i
    · rw [removeFirstById, if_pos hv]
      have hne : (v.vtxId == j) = false := by
        simp only [beq_eq_false_iff_ne, ne_eq, hv]
        exact fun hc => hij hc.symm
      conv_rhs => rw [List.find?]
      rw [hne]
    · rw [removeFirstById, if_neg hv]
      simp only [List.find?]
      cases h : (v.vtxId == j)
      · exact ih
      · rfl

end MinCut

/-! ## Theorems: `MinCut` counting and state lemmas -/

namespace MinCut

theorem nbrCount_append (g : Graph) (vid n : Nat) (l : List Nat) (eid : Nat) :
    nbrCount g vid n (l ++ [eid]) =
      nbrCount g vid n l + (if nbrTest g vid n eid then 1 else 0) := by
  unfold nbrCount
  rw [List.filter_append, List.length_append]
  cases h : nbrTest g vid n eid
  · simp [h]
  · simp [h]

theorem nbrCount_erase (g : Graph) (vid n : Nat) {l : List Nat} {eid : Nat}
    (h : eid ∈ l) :
    nbrCount g vid n l =
      nbrCount g vid n (l.erase eid) + (if nbrTest g vid n eid then 1 else 0) := by
  unfold nbrCount
  have hperm : List.Perm l (eid :: l.erase eid) := List.perm_cons_erase h
  rw [(hperm.filter _).length_eq]
  cases ht : nbrTest g vid n eid
  · simp [List.filter_cons, ht]
  · simp [List.filter_cons, ht]

theorem nbrCount_congr {g g' : Graph} (vid n : Nat) {l : List Nat}
    (h : ∀ eid ∈ l, g'.edgeObj eid = g.edgeObj eid) :
    nbrCount g' vid n l = nbrCount g vid n l := by
  unfold nbrCount
  congr 1
  apply List.filter_congr
  intro eid hmem
  unfold nbrTest
  rw [h eid hmem]

theorem findVtx_appendVtx (g : Graph) (nv : Vertex) (j : Nat) :
    (Graph.findVtx { g with vtxList := g.vtxList ++ [nv] } j) =
      match g.findVtx j with
      | some v => some v
      | none => if nv.vtxId == j then some nv else none := by
  unfold Graph.findVtx
  rw [find?_append]
  cases g.vtxList.find? (fun v => v.vtxId == j) with
  | some v => rfl
  | none =>
    cases h : (nv.vtxId == j)
    · simp [List.find?, h]
    · simp [List.find?, h]

end MinCut

/-! ## Theorems: `MinCut` invariant preservation -/

namespace MinCut

theorem nodup_byId_unique {l : List Vertex} (hnd : (l.map Vertex.vtxId).Nodup)
    {w w' : Vertex} (hw : w ∈ l) (hw' : w' ∈ l) (h : w.vtxId = w'.vtxId) : w = w' := by
  induction l with
  | nil => cases hw
  | cons x t ih =>
    rw [List.map_cons, List.nodup_cons] at hnd
    rcases List.mem_cons.1 hw with h1 | h1 <;> rcases List.mem_cons.1 hw' with h2 | h2
    · exact h1.trans h2.symm
    · subst h1
      exact absurd (h ▸ List.mem_map_of_mem Vertex.vtxId h2) hnd.1
    · subst h2
      exact absurd (h ▸ List.mem_map_of_mem Vertex.vtxId h1) (h ▸ hnd.1)
    · exact ih hnd.2 h1 h2

theorem wf_unique {g : Graph} (hWF : WF g) {w w' : Vertex}
    (hw : w ∈ g.vtxList) (hw' : w' ∈ g.vtxList) (h : w.vtxId = w'.vtxId) : w = w' :=
  nodup_byId_unique hWF.nodupIds hw hw' h

theorem wf_edgeList_lt {g : Graph} (hWF : WF g) {eid : Nat} (h : eid ∈ g.edgeList) :
    eid < g.nextEdgeId := by
  obtain ⟨e, he, -⟩ := hWF.sync1 eid h
  unfold Graph.edgeObj at he
  cases hf : g.edgeHeap.find? (fun p => p.1 == eid) with
  | none => rw [hf] at he; cases he
  | some p =>
    have hpk : p.1 = eid := by simpa using List.find?_some hf
    exact hpk ▸ hWF.heapFresh p (List.mem_of_find?_eq_some hf)

theorem wf_vtxEdge_lt {g : Graph} (hWF : WF g) {v : Vertex} (hv : v ∈ g.vtxList)
    {eid : Nat} (h : eid ∈ v.edges) : eid < g.nextEdgeId :=
  wf_edgeList_lt hWF ((hWF.sync2 v hv eid h).1)

theorem wf_dictGet_eq_nbrCount {g : Graph} (hWF : WF g) {v : Vertex}
    (hv : v ∈ g.vtxList) (n : Nat) :
    Py.dictGet v.freqOfNeighbors n 0 = nbrCount g v.vtxId n v.edges := by
  unfold Py.dictGet
  rw [hWF.freq v hv n]
  by_cases h : nbrCount g v.vtxId n v.edges = 0
  · rw [if_pos h, h]
  · rw [if_neg h]

theorem addVtx_wf {g : Graph} (hWF : WF g) (i : Nat) : WF (addVtx g i).state := by
  unfold addVtx
  cases hf : g.findVtx i with
  | some v => exact hWF
  | none =>
    simp only [PyResult.state]
    have hnotin : ∀ v ∈ g.vtxList, v.vtxId ≠ i := findVtx_none_iff.1 hf
    constructor
    case nodupIds =>
      rw [List.map_append]
      refine List.Nodup.append hWF.nodupIds (List.nodup_singleton i) ?_
      intro x hx hx'
      rcases List.mem_map.1 hx with ⟨v, hv, he⟩
      rcases List.mem_singleton.1 hx' with rfl
      exact hnotin v hv he
    case nodupEdges => exact hWF.nodupEdges
    case heapFresh => exact hWF.heapFresh
    case sync1 =>
      intro eid hmem
      obtain ⟨e, he, hne, ⟨v1, hv1, h1⟩, ⟨v2, hv2, h2⟩⟩ := hWF.sync1 eid hmem
      refine ⟨e, he, hne, ⟨v1, ?_, h1⟩, ⟨v2, ?_, h2⟩⟩
      · rw [findVtx_appendVtx, hv1]
      · rw [findVtx_appendVtx, hv2]
    case vNodup =>
      intro v hv
      rcases List.mem_append.1 hv with h | h
      · exact hWF.vNodup v h
      · rcases List.mem_singleton.1 h with rfl
        exact List.nodup_nil
    case sync2 =>
      intro v hv eid he
      rcases List.mem_append.1 hv with h | h
      · exact hWF.sync2 v h eid he
      · rcases List.mem_singleton.1 h with rfl
        cases he
    case freqKeys =>
      intro v hv
      rcases List.mem_append.1 hv with h | h
      · exact hWF.freqKeys v h
      · rcases List.mem_singleton.1 h with rfl
        exact List.nodup_nil
    case freq =>
      intro v hv n
      rcases List.mem_append.1 hv with h | h
      · exact hWF.freq v h n
      · rcases List.mem_singleton.1 h with rfl
        rfl

end MinCut

namespace MinCut

theorem vertex_addEdge_ok {v : Vertex} {eid : Nat} {e : UndirectedEdge}
    (h : e.end1 = v.vtxId ∨ e.end2 = v.vtxId) :
    v.addEdge eid e =
      .ok (v.withEdgeAdded eid (if e.end1 == v.vtxId then e.end2 else e.end1)) := by
  unfold Vertex.addEdge Vertex.withEdgeAdded
  rw [if_neg (fun hc => hc.elim (fun h1 h2 => h.elim h1 h2))]

theorem nbr_of_end1 {v : Vertex} {e : UndirectedEdge} (h : e.end1 = v.vtxId) :
    (if e.end1 == v.vtxId then e.end2 else e.end1) = e.end2 := by
  rw [if_pos (by simp [h])]

theorem nbr_of_end2 {v : Vertex} {e : UndirectedEdge} (h : e.end2 = v.vtxId)
    (hne : e.end1 ≠ e.end2) :
    (if e.end1 == v.vtxId then e.end2 else e.end1) = e.end1 := by
  rw [if_neg (by simp only [beq_iff_eq]; rw [← h]; exact hne)]

theorem addEdgeObj_ok {h : Graph} {eid : Nat} {e : UndirectedEdge} {v1 v2 : Vertex}
    (he : h.edgeObj eid = some e)
    (hf1 : h.findVtx e.end1 = some v1)
    (hf2 : h.findVtx e.end2 = some v2)
    (hne : e.end1 ≠ e.end2) :
    addEdgeObj h eid = .ok ()
      { (h.updateVtx (v1.withEdgeAdded eid e.end2)).updateVtx (v2.withEdgeAdded eid e.end1)
        with edgeList := h.edgeList ++ [eid] } := by
  have hv1 := findVtx_some hf1
  have hv2 := findVtx_some hf2
  have hstep1 : v1.addEdge eid e = .ok (v1.withEdgeAdded eid e.end2) := by
    rw [vertex_addEdge_ok (Or.inl hv1.2.symm), nbr_of_end1 hv1.2.symm]
  have hf2' : (h.updateVtx (v1.withEdgeAdded eid e.end2)).findVtx e.end2 = some v2 := by
    rw [findVtx_updateVtx, hf2]
    have hb : (v2.vtxId == (v1.withEdgeAdded eid e.end2).vtxId) = false := by
      simp only [Vertex.withEdgeAdded, beq_eq_false_iff_ne, ne_eq, hv1.2, hv2.2]
      exact fun hc => hne (hc.symm)
    simp only [Option.map, hb, Bool.false_eq_true, if_false]
  have hstep2 : v2.addEdge eid e = .ok (v2.withEdgeAdded eid e.end1) := by
    rw [vertex_addEdge_ok (Or.inr hv2.2.symm), nbr_of_end2 hv2.2.symm hne]
  simp only [addEdgeObj, he, hf1, hstep1, hf2', hstep2, updateVtx_edgeList]

end MinCut

namespace MinCut

theorem withEdgeAdded_vtxId (v : Vertex) (eid nbr : Nat) :
    (v.withEdgeAdded eid nbr).vtxId = v.vtxId := rfl

theorem addEdge_wf {g : Graph} (hWF : WF g) (a b : Nat) : WF (addEdge g a b).state := by
  unfold addEdge
  cases hfa : g.findVtx a with
  | none => cases g.findVtx b <;> exact hWF
  | some va =>
    cases hfb : g.findVtx b with
    | none => exact hWF
    | some vb =>
      by_cases hab : a = b
      · rw [if_pos hab]; exact hWF
      · rw [if_neg hab]
        obtain ⟨hvaM, hvaId⟩ := findVtx_some hfa
        obtain ⟨hvbM, hvbId⟩ := findVtx_some hfb
        have hvab : va.vtxId ≠ vb.vtxId := by rw [hvaId, hvbId]; exact hab
        set eid := g.nextEdgeId with heid
        set e : UndirectedEdge := ⟨a, b⟩ with he
        set g1 : Graph :=
          { g with edgeHeap := g.edgeHeap ++ [(eid, e)], nextEdgeId := eid + 1 } with hg1
        set va' := va.withEdgeAdded eid b with hva'
        set vb' := vb.withEdgeAdded eid a with hvb'
        have hfresh : ∀ p ∈ g.edgeHeap, p.1 ≠ eid :=
          fun p hp => Nat.ne_of_lt (hWF.heapFresh p hp)
        have hobjeid : g1.edgeObj eid = some e := by
          have := edgeObj_addHeap g eid e eid hfresh
          rw [if_pos rfl] at this
          exact this
        have hrun := addEdgeObj_ok hobjeid (hfa : g1.findVtx a = some va)
          (hfb : g1.findVtx b = some vb) (hab : e.end1 ≠ e.end2)
        rw [hrun, PyResult.state]
        set g' : Graph :=
          { (g1.updateVtx va').updateVtx vb' with edgeList := g1.edgeList ++ [eid] } with hg'
        -- basic transport facts
        have hids : g'.vtxList.map Vertex.vtxId = g.vtxList.map Vertex.vtxId := by
          show ((g1.updateVtx va').updateVtx vb').vtxList.map Vertex.vtxId = _
          rw [updateVtx_ids, updateVtx_ids]
        have hobj : ∀ j, g'.edgeObj j = if j = eid then some e else g.edgeObj j :=
          fun j => edgeObj_addHeap g eid e j hfresh
        have hfind : ∀ j, g'.findVtx j =
            ((g.findVtx j).map (fun w => if w.vtxId == va'.vtxId then va' else w)).map
              (fun w => if w.vtxId == vb'.vtxId then vb' else w) := by
          intro j
          show ((g1.updateVtx va').updateVtx vb').findVtx j = _
          rw [findVtx_updateVtx, findVtx_updateVtx]
          rfl
        have hb1 : (va.vtxId == va'.vtxId) = true := by
          rw [hva', withEdgeAdded_vtxId]; exact beq_self_eq_true _
        have hb2 : (va'.vtxId == vb'.vtxId) = false := by
          rw [hva', hvb', withEdgeAdded_vtxId, withEdgeAdded_vtxId]
          exact beq_eq_false_iff_ne.2 hvab
        have hb2' : ¬(va'.vtxId == vb'.vtxId) = true := by
          rw [hb2]; exact Bool.false_ne_true
        have hb3 : (vb.vtxId == va'.vtxId) = false := by
          rw [hva', withEdgeAdded_vtxId]
          exact beq_eq_false_iff_ne.2 hvab.symm
        have hb4 : (vb.vtxId == vb'.vtxId) = true := by
          rw [hvb', withEdgeAdded_vtxId]; exact beq_self_eq_true _
        have hlt : ∀ x ∈ g.edgeList, x < eid := fun x hx => wf_edgeList_lt hWF hx
        have hvelt : ∀ v ∈ g.vtxList, ∀ x ∈ v.edges, x < eid :=
          fun v hv x hx => wf_vtxEdge_lt hWF hv hx
        have hmem : ∀ v' ∈ g'.vtxList,
            v' = va' ∨ v' = vb' ∨ (v' ∈ g.vtxList ∧ v'.vtxId ≠ va.vtxId ∧ v'.vtxId ≠ vb.vtxId) := by
          intro v' hv'
          obtain ⟨w1, hw1, hw1e⟩ := mem_updateVtx hv'
          obtain ⟨w, hw, hwe⟩ := mem_updateVtx hw1
          by_cases h1 : w.vtxId = va'.vtxId
          · left
            have : w1 = va' := by rw [hwe, if_pos (by simp [h1])]
            rw [hw1e, this, if_neg hb2']
          · have hw1w : w1 = w := by rw [hwe, if_neg (by simp [h1])]
            by_cases h2 : w.vtxId = vb'.vtxId
            · right; left
              rw [hw1e, hw1w, if_pos (by simp [h2])]
            · right; right
              have : v' = w := by rw [hw1e, hw1w, if_neg (by simp [h2])]
              exact ⟨this ▸ hw, this ▸ h1, this ▸ h2⟩
        have hfind_a : g'.findVtx a = some va' := by
          rw [hfind, hfa]
          simp only [Option.map_some', hb1, if_true, hb2, Bool.false_eq_true, if_false]
        have hfind_b : g'.findVtx b = some vb' := by
          rw [hfind, hfb]
          simp only [Option.map_some', hb3, Bool.false_eq_true, if_false, hb4, if_true]
        have hedgeList : g'.edgeList = g.edgeList ++ [eid] := rfl
        have hpersist : ∀ {j : Nat} {w : Vertex} {x : Nat}, g.findVtx j = some w →
            x ∈ w.edges → ∃ w', g'.findVtx j = some w' ∧ x ∈ w'.edges := by
          intro j w x hj hx
          rw [hfind, hj]
          by_cases h1 : w.vtxId = va'.vtxId
          · have hw1t : (w.vtxId == va'.vtxId) = true := by simp [h1]
            refine ⟨va', ?_, ?_⟩
            · simp only [Option.map_some', hw1t, if_true, hb2,
                Bool.false_eq_true, if_false]
            · have : w = va := wf_unique hWF (findVtx_some hj).1 hvaM h1
              rw [hva', Vertex.withEdgeAdded]
              exact List.mem_append_left _ (this ▸ hx)
          · have hw1 : (w.vtxId == va'.vtxId) = false := beq_eq_false_iff_ne.2 h1
            by_cases h2 : w.vtxId = vb'.vtxId
            · have hw2t : (w.vtxId == vb'.vtxId) = true := by simp [h2]
              refine ⟨vb', ?_, ?_⟩
              · simp only [Option.map_some', hw1, Bool.false_eq_true, if_false, hw2t, if_true]
              · have : w = vb := wf_unique hWF (findVtx_some hj).1 hvbM h2
                rw [hvb', Vertex.withEdgeAdded]
                exact List.mem_append_left _ (this ▸ hx)
            · have hw2 : (w.vtxId == vb'.vtxId) = false := beq_eq_false_iff_ne.2 h2
              refine ⟨w, ?_, hx⟩
              simp only [Option.map_some', hw1, hw2, Bool.false_eq_true, if_false]
        refine ⟨?_, ?_, ?_, ?_, ?_, ?_, ?_, ?_⟩
        · rw [hids]; exact hWF.nodupIds
        ·
          rw [hedgeList]
          refine List.Nodup.append hWF.nodupEdges (List.nodup_singleton _) ?_
          intro x hx hx'
          rcases List.mem_singleton.1 hx' with rfl
          exact absurd (hlt _ hx) (lt_irrefl _)
        ·
          intro p hp
          rcases List.mem_append.1 hp with h | h
          · exact Nat.lt_succ_of_lt (hWF.heapFresh p h)
          · rcases List.mem_singleton.1 h with rfl
            exact Nat.lt_succ_self _
        ·
          intro x hx
          rw [hedgeList] at hx
          rcases List.mem_append.1 hx with hxo | hxn
          · obtain ⟨ex, hex, hexne, ⟨w1, hw1, hw1m⟩, ⟨w2, hw2, hw2m⟩⟩ := hWF.sync1 x hxo
            refine ⟨ex, ?_, hexne, ?_, ?_⟩
            · rw [hobj, if_neg (Nat.ne_of_lt (hlt x hxo))]
              exact hex
            · obtain ⟨w1', hw1', hm⟩ := hpersist hw1 hw1m
              exact ⟨w1', hw1', hm⟩
            · obtain ⟨w2', hw2', hm⟩ := hpersist hw2 hw2m
              exact ⟨w2', hw2', hm⟩
          · rcases List.mem_singleton.1 hxn with rfl
            refine ⟨e, by rw [hobj, if_pos rfl], hab, ⟨va', hfind_a, ?_⟩, ⟨vb', hfind_b, ?_⟩⟩
            · rw [hva', Vertex.withEdgeAdded]
              exact List.mem_append_right _ (List.mem_singleton_self _)
            · rw [hvb', Vertex.withEdgeAdded]
              exact List.mem_append_right _ (List.mem_singleton_self _)
        ·
          intro v' hv'
          rcases hmem v' hv' with rfl | rfl | ⟨hm, -, -⟩
          · rw [hva', Vertex.withEdgeAdded]
            refine List.Nodup.append (hWF.vNodup va hvaM) (List.nodup_singleton _) ?_
            intro x hx hx'
            rcases List.mem_singleton.1 hx' with rfl
            exact absurd (hvelt va hvaM _ hx) (lt_irrefl _)
          · rw [hvb', Vertex.withEdgeAdded]
            refine List.Nodup.append (hWF.vNodup vb hvbM) (List.nodup_singleton _) ?_
            intro x hx hx'
            rcases List.mem_singleton.1 hx' with rfl
            exact absurd (hvelt vb hvbM _ hx) (lt_irrefl _)
          · exact hWF.vNodup v' hm
        ·
          intro v' hv' x hx
          have main : ∀ w, w ∈ g.vtxList → x ∈ w.edges ∨ (x = eid ∧ (w = va ∨ w = vb)) →
              x ∈ g'.edgeList ∧ ∃ ex, g'.edgeObj x = some ex ∧
                (ex.end1 = w.vtxId ∨ ex.end2 = w.vtxId) := by
            intro w hwM hcase
            rcases hcase with hxw | ⟨rfl, hwv⟩
            · obtain ⟨hxl, ex, hex, hend⟩ := hWF.sync2 w hwM x hxw
              refine ⟨by rw [hedgeList]; exact List.mem_append_left _ hxl, ex, ?_, hend⟩
              rw [hobj, if_neg (Nat.ne_of_lt (hlt x hxl))]
              exact hex
            · refine ⟨by rw [hedgeList]; exact List.mem_append_right _ (List.mem_singleton_self _),
                e, by rw [hobj, if_pos rfl], ?_⟩
              rcases hwv with rfl | rfl
              · exact Or.inl hvaId.symm
              · exact Or.inr hvbId.symm
          rcases hmem v' hv' with rfl | rfl | ⟨hm, -, -⟩
          · rw [hva', Vertex.withEdgeAdded] at hx ⊢
            rcases List.mem_append.1 hx with hxo | hxe
            · exact main va hvaM (Or.inl hxo)
            · rcases List.mem_singleton.1 hxe with rfl
              exact main va hvaM (Or.inr ⟨rfl, Or.inl rfl⟩)
          · rw [hvb', Vertex.withEdgeAdded] at hx ⊢
            rcases List.mem_append.1 hx with hxo | hxe
            · exact main vb hvbM (Or.inl hxo)
            · rcases List.mem_singleton.1 hxe with rfl
              exact main vb hvbM (Or.inr ⟨rfl, Or.inr rfl⟩)
          · exact main v' hm (Or.inl hx)
        ·
          intro v' hv'
          rcases hmem v' hv' with rfl | rfl | ⟨hm, -, -⟩
          · exact Py.nodupKeys_dictSet _ _ _ (hWF.freqKeys va hvaM)
          · exact Py.nodupKeys_dictSet _ _ _ (hWF.freqKeys vb hvbM)
          · exact hWF.freqKeys v' hm
        ·
          intro v' hv' n
          have hcnt_pres : ∀ w ∈ g.vtxList, ∀ m,
              nbrCount g' w.vtxId m w.edges = nbrCount g w.vtxId m w.edges := by
            intro w hwM m
            apply nbrCount_congr
            intro x hxw
            rw [hobj, if_neg (Nat.ne_of_lt (hvelt w hwM x hxw))]
          rcases hmem v' hv' with rfl | rfl | ⟨hm, -, -⟩
          · have hoe : g'.edgeObj eid = some e := by rw [hobj]; exact if_pos rfl
            have hbeq1 : (e.end1 == va'.vtxId) = true := by
              simp [he, hva', Vertex.withEdgeAdded, hvaId]
            have htest : nbrTest g' va'.vtxId n eid = (b == n) := by
              simp only [nbrTest, hoe, hbeq1, if_true, he]
            have hcnt : nbrCount g' va'.vtxId n va'.edges =
                nbrCount g va.vtxId n va.edges + (if n = b then 1 else 0) := by
              have hva'e : va'.edges = va.edges ++ [eid] := by
                rw [hva']; rfl
              rw [hva'e, nbrCount_append, htest]
              have hsame : nbrCount g' va'.vtxId n va.edges =
                  nbrCount g va.vtxId n va.edges := by
                have : va'.vtxId = va.vtxId := by rw [hva', withEdgeAdded_vtxId]
                rw [this]
                exact hcnt_pres va hvaM n
              rw [hsame]
              by_cases hbn : n = b
              · rw [if_pos (by simp [hbn]), if_pos hbn]
              · rw [if_neg (by simp [Ne.symm hbn]), if_neg hbn]
            show Py.dictGet? (Py.dictSet va.freqOfNeighbors b _) n = _
            rw [Py.dictGet?_set]
            by_cases hbn : n = b
            · subst hbn
              rw [if_pos rfl, hcnt, if_pos rfl, if_neg (by omega),
                wf_dictGet_eq_nbrCount hWF hvaM n]
            · rw [if_neg hbn, hcnt, if_neg hbn, Nat.add_zero]
              exact hWF.freq va hvaM n
          · have hoe : g'.edgeObj eid = some e := by rw [hobj]; exact if_pos rfl
            have hbeq2 : (e.end1 == vb'.vtxId) = false := by
              simp only [he, hvb', Vertex.withEdgeAdded, beq_eq_false_iff_ne, ne_eq]
              rw [hvbId]
              exact hab
            have htest : nbrTest g' vb'.vtxId n eid = (a == n) := by
              simp only [nbrTest, hoe, hbeq2, Bool.false_eq_true, if_false, he]
            have hcnt : nbrCount g' vb'.vtxId n vb'.edges =
                nbrCount g vb.vtxId n vb.edges + (if n = a then 1 else 0) := by
              have hvb'e : vb'.edges = vb.edges ++ [eid] := by
                rw [hvb']; rfl
              rw [hvb'e, nbrCount_append, htest]
              have hsame : nbrCount g' vb'.vtxId n vb.edges =
                  nbrCount g vb.vtxId n vb.edges := by
                have : vb'.vtxId = vb.vtxId := by rw [hvb', withEdgeAdded_vtxId]
                rw [this]
                exact hcnt_pres vb hvbM n
              rw [hsame]
              by_cases han : n = a
              · rw [if_pos (by simp [han]), if_pos han]
              · rw [if_neg (by simp [Ne.symm han]), if_neg han]
            show Py.dictGet? (Py.dictSet vb.freqOfNeighbors a _) n = _
            rw [Py.dictGet?_set]
            by_cases han : n = a
            · subst han
              rw [if_pos rfl, hcnt, if_pos rfl, if_neg (by omega),
                wf_dictGet_eq_nbrCount hWF hvbM n]
            · rw [if_neg han, hcnt, if_neg han, Nat.add_zero]
              exact hWF.freq vb hvbM n
          · rw [hcnt_pres v' hm n]
            exact hWF.freq v' hm n

end MinCut

namespace MinCut

theorem vertex_removeEdge_ok {v : Vertex} {eid : Nat} {e : UndirectedEdge} {f : Nat}
    (hend : e.end1 = v.vtxId ∨ e.end2 = v.vtxId)
    (hmem : eid ∈ v.edges)
    (hf : Py.dictGet? v.freqOfNeighbors
      (if e.end1 == v.vtxId then e.end2 else e.end1) = some f) :
    v.removeEdge eid e =
      ({ v with
         edges := v.edges.erase eid,
         freqOfNeighbors :=
           if f = 1 then
             Py.dictPop v.freqOfNeighbors (if e.end1 == v.vtxId then e.end2 else e.end1)
           else
             Py.dictSet v.freqOfNeighbors
               (if e.end1 == v.vtxId then e.end2 else e.end1) (f - 1) }, none) := by
  have hc1 : ¬(e.end1 ≠ v.vtxId ∧ e.end2 ≠ v.vtxId) :=
    fun hc => hend.elim hc.1 hc.2
  simp only [Vertex.removeEdge, if_neg hc1, if_neg (not_not_intro hmem), hf]
  by_cases h1 : f = 1
  · rw [if_pos h1, if_pos h1]
  · rw [if_neg h1, if_neg h1]

theorem nbrTest_eq {g : Graph} {eid : Nat} {e : UndirectedEdge}
    (hobj : g.edgeObj eid = some e) (vid n : Nat) :
    nbrTest g vid n eid = ((if e.end1 == vid then e.end2 else e.end1) == n) := by
  simp only [nbrTest, hobj]

theorem nbrCount_ne_zero {g : Graph} {vid n : Nat} {l : List Nat} {eid : Nat}
    (hmem : eid ∈ l) (ht : nbrTest g vid n eid = true) :
    nbrCount g vid n l ≠ 0 := by
  unfold nbrCount
  have : eid ∈ l.filter (nbrTest g vid n) := List.mem_filter.2 ⟨hmem, ht⟩
  intro hc
  rw [List.length_eq_zero] at hc
  rw [hc] at this
  cases this

theorem removeEdgeObj_ok {g : Graph} (hWF : WF g) {eid : Nat} (hmem : eid ∈ g.edgeList) :
    ∃ g', removeEdgeObj g eid = .ok () g' ∧ WF g' ∧
      g'.edgeList = g.edgeList.erase eid ∧
      g'.vtxList.map Vertex.vtxId = g.vtxList.map Vertex.vtxId ∧
      (∀ j, g'.edgeObj j = g.edgeObj j) ∧
      g'.nextEdgeId = g.nextEdgeId ∧
      (∀ j w, g.findVtx j = some w → ∃ w', g'.findVtx j = some w' ∧
        w'.vtxId = w.vtxId ∧ w'.edges = w.edges.erase eid) := by
  obtain ⟨e, hobje, hne, ⟨v1, hfv1, hm1⟩, ⟨v2, hfv2, hm2⟩⟩ := hWF.sync1 eid hmem
  obtain ⟨hv1M, hv1Id⟩ := findVtx_some hfv1
  obtain ⟨hv2M, hv2Id⟩ := findVtx_some hfv2
  have hb1 : (e.end1 == v1.vtxId) = true := by simp [hv1Id]
  have hb2 : (e.end1 == v2.vtxId) = false := by
    simp only [beq_eq_false_iff_ne, ne_eq, hv2Id]
    exact hne
  have hb2' : ¬(e.end1 == v2.vtxId) = true := by rw [hb2]; exact Bool.false_ne_true
  -- neighbor of v1 along the edge is end2, of v2 is end1
  have ht1 : nbrTest g v1.vtxId e.end2 eid = true := by
    rw [nbrTest_eq hobje, if_pos hb1]
    exact beq_self_eq_true _
  have ht2 : nbrTest g v2.vtxId e.end1 eid = true := by
    rw [nbrTest_eq hobje, if_neg hb2']
    exact beq_self_eq_true _
  set c1 := nbrCount g v1.vtxId e.end2 v1.edges with hc1def
  set c2 := nbrCount g v2.vtxId e.end1 v2.edges with hc2def
  have hc1ne : c1 ≠ 0 := nbrCount_ne_zero hm1 ht1
  have hc2ne : c2 ≠ 0 := nbrCount_ne_zero hm2 ht2
  have hf1 : Py.dictGet? v1.freqOfNeighbors (if e.end1 == v1.vtxId then e.end2 else e.end1)
      = some c1 := by
    rw [if_pos hb1, hWF.freq v1 hv1M e.end2, if_neg hc1ne]
  have hf2 : Py.dictGet? v2.freqOfNeighbors (if e.end1 == v2.vtxId then e.end2 else e.end1)
      = some c2 := by
    rw [if_neg hb2', hWF.freq v2 hv2M e.end1,
      if_neg hc2ne]
  set v1' : Vertex :=
    { v1 with
      edges := v1.edges.erase eid,
      freqOfNeighbors :=
        if c1 = 1 then Py.dictPop v1.freqOfNeighbors (if e.end1 == v1.vtxId then e.end2 else e.end1)
        else Py.dictSet v1.freqOfNeighbors
          (if e.end1 == v1.vtxId then e.end2 else e.end1) (c1 - 1) } with hv1'
  set v2' : Vertex :=
    { v2 with
      edges := v2.edges.erase eid,
      freqOfNeighbors :=
        if c2 = 1 then Py.dictPop v2.freqOfNeighbors (if e.end1 == v2.vtxId then e.end2 else e.end1)
        else Py.dictSet v2.freqOfNeighbors
          (if e.end1 == v2.vtxId then e.end2 else e.end1) (c2 - 1) } with hv2'
  have hv1'Id : v1'.vtxId = v1.vtxId := by rw [hv1']
  have hv2'Id : v2'.vtxId = v2.vtxId := by rw [hv2']
  have hrm1 : v1.removeEdge eid e = (v1', none) :=
    vertex_removeEdge_ok (Or.inl hv1Id.symm) hm1 hf1
  have hrm2 : v2.removeEdge eid e = (v2', none) :=
    vertex_removeEdge_ok (Or.inr hv2Id.symm) hm2 hf2
  have hfv2' : (g.updateVtx v1').findVtx e.end2 = some v2 := by
    rw [findVtx_updateVtx, hfv2]
    have hb : (v2.vtxId == v1'.vtxId) = false := by
      rw [hv1'Id]
      simp only [beq_eq_false_iff_ne, ne_eq, hv2Id, hv1Id]
      exact hne.symm
    simp only [Option.map_some', hb, Bool.false_eq_true, if_false]
  have hmem2 : eid ∈ ((g.updateVtx v1').updateVtx v2').edgeList := hmem
  set g' : Graph :=
    { (g.updateVtx v1').updateVtx v2' with edgeList := g.edgeList.erase eid } with hg'
  have hrun : removeEdgeObj g eid = .ok () g' := by
    simp only [removeEdgeObj, hobje, hfv1, hrm1, hfv2', hrm2, updateVtx_edgeList,
      if_pos hmem]
  -- transported facts
  have hids : g'.vtxList.map Vertex.vtxId = g.vtxList.map Vertex.vtxId := by
    show ((g.updateVtx v1').updateVtx v2').vtxList.map Vertex.vtxId = _
    rw [updateVtx_ids, updateVtx_ids]
  have hobj : ∀ j, g'.edgeObj j = g.edgeObj j := fun _ => rfl
  have hfind : ∀ j, g'.findVtx j =
      ((g.findVtx j).map (fun w => if w.vtxId == v1'.vtxId then v1' else w)).map
        (fun w => if w.vtxId == v2'.vtxId then v2' else w) := by
    intro j
    show ((g.updateVtx v1').updateVtx v2').findVtx j = _
    rw [findVtx_updateVtx, findVtx_updateVtx]
  have hv12 : v1.vtxId ≠ v2.vtxId := by rw [hv1Id, hv2Id]; exact hne
  have heidonly : ∀ w ∈ g.vtxList, eid ∈ w.edges → w.vtxId = e.end1 ∨ w.vtxId = e.end2 := by
    intro w hw hmw
    obtain ⟨-, e', he', hend⟩ := hWF.sync2 w hw eid hmw
    rw [hobje] at he'
    cases he'
    exact hend.imp Eq.symm Eq.symm
  have hchar : ∀ j w, g.findVtx j = some w → ∃ w', g'.findVtx j = some w' ∧
      w'.vtxId = w.vtxId ∧ w'.edges = w.edges.erase eid := by
    intro j w hj
    rw [hfind, hj]
    by_cases h1 : w.vtxId = v1'.vtxId
    · have hw1t : (w.vtxId == v1'.vtxId) = true := by simp [h1]
      have hbv : (v1'.vtxId == v2'.vtxId) = false := by
        rw [hv1'Id, hv2'Id]
        exact beq_eq_false_iff_ne.2 hv12
      have hwv1 : w = v1 := wf_unique hWF (findVtx_some hj).1 hv1M (by rw [h1, hv1'Id])
      refine ⟨v1', ?_, by rw [hv1'Id, h1, hv1'Id], by rw [hv1', hwv1]⟩
      simp only [Option.map_some', hw1t, if_true, hbv, Bool.false_eq_true, if_false]
    · have hw1 : (w.vtxId == v1'.vtxId) = false := beq_eq_false_iff_ne.2 h1
      by_cases h2 : w.vtxId = v2'.vtxId
      · have hw2t : (w.vtxId == v2'.vtxId) = true := by simp [h2]
        have hwv2 : w = v2 := wf_unique hWF (findVtx_some hj).1 hv2M (by rw [h2, hv2'Id])
        refine ⟨v2', ?_, by rw [hv2'Id, h2, hv2'Id], by rw [hv2', hwv2]⟩
        simp only [Option.map_some', hw1, Bool.false_eq_true, if_false, hw2t, if_true]
      · have hw2 : (w.vtxId == v2'.vtxId) = false := beq_eq_false_iff_ne.2 h2
        have hnotin : eid ∉ w.edges := by
          intro hc
          rcases heidonly w (findVtx_some hj).1 hc with h | h
          · exact h1 (by rw [h, hv1'Id, hv1Id])
          · exact h2 (by rw [h, hv2'Id, hv2Id])
        refine ⟨w, ?_, rfl, (List.erase_of_not_mem hnotin).symm⟩
        simp only [Option.map_some', hw1, hw2, Bool.false_eq_true, if_false]
  have hmemdec : ∀ v' ∈ g'.vtxList,
      v' = v1' ∨ v' = v2' ∨ (v' ∈ g.vtxList ∧ v'.vtxId ≠ v1.vtxId ∧ v'.vtxId ≠ v2.vtxId) := by
    intro v' hv'
    obtain ⟨w1, hw1, hw1e⟩ := mem_updateVtx hv'
    obtain ⟨w, hw, hwe⟩ := mem_updateVtx hw1
    by_cases h1 : w.vtxId = v1'.vtxId
    · left
      have hbv : (v1'.vtxId == v2'.vtxId) = false := by
        rw [hv1'Id, hv2'Id]
        exact beq_eq_false_iff_ne.2 hv12
      have : w1 = v1' := by rw [hwe, if_pos (by simp [h1])]
      rw [hw1e, this, if_neg (by rw [hbv]; exact Bool.false_ne_true)]
    · have hw1w : w1 = w := by rw [hwe, if_neg (by simp [h1])]
      by_cases h2 : w.vtxId = v2'.vtxId
      · right; left
        rw [hw1e, hw1w, if_pos (by simp [h2])]
      · right; right
        have : v' = w := by rw [hw1e, hw1w, if_neg (by simp [h2])]
        subst this
        exact ⟨hw, fun hc => h1 (by rw [hc, hv1'Id]), fun hc => h2 (by rw [hc, hv2'Id])⟩
  refine ⟨g', hrun, ?_, rfl, hids, hobj, rfl, hchar⟩
  -- WF g'
  refine ⟨?_, ?_, ?_, ?_, ?_, ?_, ?_, ?_⟩
  · rw [hids]; exact hWF.nodupIds
  · exact hWF.nodupEdges.erase eid
  · exact hWF.heapFresh
  · intro x hx
    have hx' : x ∈ g.edgeList ∧ x ≠ eid := by
      constructor
      · exact List.mem_of_mem_erase hx
      · exact (List.Nodup.mem_erase_iff hWF.nodupEdges).1 hx |>.1
    obtain ⟨ex, hex, hexne, ⟨w1, hw1f, hw1m⟩, ⟨w2, hw2f, hw2m⟩⟩ := hWF.sync1 x hx'.1
    obtain ⟨w1', hw1f', hw1id, hw1ed⟩ := hchar _ _ hw1f
    obtain ⟨w2', hw2f', hw2id, hw2ed⟩ := hchar _ _ hw2f
    refine ⟨ex, by rw [hobj]; exact hex, hexne, ⟨w1', hw1f', ?_⟩, ⟨w2', hw2f', ?_⟩⟩
    · rw [hw1ed]
      exact (List.Nodup.mem_erase_iff (hWF.vNodup _ (findVtx_some hw1f).1)).2
        ⟨hx'.2, hw1m⟩
    · rw [hw2ed]
      exact (List.Nodup.mem_erase_iff (hWF.vNodup _ (findVtx_some hw2f).1)).2
        ⟨hx'.2, hw2m⟩
  · intro v' hv'
    rcases hmemdec v' hv' with rfl | rfl | ⟨hm, -, -⟩
    · exact (hWF.vNodup v1 hv1M).erase eid
    · exact (hWF.vNodup v2 hv2M).erase eid
    · exact hWF.vNodup v' hm
  · intro v' hv' x hx
    have main : ∀ w, w ∈ g.vtxList → x ∈ w.edges → x ≠ eid →
        x ∈ g'.edgeList ∧ ∃ ex, g'.edgeObj x = some ex ∧
          (ex.end1 = w.vtxId ∨ ex.end2 = w.vtxId) := by
      intro w hwM hxw hxe
      obtain ⟨hxl, ex, hex, hend⟩ := hWF.sync2 w hwM x hxw
      refine ⟨?_, ex, by rw [hobj]; exact hex, hend⟩
      show x ∈ g.edgeList.erase eid
      exact (List.Nodup.mem_erase_iff hWF.nodupEdges).2 ⟨hxe, hxl⟩
    rcases hmemdec v' hv' with rfl | rfl | ⟨hm, hne1, hne2⟩
    · have hx' : x ∈ v1.edges.erase eid := hx
      have hxm : x ∈ v1.edges := List.mem_of_mem_erase hx'
      have hxe : x ≠ eid := ((List.Nodup.mem_erase_iff (hWF.vNodup v1 hv1M)).1 hx').1
      have := main v1 hv1M hxm hxe
      rw [hv1'Id]
      exact this
    · have hx' : x ∈ v2.edges.erase eid := hx
      have hxm : x ∈ v2.edges := List.mem_of_mem_erase hx'
      have hxe : x ≠ eid := ((List.Nodup.mem_erase_iff (hWF.vNodup v2 hv2M)).1 hx').1
      have := main v2 hv2M hxm hxe
      rw [hv2'Id]
      exact this
    · have hxe : x ≠ eid := by
        intro hc
        subst hc
        rcases heidonly v' hm hx with h | h
        · exact hne1 (by rw [h, hv1Id])
        · exact hne2 (by rw [h, hv2Id])
      exact main v' hm hx hxe
  · intro v' hv'
    rcases hmemdec v' hv' with rfl | rfl | ⟨hm, -, -⟩
    · show ((if c1 = 1 then _ else _ : List (Nat × Nat)).map Prod.fst).Nodup
      by_cases h1 : c1 = 1
      · rw [if_pos h1]; exact Py.nodupKeys_dictPop _ _ (hWF.freqKeys v1 hv1M)
      · rw [if_neg h1]; exact Py.nodupKeys_dictSet _ _ _ (hWF.freqKeys v1 hv1M)
    · show ((if c2 = 1 then _ else _ : List (Nat × Nat)).map Prod.fst).Nodup
      by_cases h2 : c2 = 1
      · rw [if_pos h2]; exact Py.nodupKeys_dictPop _ _ (hWF.freqKeys v2 hv2M)
      · rw [if_neg h2]; exact Py.nodupKeys_dictSet _ _ _ (hWF.freqKeys v2 hv2M)
    · exact hWF.freqKeys v' hm
  · intro v' hv' n
    have hcnt_pres : ∀ w ∈ g.vtxList, ∀ m (l : List Nat),
        nbrCount g' w.vtxId m l = nbrCount g w.vtxId m l := by
      intro w hwM m l
      exact nbrCount_congr _ _ (fun x _ => hobj x)
    rcases hmemdec v' hv' with rfl | rfl | ⟨hm, -, -⟩
    · -- v1': edges erased, freq popped or decremented at e.end2
      have hcnt : ∀ m, nbrCount g v1.vtxId m v1.edges =
          nbrCount g v1.vtxId m (v1.edges.erase eid) +
            (if m = e.end2 then 1 else 0) := by
        intro m
        rw [nbrCount_erase g v1.vtxId m hm1, nbrTest_eq hobje, if_pos hb1]
        by_cases hm0 : m = e.end2
        · rw [if_pos (by simp [hm0]), if_pos hm0]
        · rw [if_neg (by simp [Ne.symm hm0]), if_neg hm0]
      have hv1'ed : v1'.edges = v1.edges.erase eid := by rw [hv1']
      have hgoalcnt : nbrCount g' v1'.vtxId n v1'.edges =
          nbrCount g v1.vtxId n (v1.edges.erase eid) := by
        rw [hv1'Id, hv1'ed]
        exact hcnt_pres v1 hv1M n _
      show Py.dictGet? (if c1 = 1 then _ else _) n = _
      rw [hgoalcnt]
      rw [if_pos hb1] at hf1 ⊢
      by_cases h1 : c1 = 1
      · rw [if_pos h1, Py.dictGet?_pop _ _ _ (hWF.freqKeys v1 hv1M)]
        by_cases hn : n = e.end2
        · subst hn
          have hz : nbrCount g v1.vtxId e.end2 (v1.edges.erase eid) = 0 := by
            have h := hcnt e.end2
            rw [if_pos rfl] at h
            omega
          rw [if_pos rfl, hz, if_pos rfl]
        · rw [if_neg hn, hWF.freq v1 hv1M n]
          have hs : nbrCount g v1.vtxId n (v1.edges.erase eid) =
              nbrCount g v1.vtxId n v1.edges := by
            have h := hcnt n
            rw [if_neg hn] at h
            omega
          rw [hs]
      · rw [if_neg h1, Py.dictGet?_set]
        by_cases hn : n = e.end2
        · subst hn
          have hcc : nbrCount g v1.vtxId e.end2 (v1.edges.erase eid) = c1 - 1 := by
            have h := hcnt e.end2
            rw [if_pos rfl] at h
            omega
          rw [if_pos rfl, hcc, if_neg (by omega)]
        · rw [if_neg hn, hWF.freq v1 hv1M n]
          have hs : nbrCount g v1.vtxId n (v1.edges.erase eid) =
              nbrCount g v1.vtxId n v1.edges := by
            have h := hcnt n
            rw [if_neg hn] at h
            omega
          rw [hs]
    · -- v2': symmetric with neighbor e.end1
      have hcnt : ∀ m, nbrCount g v2.vtxId m v2.edges =
          nbrCount g v2.vtxId m (v2.edges.erase eid) +
            (if m = e.end1 then 1 else 0) := by
        intro m
        rw [nbrCount_erase g v2.vtxId m hm2, nbrTest_eq hobje,
          if_neg hb2']
        by_cases hm0 : m = e.end1
        · rw [if_pos (by simp [hm0]), if_pos hm0]
        · rw [if_neg (by simp [Ne.symm hm0]), if_neg hm0]
      have hv2'ed : v2'.edges = v2.edges.erase eid := by rw [hv2']
      have hgoalcnt : nbrCount g' v2'.vtxId n v2'.edges =
          nbrCount g v2.vtxId n (v2.edges.erase eid) := by
        rw [hv2'Id, hv2'ed]
        exact hcnt_pres v2 hv2M n _
      show Py.dictGet? (if c2 = 1 then _ else _) n = _
      rw [hgoalcnt]
      rw [if_neg hb2'] at hf2 ⊢
      by_cases h2 : c2 = 1
      · rw [if_pos h2, Py.dictGet?_pop _ _ _ (hWF.freqKeys v2 hv2M)]
        by_cases hn : n = e.end1
        · subst hn
          have hz : nbrCount g v2.vtxId e.end1 (v2.edges.erase eid) = 0 := by
            have h := hcnt e.end1
            rw [if_pos rfl] at h
            omega
          rw [if_pos rfl, hz, if_pos rfl]
        · rw [if_neg hn, hWF.freq v2 hv2M n]
          have hs : nbrCount g v2.vtxId n (v2.edges.erase eid) =
              nbrCount g v2.vtxId n v2.edges := by
            have h := hcnt n
            rw [if_neg hn] at h
            omega
          rw [hs]
      · rw [if_neg h2, Py.dictGet?_set]
        by_cases hn : n = e.end1
        · subst hn
          have hcc : nbrCount g v2.vtxId e.end1 (v2.edges.erase eid) = c2 - 1 := by
            have h := hcnt e.end1
            rw [if_pos rfl] at h
            omega
          rw [if_pos rfl, hcc, if_neg (by omega)]
        · rw [if_neg hn, hWF.freq v2 hv2M n]
          have hs : nbrCount g v2.vtxId n (v2.edges.erase eid) =
              nbrCount g v2.vtxId n v2.edges := by
            have h := hcnt n
            rw [if_neg hn] at h
            omega
          rw [hs]
    · -- untouched vertex: nothing changed, and eid is not among its edges
      rw [show nbrCount g' v'.vtxId n v'.edges = nbrCount g v'.vtxId n v'.edges from
        nbrCount_congr _ _ (fun x _ => hobj x)]
      exact hWF.freq v' hm n

end MinCut

namespace MinCut

theorem removeEdge_wf {g : Graph} (hWF : WF g) (a b : Nat) : WF (removeEdge g a b).state := by
  unfold removeEdge
  cases hfa : g.findVtx a with
  | none => cases g.findVtx b <;> exact hWF
  | some va =>
    cases hfb : g.findVtx b with
    | none => exact hWF
    | some vb =>
      show WF (match va.getEdgeWithNeighbor g b with
        | none => PyResult.err (.illegalArgument "The edge to remove doesn't exist.") g
        | some eid => removeEdgeObj g eid).state
      cases hge : va.getEdgeWithNeighbor g b with
      | none => exact hWF
      | some eid =>
        have hmemv : eid ∈ va.edges := List.mem_of_find?_eq_some hge
        have hmem : eid ∈ g.edgeList :=
          (hWF.sync2 va (findVtx_some hfa).1 eid hmemv).1
        obtain ⟨g', hrun, hWF', -⟩ := removeEdgeObj_ok hWF hmem
        show WF (removeEdgeObj g eid).state
        rw [hrun]
        exact hWF'

theorem removeVtxLoop_ok {i : Nat} :
    ∀ (fuel : Nat) (g : Graph) (v : Vertex), WF g → g.findVtx i = some v →
      v.edges.length < fuel →
      ∃ g' v', removeVtxLoop fuel g i = .ok () g' ∧ WF g' ∧
        g'.findVtx i = some v' ∧ v'.edges = [] ∧
        g'.vtxList.map Vertex.vtxId = g.vtxList.map Vertex.vtxId ∧
        g'.edgeObj = g.edgeObj := by
  intro fuel
  induction fuel with
  | zero => intro g v _ _ hfuel; cases hfuel
  | succ f ih =>
    intro g v hWF hv hfuel
    have hstep : removeVtxLoop (f + 1) g i =
        (match v.edges with
          | [] => PyResult.ok () g
          | eid :: _ =>
            match removeEdgeObj g eid with
            | PyResult.ok _ g' => removeVtxLoop f g' i
            | PyResult.err e g' => PyResult.err e g') := by
      rw [removeVtxLoop, hv]
    cases hed : v.edges with
    | nil =>
      rw [hed] at hstep
      exact ⟨g, v, hstep, hWF, hv, hed, rfl, rfl⟩
    | cons eid rest =>
      rw [hed] at hstep
      have hstep2 : removeVtxLoop (f + 1) g i =
          (match removeEdgeObj g eid with
            | PyResult.ok _ g' => removeVtxLoop f g' i
            | PyResult.err e g' => PyResult.err e g') := hstep
      have hmemv : eid ∈ v.edges := by rw [hed]; exact List.mem_cons_self _ _
      have hmem : eid ∈ g.edgeList := (hWF.sync2 v (findVtx_some hv).1 eid hmemv).1
      obtain ⟨g1, hrun, hWF1, -, hids1, hobj1, -, hchar⟩ := removeEdgeObj_ok hWF hmem
      obtain ⟨v1, hfv1, -, hv1ed⟩ := hchar i v hv
      have hlen : v1.edges.length < f := by
        rw [hv1ed, hed, List.erase_cons_head]
        have h2 : (eid :: rest).length < f + 1 := by rw [← hed]; exact hfuel
        simpa using h2
      obtain ⟨g', v', hrun', hWF', hfv', hved', hids', hobj'⟩ := ih g1 v1 hWF1 hfv1 hlen
      rw [hrun] at hstep2
      refine ⟨g', v', hstep2.trans hrun', hWF', hfv', hved', ?_, ?_⟩
      · rw [hids', hids1]
      · funext j
        rw [hobj', hobj1 j]

theorem wf_removeIsolated {g : Graph} (hWF : WF g) {i : Nat} {v : Vertex}
    (hfind : g.findVtx i = some v) (hempty : v.edges = []) :
    WF { g with vtxList := removeFirstById g.vtxList i } := by
  have hfindPres : ∀ j, j ≠ i →
      (Graph.findVtx { g with vtxList := removeFirstById g.vtxList i } j) = g.findVtx j :=
    fun j hj => find?_removeFirstById g.vtxList i j hj
  have hEndNe : ∀ eid ∈ g.edgeList, ∀ e, g.edgeObj eid = some e →
      e.end1 ≠ i ∧ e.end2 ≠ i := by
    intro eid hmem e he
    obtain ⟨e', he', -, ⟨v1, hv1, hm1⟩, ⟨v2, hv2, hm2⟩⟩ := hWF.sync1 eid hmem
    rw [he] at he'
    cases he'
    constructor
    · intro hc
      rw [hc, hfind] at hv1
      cases hv1
      rw [hempty] at hm1
      cases hm1
    · intro hc
      rw [hc, hfind] at hv2
      cases hv2
      rw [hempty] at hm2
      cases hm2
  refine ⟨?_, hWF.nodupEdges, hWF.heapFresh, ?_, ?_, ?_, ?_, ?_⟩
  · show ((removeFirstById g.vtxList i).map Vertex.vtxId).Nodup
    rw [removeFirstById_ids]
    exact hWF.nodupIds.erase i
  · intro eid hmem
    obtain ⟨e, he, hne, ⟨v1, hv1, hm1⟩, ⟨v2, hv2, hm2⟩⟩ := hWF.sync1 eid hmem
    obtain ⟨hne1, hne2⟩ := hEndNe eid hmem e he
    exact ⟨e, he, hne, ⟨v1, by rw [hfindPres e.end1 hne1]; exact hv1, hm1⟩,
      ⟨v2, by rw [hfindPres e.end2 hne2]; exact hv2, hm2⟩⟩
  · intro w hw
    exact hWF.vNodup w (mem_removeFirstById hw)
  · intro w hw eid he
    exact hWF.sync2 w (mem_removeFirstById hw) eid he
  · intro w hw
    exact hWF.freqKeys w (mem_removeFirstById hw)
  · intro w hw n
    exact hWF.freq w (mem_removeFirstById hw) n

theorem removeVtx_ok_spec {g : Graph} (hWF : WF g) {i : Nat} {r : Unit} {g' : Graph}
    (hrun : removeVtx g i = .ok r g') :
    WF g' ∧ g'.findVtx i = none := by
  cases hf : g.findVtx i with
  | none => rw [removeVtx, hf] at hrun; cases hrun
  | some v =>
    have h1 : removeVtx g i = removeVtxObj g i := by unfold removeVtx; rw [hf]
    have h2 : removeVtxObj g i =
        (match removeVtxLoop (v.edges.length + 1) g i with
          | PyResult.err e g2 => PyResult.err e g2
          | PyResult.ok _ g2 =>
            PyResult.ok () { g2 with vtxList := removeFirstById g2.vtxList i }) := by
      unfold removeVtxObj; rw [hf]
    obtain ⟨g1, v1, hloop, hWF1, hfv1, hved1, hids1, -⟩ :=
      removeVtxLoop_ok (v.edges.length + 1) g v hWF hf (Nat.lt_succ_self _)
    rw [h1, h2, hloop] at hrun
    cases hrun
    refine ⟨wf_removeIsolated hWF1 hfv1 hved1, ?_⟩
    rw [findVtx_none_iff]
    intro w hw hc
    have hw' : w ∈ removeFirstById g1.vtxList i := hw
    have hi : w.vtxId ∈ (removeFirstById g1.vtxList i).map Vertex.vtxId :=
      List.mem_map_of_mem Vertex.vtxId hw'
    rw [hc, removeFirstById_ids] at hi
    have : i ∈ (g1.vtxList.map Vertex.vtxId).erase i := hi
    exact (List.Nodup.mem_erase_iff hWF1.nodupIds).1 this |>.1 rfl

theorem removeVtx_wf {g : Graph} (hWF : WF g) (i : Nat) : WF (removeVtx g i).state := by
  cases hrun : removeVtx g i with
  | ok r g' => exact (removeVtx_ok_spec hWF hrun).1
  | err e g' =>
    -- the only error exit is the missing-vertex check, which leaves `g` as is
    cases hf : g.findVtx i with
    | none =>
      rw [removeVtx, hf] at hrun
      cases hrun
      exact hWF
    | some v =>
      have h1 : removeVtx g i = removeVtxObj g i := by unfold removeVtx; rw [hf]
      have h2 : removeVtxObj g i =
          (match removeVtxLoop (v.edges.length + 1) g i with
            | PyResult.err e g2 => PyResult.err e g2
            | PyResult.ok _ g2 =>
              PyResult.ok () { g2 with vtxList := removeFirstById g2.vtxList i }) := by
        unfold removeVtxObj; rw [hf]
      obtain ⟨g1, v1, hloop, hWF1, -⟩ :=
        removeVtxLoop_ok (v.edges.length + 1) g v hWF hf (Nat.lt_succ_self _)
      rw [h1, h2, hloop] at hrun
      cases hrun

theorem wf_empty : WF emptyGraph := by
  refine ⟨?_, ?_, ?_, ?_, ?_, ?_, ?_, ?_⟩ <;>
    first
      | exact List.nodup_nil
      | (intro x hx; cases hx)
      | (intro x hx; exact absurd hx (by simp [emptyGraph]))

theorem reachable_wf {g : Graph} (h : Reachable g) : WF g := by
  induction h with
  | empty => exact wf_empty
  | addVtx _ i ih => exact addVtx_wf ih i
  | addEdge _ a b ih => exact addEdge_wf ih a b
  | removeEdge _ a b ih => exact removeEdge_wf ih a b
  | removeVtx _ i ih => exact removeVtx_wf ih i

theorem wf_edgeSync {g : Graph} (hWF : WF g) : EdgeSync g := by
  intro eid e he
  constructor
  · intro hmem
    obtain ⟨e', he', -, h1, h2⟩ := hWF.sync1 eid hmem
    rw [he] at he'
    cases he'
    exact ⟨h1, h2⟩
  · rintro ⟨⟨v1, hv1, hm1⟩, -⟩
    exact (hWF.sync2 v1 (findVtx_some hv1).1 eid hm1).1

/-- When either endpoint is missing or the endpoints coincide, `add_edge`
raises `IllegalArgumentError` before touching anything, so the state is the
original graph. -/
theorem addEdge_err_char {g : Graph} {a b : Nat}
    (h : g.findVtx a = none ∨ g.findVtx b = none ∨ a = b) :
    ∃ msg, addEdge g a b = .err (.illegalArgument msg) g := by
  rcases h with hna | hnb | hab
  · refine ⟨"The endpoints don't both exist.", ?_⟩
    unfold addEdge
    rw [hna]
    cases g.findVtx b <;> rfl
  · cases hfa : g.findVtx a with
    | none =>
      refine ⟨"The endpoints don't both exist.", ?_⟩
      unfold addEdge
      rw [hfa, hnb]
    | some va =>
      refine ⟨"The endpoints don't both exist.", ?_⟩
      unfold addEdge
      rw [hfa, hnb]
  · subst hab
    cases hfa : g.findVtx a with
    | none =>
      refine ⟨"The endpoints don't both exist.", ?_⟩
      unfold addEdge
      rw [hfa]
    | some va =>
      refine ⟨"The endpoints are the same (self-loop).", ?_⟩
      have h1 : addEdge g a a =
          (if a = a then
            PyResult.err (PyErr.illegalArgument "The endpoints are the same (self-loop).") g
          else
            addEdgeObj
              { g with edgeHeap := g.edgeHeap ++ [(g.nextEdgeId, ⟨a, a⟩)],
                       nextEdgeId := g.nextEdgeId + 1 } g.nextEdgeId) := by
        unfold addEdge
        rw [hfa]
      rw [h1, if_pos rfl]

/-- On a well-formed graph with two distinct existing endpoints, `add_edge`
returns normally. -/
theorem addEdge_run_ok {g : Graph} (hWF : WF g) {a b : Nat} {va vb : Vertex}
    (hfa : g.findVtx a = some va) (hfb : g.findVtx b = some vb) (hab : a ≠ b) :
    ∃ g', addEdge g a b = .ok () g' := by
  set eid := g.nextEdgeId with heid
  set e : UndirectedEdge := ⟨a, b⟩ with he
  set g1 : Graph :=
    { g with edgeHeap := g.edgeHeap ++ [(eid, e)], nextEdgeId := eid + 1 } with hg1
  have h1 : addEdge g a b =
      (if a = b then
        PyResult.err (PyErr.illegalArgument "The endpoints are the same (self-loop).") g
      else addEdgeObj g1 eid) := by
    unfold addEdge
    rw [hfa, hfb]
  rw [if_neg hab] at h1
  have hfresh : ∀ p ∈ g.edgeHeap, p.1 ≠ eid :=
    fun p hp => Nat.ne_of_lt (hWF.heapFresh p hp)
  have hobjeid : g1.edgeObj eid = some e := by
    have h2 := edgeObj_addHeap g eid e eid hfresh
    rw [if_pos rfl] at h2
    exact h2
  have hrun := addEdgeObj_ok hobjeid (show g1.findVtx e.end1 = some va from hfa)
    (show g1.findVtx e.end2 = some vb from hfb) (show e.end1 ≠ e.end2 from hab)
  exact ⟨_, h1.trans hrun⟩

/-- **C1.** In every graph state reachable through the public mutation
operations (`add_vtx`, `add_edge`, `remove_edge`, `remove_vtx`), an edge is a
member of the global `edge_list` if and only if it is a member of the
incidence list of each of its two endpoint vertices (`EdgeSync`); and after
`remove_vtx i` succeeds, the vertex is gone and no edge incident to `i`
remains in the edge list or in any vertex's incidence list (vertex removal
cascades to all incident edges). -/
theorem claim_C1 {g : Graph} (h : Reachable g) :
    EdgeSync g ∧
    ∀ (i : Nat) (g' : Graph), removeVtx g i = .ok () g' →
      g'.findVtx i = none ∧
      (∀ eid, eid ∈ g'.edgeList → ∀ e, g'.edgeObj eid = some e →
        e.end1 ≠ i ∧ e.end2 ≠ i) ∧
      (∀ v, v ∈ g'.vtxList → ∀ eid, eid ∈ v.edges → ∀ e, g'.edgeObj eid = some e →
        e.end1 ≠ i ∧ e.end2 ≠ i) := by
  have hWF := reachable_wf h
  refine ⟨wf_edgeSync hWF, ?_⟩
  intro i g' hrun
  obtain ⟨hWF', hnone⟩ := removeVtx_ok_spec hWF hrun
  have hedge : ∀ eid, eid ∈ g'.edgeList → ∀ e, g'.edgeObj eid = some e →
      e.end1 ≠ i ∧ e.end2 ≠ i := by
    intro eid hmem e he
    obtain ⟨e', he', -, ⟨v1, hv1, -⟩, ⟨v2, hv2, -⟩⟩ := hWF'.sync1 eid hmem
    rw [he] at he'
    cases he'
    constructor
    · intro hc
      rw [hc, hnone] at hv1
      cases hv1
    · intro hc
      rw [hc, hnone] at hv2
      cases hv2
  refine ⟨hnone, hedge, ?_⟩
  intro v hv eid hmem e he
  exact hedge eid (hWF'.sync2 v hv eid hmem).1 e he

/-- Witness for C1: the triangle graph built through the public operations is
reachable, and the claim applies to it, giving edge-list/incidence-list
synchronisation there. -/
theorem claim_C1_witness :
    Reachable exampleGraph ∧ EdgeSync exampleGraph := by
  have hreach : Reachable exampleGraph :=
    Reachable.addEdge (Reachable.addEdge (Reachable.addEdge
      (Reachable.addVtx (Reachable.addVtx (Reachable.addVtx Reachable.empty 1) 2) 3)
      1 2) 2 3) 1 3
  exact ⟨hreach, (claim_C1 hreach).1⟩

/-- **C2.** For every reachable graph and ids `a`, `b`: `add_edge a b` raises
`IllegalArgumentError` if and only if `a` or `b` names no existing vertex or
`a = b` (a self-loop); and whenever `add_edge` or `remove_edge` raises, the
graph state after the call is exactly the graph before it. -/
theorem claim_C2 {g : Graph} (h : Reachable g) (a b : Nat) :
    ((addEdge g a b).isErr = true ↔
      (g.findVtx a = none ∨ g.findVtx b = none ∨ a = b)) ∧
    ((addEdge g a b).isErr = true → (addEdge g a b).state = g) ∧
    ((removeEdge g a b).isErr = true → (removeEdge g a b).state = g) := by
  have hWF := reachable_wf h
  refine ⟨⟨?_, ?_⟩, ?_, ?_⟩
  · intro herr
    cases hfa : g.findVtx a with
    | none => exact Or.inl rfl
    | some va =>
      cases hfb : g.findVtx b with
      | none => exact Or.inr (Or.inl rfl)
      | some vb =>
        by_cases hab : a = b
        · exact Or.inr (Or.inr hab)
        · obtain ⟨g', hrun⟩ := addEdge_run_ok hWF hfa hfb hab
          rw [hrun] at herr
          exact absurd herr Bool.false_ne_true
  · intro hbad
    obtain ⟨msg, hrun⟩ := addEdge_err_char hbad
    rw [hrun]
    rfl
  · intro herr
    cases hfa : g.findVtx a with
    | none =>
      obtain ⟨msg, hrun⟩ := addEdge_err_char (Or.inl hfa)
      rw [hrun]
      rfl
    | some va =>
      cases hfb : g.findVtx b with
      | none =>
        obtain ⟨msg, hrun⟩ := addEdge_err_char (Or.inr (Or.inl hfb))
        rw [hrun]
        rfl
      | some vb =>
        by_cases hab : a = b
        · obtain ⟨msg, hrun⟩ := addEdge_err_char (Or.inr (Or.inr hab))
          rw [hrun]
          rfl
        · obtain ⟨g', hrun⟩ := addEdge_run_ok hWF hfa hfb hab
          rw [hrun] at herr
          exact absurd herr Bool.false_ne_true
  · intro herr
    cases hfa : g.findVtx a with
    | none =>
      have h1 : removeEdge g a b =
          .err (.illegalArgument "The endpoints don't both exist.") g := by
        unfold removeEdge
        rw [hfa]
        cases g.findVtx b <;> rfl
      rw [h1]
      rfl
    | some va =>
      cases hfb : g.findVtx b with
      | none =>
        have h1 : removeEdge g a b =
            .err (.illegalArgument "The endpoints don't both exist.") g := by
          unfold removeEdge
          rw [hfa, hfb]
        rw [h1]
        rfl
      | some vb =>
        have h1 : removeEdge g a b =
            (match va.getEdgeWithNeighbor g b with
              | none =>
                PyResult.err (PyErr.illegalArgument "The edge to remove doesn't exist.") g
              | some eid => removeEdgeObj g eid) := by
          unfold removeEdge
          rw [hfa, hfb]
        cases hge : va.getEdgeWithNeighbor g b with
        | none =>
          rw [hge] at h1
          have h2 : removeEdge g a b =
              .err (.illegalArgument "The edge to remove doesn't exist.") g := h1
          rw [h2]
          rfl
        | some eid =>
          rw [hge] at h1
          have h2 : removeEdge g a b = removeEdgeObj g eid := h1
          have hmemv : eid ∈ va.edges := List.mem_of_find?_eq_some hge
          have hmem : eid ∈ g.edgeList :=
            (hWF.sync2 va (findVtx_some hfa).1 eid hmemv).1
          obtain ⟨g'', hrun, -⟩ := removeEdgeObj_ok hWF hmem
          rw [h2, hrun] at herr
          exact absurd herr Bool.false_ne_true

/-- `_get_next_vtx_id` never returns normally: both its exits raise
(`max()` on an empty list, or the `vtx.id` attribute lookup). -/
theorem getNextVtxId_no_ok (g : Graph) (mid : Nat) (g'' : Graph) :
    getNextVtxId g ≠ PyResult.ok mid g'' := by
  unfold getNextVtxId
  cases g.vtxList <;> intro hc <;> cases hc

/-- With more than 2 vertices the contraction loop always raises: every
branch of its body is an error exit, since `_get_next_vtx_id` raises before
the merged vertex can be created. -/
theorem computeMinimumCutLoop_err (f : Nat) (rand : Nat → Nat) (t : Nat) (g : Graph)
    (hlen : 2 < g.vtxList.length) :
    (computeMinimumCutLoop (f + 1) rand t g).isErr = true := by
  unfold computeMinimumCutLoop
  rw [if_pos hlen]
  split
  · rfl
  · split
    · rfl
    · split
      · rfl
      · split
        · rfl
        · split
          · rfl
          · rename_i hok
            exact absurd hok (getNextVtxId_no_ok _ _ _)

/-- **C9.** Refutation: `_get_next_vtx_id` reads `vtx.id`, but `Vertex`
defines no attribute `id` (only `vtx_id`), so the first contraction raises
`AttributeError`; for every graph with more than 2 vertices and every stream
of random draws, `compute_minimum_cut` raises instead of returning the size
of any cut. -/
theorem claim_C9 (rand : Nat → Nat) (g : Graph) (hlen : 2 < g.vtxList.length) :
    (computeMinimumCut rand g).isErr = true := by
  have h0 : computeMinimumCut rand g =
      computeMinimumCutLoop (g.vtxList.length + 1) rand 0 g := by
    unfold computeMinimumCut
    rw [if_neg (by omega)]
  rw [h0]
  exact computeMinimumCutLoop_err g.vtxList.length rand 0 g hlen

/-- Witness for C9: the reachable triangle graph has 3 vertices, and
`compute_minimum_cut` raises on it. -/
theorem claim_C9_witness :
    2 < exampleGraph.vtxList.length ∧
    (computeMinimumCut (fun _ => 0) exampleGraph).isErr = true :=
  ⟨by decide, claim_C9 (fun _ => 0) exampleGraph (by decide)⟩

/-- Witness for C2: on the reachable triangle graph, `add_edge 1 4` fails
because vertex 4 does not exist, and the claim's equivalence applies. -/
theorem claim_C2_witness :
    Reachable exampleGraph ∧
    (addEdge exampleGraph 1 4).isErr = true ∧
    ((addEdge exampleGraph 1 4).isErr = true ↔
      (exampleGraph.findVtx 1 = none ∨ exampleGraph.findVtx 4 = none ∨ (1 : Nat) = 4)) := by
  have hreach : Reachable exampleGraph :=
    Reachable.addEdge (Reachable.addEdge (Reachable.addEdge
      (Reachable.addVtx (Reachable.addVtx (Reachable.addVtx Reachable.empty 1) 2) 3)
      1 2) 2 3) 1 3
  exact ⟨hreach, by decide, (claim_C2 hreach 1 4).1⟩

end MinCut

/-! ## Theorems: BFS basics -/

namespace Bfs

theorem findVtx_some_bfs {g : Graph} {i : Nat} {v : Vertex} (h : g.findVtx i = some v) :
    v ∈ g.vtxList ∧ v.vtxId = i := by
  refine ⟨List.mem_of_find?_eq_some h, ?_⟩
  have := List.find?_some h
  simpa using this

theorem find?_byId_mem_bfs {l : List Vertex} {v : Vertex}
    (hnd : (l.map Vertex.vtxId).Nodup) (hv : v ∈ l) :
    l.find? (fun w => w.vtxId == v.vtxId) = some v := by
  induction l with
  | nil => cases hv
  | cons a l ih =>
    rw [List.map_cons, List.nodup_cons] at hnd
    rcases List.mem_cons.1 hv with h | h
    · subst h
      exact List.find?_cons_of_pos _ (by simp)
    · have hne : a.vtxId ≠ v.vtxId := fun hc => hnd.1 (hc ▸ List.mem_map_of_mem _ h)
      rw [List.find?_cons_of_neg _ (by simp [hne]), ih hnd.2 h]

theorem findVtx_mem_bfs {g : Graph} {v : Vertex}
    (hnd : (ids g).Nodup) (hv : v ∈ g.vtxList) :
    g.findVtx v.vtxId = some v :=
  find?_byId_mem_bfs hnd hv

theorem vtxId_subst_bfs (v w : Vertex) :
    (if w.vtxId == v.vtxId then v else w).vtxId = w.vtxId := by
  by_cases h : w.vtxId = v.vtxId
  · simp [h]
  · simp [h]

theorem updateVtx_ids_bfs (g : Graph) (v : Vertex) : ids (g.updateVtx v) = ids g := by
  unfold ids Graph.updateVtx
  rw [List.map_map]
  exact List.map_congr_left (fun w _ => vtxId_subst_bfs v w)

theorem findVtx_updateVtx_bfs (g : Graph) (v : Vertex) (j : Nat) :
    (g.updateVtx v).findVtx j =
      (g.findVtx j).map (fun w => if w.vtxId == v.vtxId then v else w) := by
  unfold Graph.findVtx Graph.updateVtx
  induction g.vtxList with
  | nil => rfl
  | cons w l ih =>
    simp only [List.map_cons, List.find?]
    rw [vtxId_subst_bfs]
    cases h : (w.vtxId == j)
    · simpa using ih
    · rfl

@[simp] theorem updateVtx_edgeHeap_bfs (g : Graph) (v : Vertex) :
    (g.updateVtx v).edgeHeap = g.edgeHeap := rfl

@[simp] theorem updateVtx_edgeObj_bfs (g : Graph) (v : Vertex) (eid : Nat) :
    (g.updateVtx v).edgeObj eid = g.edgeObj eid := rfl

theorem mem_ids_findVtx {g : Graph} {i : Nat} (h : i ∈ ids g) :
    ∃ v, g.findVtx i = some v := by
  unfold ids at h
  rcases List.mem_map.1 h with ⟨v, hv, rfl⟩
  have hs : (g.vtxList.find? (fun w => w.vtxId == v.vtxId)).isSome := by
    rw [List.find?_isSome]
    exact ⟨v, hv, by simp⟩
  exact Option.isSome_iff_exists.1 hs

theorem findVtx_mem_ids {g : Graph} {i : Nat} {v : Vertex} (h : g.findVtx i = some v) :
    i ∈ ids g := by
  obtain ⟨hm, hid⟩ := findVtx_some_bfs h
  exact hid ▸ List.mem_map_of_mem _ hm

theorem findVtx_update_self_bfs {g : Graph} {v' w : Vertex}
    (hf : g.findVtx v'.vtxId = some w) :
    (g.updateVtx v').findVtx v'.vtxId = some v' := by
  rw [findVtx_updateVtx_bfs, hf]
  have hb : (w.vtxId == v'.vtxId) = true := by simp [(findVtx_some_bfs hf).2]
  simp [Option.map, hb]

theorem findVtx_update_other_bfs (g : Graph) (v' : Vertex) {j : Nat} (h : j ≠ v'.vtxId) :
    (g.updateVtx v').findVtx j = g.findVtx j := by
  rw [findVtx_updateVtx_bfs]
  cases hf : g.findVtx j with
  | none => rfl
  | some w =>
    have hw : w.vtxId = j := (findVtx_some_bfs hf).2
    have hb : (w.vtxId == v'.vtxId) = false := by
      rw [hw]
      exact beq_eq_false_iff_ne.2 h
    simp [Option.map, hb]

theorem exploredFlag_update_self {g : Graph} {v' w : Vertex}
    (hf : g.findVtx v'.vtxId = some w) :
    exploredFlag (g.updateVtx v') v'.vtxId = v'.explored := by
  unfold exploredFlag
  rw [findVtx_update_self_bfs hf]

theorem exploredFlag_update_other (g : Graph) (v' : Vertex) {j : Nat} (h : j ≠ v'.vtxId) :
    exploredFlag (g.updateVtx v') j = exploredFlag g j := by
  unfold exploredFlag
  rw [findVtx_update_other_bfs g v' h]

theorem layerOf_update_self {g : Graph} {v' w : Vertex}
    (hf : g.findVtx v'.vtxId = some w) :
    layerOf (g.updateVtx v') v'.vtxId = v'.layer := by
  unfold layerOf
  rw [findVtx_update_self_bfs hf]

theorem layerOf_update_other (g : Graph) (v' : Vertex) {j : Nat} (h : j ≠ v'.vtxId) :
    layerOf (g.updateVtx v') j = layerOf g j := by
  unfold layerOf
  rw [findVtx_update_other_bfs g v' h]

theorem edgesOf_update {g : Graph} {v' w : Vertex}
    (hf : g.findVtx v'.vtxId = some w) (he : v'.edges = w.edges) (j : Nat) :
    edgesOf (g.updateVtx v') j = edgesOf g j := by
  unfold edgesOf
  by_cases hj : j = v'.vtxId
  · subst hj
    rw [findVtx_update_self_bfs hf, hf]
    exact he
  · rw [findVtx_update_other_bfs g v' hj]

theorem edgeObj_congr_bfs {g g₀ : Graph} (h : g.edgeHeap = g₀.edgeHeap) (eid : Nat) :
    g.edgeObj eid = g₀.edgeObj eid := by
  unfold Graph.edgeObj
  rw [h]

theorem adj_iff {g : Graph} {a b : Nat} :
    Adj g a b ↔ ∃ eid ∈ edgesOf g a, edgeStep g eid a = some b := by
  unfold Adj edgesOf edgeStep
  cases hf : g.findVtx a with
  | none =>
    constructor
    · rintro ⟨va, hva, -⟩
      cases hva
    · rintro ⟨eid, hmem, -⟩
      cases hmem
  | some va =>
    constructor
    · rintro ⟨va', hva', eid, hmem, e, he, hstep⟩
      cases hva'
      refine ⟨eid, hmem, ?_⟩
      rw [he, Option.map_some']
      rw [hstep]
    · rintro ⟨eid, hmem, hstep⟩
      cases he : g.edgeObj eid with
      | none => rw [he] at hstep; cases hstep
      | some e =>
        rw [he, Option.map_some'] at hstep
        exact ⟨va, rfl, eid, hmem, e, he, Option.some_injective _ hstep⟩

theorem exploredFlag_mem_ids {g : Graph} {x : Nat} (h : exploredFlag g x = true) :
    x ∈ ids g := by
  unfold exploredFlag at h
  cases hf : g.findVtx x with
  | none => rw [hf] at h; cases h
  | some v => exact findVtx_mem_ids hf

theorem exploredFlag_fresh {g : Graph}
    (hfresh : ∀ v ∈ g.vtxList, v.explored = false ∧ v.layer = 0) (x : Nat) :
    exploredFlag g x = false := by
  unfold exploredFlag
  cases hf : g.findVtx x with
  | none => rfl
  | some v => exact (hfresh v (findVtx_some_bfs hf).1).1

/-- The key reachability bound: at any point of the search, every vertex
with a walk of length `m` from `src` is either already explored or at least
`c + 1` steps away, where `c` bounds the queue layers from below. -/
theorem reach_deep {g₀ g : Graph} {src : Nat} (q : List Nat) (c : Nat)
    (hsrc : exploredFlag g src = true)
    (hub : ∀ x, exploredFlag g x = true → ∀ m, HasPath g₀ src x m → layerOf g x ≤ m)
    (hFP : ∀ x, exploredFlag g x = true → x ∉ q → ∀ y, Adj g₀ x y →
      exploredFlag g y = true)
    (hqc : ∀ x ∈ q, c ≤ layerOf g x) :
    ∀ m y, HasPath g₀ src y m → exploredFlag g y = true ∨ c + 1 ≤ m := by
  intro m y hp
  induction hp with
  | zero => exact Or.inl hsrc
  | @succ z y m hz hadj ih =>
    rcases ih with hexp | hdeep
    · by_cases hin : z ∈ q
      · have h1 := hqc z hin
        have h2 := hub z hexp m hz
        right
        omega
      · exact Or.inl (hFP z hexp hin y hadj)
    · right
      omega

theorem countP_replace {p : Vertex → Bool} :
    ∀ {l : List Vertex}, (l.map Vertex.vtxId).Nodup →
    ∀ {w v' : Vertex}, w ∈ l → v'.vtxId = w.vtxId → p w = true → p v' = false →
    (l.map (fun x => if x.vtxId == v'.vtxId then v' else x)).countP p + 1 = l.countP p := by
  intro l
  induction l with
  | nil =>
    intro _ w v' hw
    cases hw
  | cons a t ih =>
    intro hnd w v' hw hid hpw hpv
    rw [List.map_cons, List.nodup_cons] at hnd
    rcases List.mem_cons.1 hw with h | hwt
    · have hida : v'.vtxId = a.vtxId := h ▸ hid
      have hpa : p a = true := h ▸ hpw
      have hhead : (if a.vtxId == v'.vtxId then v' else a) = v' := by
        simp [hida.symm]
      have htid : t.map (fun y => if y.vtxId == v'.vtxId then v' else y) = t := by
        have h1 : t.map (fun y => if y.vtxId == v'.vtxId then v' else y) =
            t.map (fun y => y) := by
          refine List.map_congr_left ?_
          intro y hy
          have hne : y.vtxId ≠ v'.vtxId := by
            intro hc
            exact hnd.1 (by
              rw [show a.vtxId = y.vtxId from (hc.trans hida).symm]
              exact List.mem_map_of_mem Vertex.vtxId hy)
          simp [hne]
        rw [h1, List.map_id']
      rw [List.map_cons, hhead, htid]
      simp [List.countP_cons, hpa, hpv]
    · have hne : a.vtxId ≠ v'.vtxId := by
        rw [hid]
        intro hc
        exact hnd.1 (by
          rw [hc]
          exact List.mem_map_of_mem Vertex.vtxId hwt)
      have hhead : (if a.vtxId == v'.vtxId then v' else a) = a := by simp [hne]
      rw [List.map_cons, hhead]
      have hih := ih hnd.2 hwt hid hpw hpv
      simp only [List.countP_cons]
      omega

theorem unexploredCount_flip {g : Graph} (hnd : (ids g).Nodup) {i : Nat} {nbr : Vertex}
    (hf : g.findVtx i = some nbr) (hunexp : nbr.explored = false) (v' : Vertex)
    (hid : v'.vtxId = nbr.vtxId) (hexp : v'.explored = true) :
    unexploredCount (g.updateVtx v') + 1 = unexploredCount g := by
  unfold unexploredCount Graph.updateVtx
  exact countP_replace hnd (findVtx_some_bfs hf).1 hid (by simp [hunexp]) (by simp [hexp])

theorem exploredFlag_mono_flip {g : Graph} {v' : Vertex} (hexp : v'.explored = true)
    {x : Nat} (hx : exploredFlag g x = true) :
    exploredFlag (g.updateVtx v') x = true := by
  by_cases hxv : x = v'.vtxId
  · subst hxv
    unfold exploredFlag at hx
    cases hfx : g.findVtx v'.vtxId with
    | none => rw [hfx] at hx; cases hx
    | some w => rw [exploredFlag_update_self hfx]; exact hexp
  · rw [exploredFlag_update_other g v' hxv]
    exact hx

end Bfs

namespace Bfs

/-- Unfolding of one inner-loop step when the neighbor is already explored:
the edge is skipped. -/
theorem spPE_skip {destOpt : Option Nat} {vid eid b : Nat} {rest : List Nat} {g : Graph}
    {q : List Nat} {e : UEdge} {nbr : Vertex}
    (hobj : g.edgeObj eid = some e)
    (hb : (if e.end1 == vid then e.end2 else e.end1) = b)
    (hnbr : g.findVtx b = some nbr)
    (hexp : nbr.explored = true) :
    spProcessEdges destOpt vid (eid :: rest) g q = spProcessEdges destOpt vid rest g q := by
  have h1 : spProcessEdges destOpt vid (eid :: rest) g q =
      (match g.edgeObj eid with
        | none => Except.error PyErr.orphanRef
        | some e =>
          match g.findVtx (if e.end1 == vid then e.end2 else e.end1) with
          | none => Except.error PyErr.orphanRef
          | some nbr =>
            if nbr.explored then
              spProcessEdges destOpt vid rest g q
            else
              match g.findVtx vid with
              | none => Except.error PyErr.orphanRef
              | some v =>
                if destOpt == some (if e.end1 == vid then e.end2 else e.end1) then
                  Except.ok (Sum.inr (v.layer + 1))
                else
                  spProcessEdges destOpt vid rest
                    (g.updateVtx { nbr with explored := true, layer := v.layer + 1 })
                    (q ++ [if e.end1 == vid then e.end2 else e.end1])) := rfl
  rw [hobj] at h1
  have h2 : spProcessEdges destOpt vid (eid :: rest) g q =
      (match g.findVtx (if e.end1 == vid then e.end2 else e.end1) with
        | none => Except.error PyErr.orphanRef
        | some nbr =>
          if nbr.explored then
            spProcessEdges destOpt vid rest g q
          else
            match g.findVtx vid with
            | none => Except.error PyErr.orphanRef
            | some v =>
              if destOpt == some (if e.end1 == vid then e.end2 else e.end1) then
                Except.ok (Sum.inr (v.layer + 1))
              else
                spProcessEdges destOpt vid rest
                  (g.updateVtx { nbr with explored := true, layer := v.layer + 1 })
                  (q ++ [if e.end1 == vid then e.end2 else e.end1])) := h1
  rw [hb, hnbr] at h2
  have h3 : spProcessEdges destOpt vid (eid :: rest) g q =
      (if nbr.explored then
        spProcessEdges destOpt vid rest g q
      else
        match g.findVtx vid with
        | none => Except.error PyErr.orphanRef
        | some v =>
          if destOpt == some b then
            Except.ok (Sum.inr (v.layer + 1))
          else
            spProcessEdges destOpt vid rest
              (g.updateVtx { nbr with explored := true, layer := v.layer + 1 })
              (q ++ [b])) := h2
  rw [if_pos hexp] at h3
  exact h3

/-- Unfolding of one inner-loop step when the neighbor is unexplored and is
the destination object: the early `return dest_vtx.layer`. -/
theorem spPE_hit {destOpt : Option Nat} {vid eid b : Nat} {rest : List Nat} {g : Graph}
    {q : List Nat} {e : UEdge} {nbr v : Vertex}
    (hobj : g.edgeObj eid = some e)
    (hb : (if e.end1 == vid then e.end2 else e.end1) = b)
    (hnbr : g.findVtx b = some nbr)
    (hexp : nbr.explored = false)
    (hv : g.findVtx vid = some v)
    (hbeq : (destOpt == some b) = true) :
    spProcessEdges destOpt vid (eid :: rest) g q = Except.ok (Sum.inr (v.layer + 1)) := by
  have hexpF : ¬(nbr.explored = true) := by
    rw [hexp]
    exact Bool.false_ne_true
  have h1 : spProcessEdges destOpt vid (eid :: rest) g q =
      (match g.edgeObj eid with
        | none => Except.error PyErr.orphanRef
        | some e =>
          match g.findVtx (if e.end1 == vid then e.end2 else e.end1) with
          | none => Except.error PyErr.orphanRef
          | some nbr =>
            if nbr.explored then
              spProcessEdges destOpt vid rest g q
            else
              match g.findVtx vid with
              | none => Except.error PyErr.orphanRef
              | some v =>
                if destOpt == some (if e.end1 == vid then e.end2 else e.end1) then
                  Except.ok (Sum.inr (v.layer + 1))
                else
                  spProcessEdges destOpt vid rest
                    (g.updateVtx { nbr with explored := true, layer := v.layer + 1 })
                    (q ++ [if e.end1 == vid then e.end2 else e.end1])) := rfl
  rw [hobj] at h1
  have h2 : spProcessEdges destOpt vid (eid :: rest) g q =
      (match g.findVtx (if e.end1 == vid then e.end2 else e.end1) with
        | none => Except.error PyErr.orphanRef
        | some nbr =>
          if nbr.explored then
            spProcessEdges destOpt vid rest g q
          else
            match g.findVtx vid with
            | none => Except.error PyErr.orphanRef
            | some v =>
              if destOpt == some (if e.end1 == vid then e.end2 else e.end1) then
                Except.ok (Sum.inr (v.layer + 1))
              else
                spProcessEdges destOpt vid rest
                  (g.updateVtx { nbr with explored := true, layer := v.layer + 1 })
                  (q ++ [if e.end1 == vid then e.end2 else e.end1])) := h1
  rw [hb, hnbr] at h2
  have h3 : spProcessEdges destOpt vid (eid :: rest) g q =
      (if nbr.explored then
        spProcessEdges destOpt vid rest g q
      else
        match g.findVtx vid with
        | none => Except.error PyErr.orphanRef
        | some v =>
          if destOpt == some b then
            Except.ok (Sum.inr (v.layer + 1))
          else
            spProcessEdges destOpt vid rest
              (g.updateVtx { nbr with explored := true, layer := v.layer + 1 })
              (q ++ [b])) := h2
  rw [if_neg hexpF, hv] at h3
  have h4 : spProcessEdges destOpt vid (eid :: rest) g q =
      (if destOpt == some b then
        Except.ok (Sum.inr (v.layer + 1))
      else
        spProcessEdges destOpt vid rest
          (g.updateVtx { nbr with explored := true, layer := v.layer + 1 })
          (q ++ [b])) := h3
  rw [if_pos hbeq] at h4
  exact h4

/-- Unfolding of one inner-loop step when the neighbor is unexplored and not
the destination: mark it explored at layer `vtx.layer + 1`, enqueue it. -/
theorem spPE_flip {destOpt : Option Nat} {vid eid b : Nat} {rest : List Nat} {g : Graph}
    {q : List Nat} {e : UEdge} {nbr v : Vertex}
    (hobj : g.edgeObj eid = some e)
    (hb : (if e.end1 == vid then e.end2 else e.end1) = b)
    (hnbr : g.findVtx b = some nbr)
    (hexp : nbr.explored = false)
    (hv : g.findVtx vid = some v)
    (hbeq : (destOpt == some b) = false) :
    spProcessEdges destOpt vid (eid :: rest) g q =
      spProcessEdges destOpt vid rest
        (g.updateVtx { nbr with explored := true, layer := v.layer + 1 }) (q ++ [b]) := by
  have hexpF : ¬(nbr.explored = true) := by
    rw [hexp]
    exact Bool.false_ne_true
  have hbeqF : ¬((destOpt == some b) = true) := by
    rw [hbeq]
    exact Bool.false_ne_true
  have h1 : spProcessEdges destOpt vid (eid :: rest) g q =
      (match g.edgeObj eid with
        | none => Except.error PyErr.orphanRef
        | some e =>
          match g.findVtx (if e.end1 == vid then e.end2 else e.end1) with
          | none => Except.error PyErr.orphanRef
          | some nbr =>
            if nbr.explored then
              spProcessEdges destOpt vid rest g q
            else
              match g.findVtx vid with
              | none => Except.error PyErr.orphanRef
              | some v =>
                if destOpt == some (if e.end1 == vid then e.end2 else e.end1) then
                  Except.ok (Sum.inr (v.layer + 1))
                else
                  spProcessEdges destOpt vid rest
                    (g.updateVtx { nbr with explored := true, layer := v.layer + 1 })
                    (q ++ [if e.end1 == vid then e.end2 else e.end1])) := rfl
  rw [hobj] at h1
  have h2 : spProcessEdges destOpt vid (eid :: rest) g q =
      (match g.findVtx (if e.end1 == vid then e.end2 else e.end1) with
        | none => Except.error PyErr.orphanRef
        | some nbr =>
          if nbr.explored then
            spProcessEdges destOpt vid rest g q
          else
            match g.findVtx vid with
            | none => Except.error PyErr.orphanRef
            | some v =>
              if destOpt == some (if e.end1 == vid then e.end2 else e.end1) then
                Except.ok (Sum.inr (v.layer + 1))
              else
                spProcessEdges destOpt vid rest
                  (g.updateVtx { nbr with explored := true, layer := v.layer + 1 })
                  (q ++ [if e.end1 == vid then e.end2 else e.end1])) := h1
  rw [hb, hnbr] at h2
  have h3 : spProcessEdges destOpt vid (eid :: rest) g q =
      (if nbr.explored then
        spProcessEdges destOpt vid rest g q
      else
        match g.findVtx vid with
        | none => Except.error PyErr.orphanRef
        | some v =>
          if destOpt == some b then
            Except.ok (Sum.inr (v.layer + 1))
          else
            spProcessEdges destOpt vid rest
              (g.updateVtx { nbr with explored := true, layer := v.layer + 1 })
              (q ++ [b])) := h2
  rw [if_neg hexpF, hv] at h3
  have h4 : spProcessEdges destOpt vid (eid :: rest) g q =
      (if destOpt == some b then
        Except.ok (Sum.inr (v.layer + 1))
      else
        spProcessEdges destOpt vid rest
          (g.updateVtx { nbr with explored := true, layer := v.layer + 1 })
          (q ++ [b])) := h3
  rw [if_neg hbeqF] at h4
  exact h4

end Bfs

namespace Bfs

/-- Correctness of one full pass of the inner edge loop: either it finishes,
restoring the outer invariant with the measure preserved, or it discovers
the destination at layer `c + 1`, which is then its exact BFS distance. -/
theorem spProcessEdges_spec {g₀ : Graph} {src : Nat} {destOpt : Option Nat}
    (hnd : (ids g₀).Nodup)
    (hres : ∀ i ∈ ids g₀, ∀ eid ∈ edgesOf g₀ i, edgeOkB g₀ i eid = true)
    {vid : Nat} (hvid : vid ∈ ids g₀) :
    ∀ (todo : List Nat) (c : Nat) (g : Graph) (q : List Nat),
      SpMidInv g₀ src destOpt g vid c q todo →
      (∃ g' q', spProcessEdges destOpt vid todo g q = .ok (.inl (g', q')) ∧
        SpInv g₀ src destOpt g' q' ∧
        unexploredCount g' + q'.length = unexploredCount g + q.length) ∨
      (∃ d, destOpt = some d ∧
        spProcessEdges destOpt vid todo g q = .ok (.inr (c + 1)) ∧
        HasPath g₀ src d (c + 1) ∧ ∀ m, HasPath g₀ src d m → c + 1 ≤ m) := by
  intro todo
  induction todo with
  | nil =>
    intro c g q hInv
    left
    refine ⟨g, q, rfl, ?_, rfl⟩
    obtain ⟨done, hdone, hproc⟩ := hInv.vSplit
    rw [List.append_nil] at hdone
    have hvFP : ∀ y, Adj g₀ vid y → exploredFlag g y = true := by
      intro y hy
      rcases adj_iff.1 hy with ⟨eid, hmem, hstep⟩
      exact hproc eid (hdone ▸ hmem) y hstep
    obtain ⟨q1, q2, hq, hq1, hq2⟩ := hInv.qSplit
    refine ⟨hInv.hids, hInv.hedges, hInv.hheap, hInv.srcExp, hInv.qIds, hInv.qExp, ?_,
      hInv.expDist, ?_, hInv.destUnexp⟩
    · cases hq1e : q1 with
      | nil =>
        refine ⟨c + 1, q2, [], ?_, fun _ => rfl, ?_, ?_⟩
        · rw [hq, hq1e, List.nil_append, List.append_nil]
        · intro x hx
          exact hq2 x hx
        · intro x hx
          cases hx
      | cons z zs =>
        refine ⟨c, q1, q2, hq, ?_, hq1, hq2⟩
        intro hc
        rw [hq1e] at hc
        cases hc
    · intro x hx hxq y hy
      by_cases hxv : x = vid
      · subst hxv
        exact hvFP y hy
      · exact hInv.expFP x hx hxv hxq y hy
  | cons eid rest ih =>
    intro c g q hInv
    obtain ⟨done, hdone, hproc⟩ := hInv.vSplit
    have hmemE : eid ∈ edgesOf g₀ vid := by
      rw [hdone]
      exact List.mem_append_right _ (List.mem_cons_self _ _)
    have hok := hres vid hvid eid hmemE
    cases hobj0 : g₀.edgeObj eid with
    | none =>
      unfold edgeOkB at hok
      rw [hobj0] at hok
      cases hok
    | some e =>
      have hokE : (ids g₀).contains (if e.end1 == vid then e.end2 else e.end1) = true := by
        unfold edgeOkB at hok
        rw [hobj0] at hok
        exact hok
      set b : Nat := if e.end1 == vid then e.end2 else e.end1 with hbDef
      have hobj : g.edgeObj eid = some e := by
        rw [edgeObj_congr_bfs hInv.hheap, hobj0]
      have hnbrIds : b ∈ ids g₀ := by simpa using hokE
      have hnbrIdsG : b ∈ ids g := by
        rw [hInv.hids]
        exact hnbrIds
      obtain ⟨nbr, hnbrF⟩ := mem_ids_findVtx hnbrIdsG
      have hnbrId : nbr.vtxId = b := (findVtx_some_bfs hnbrF).2
      have hstep0 : edgeStep g₀ eid vid = some b := by
        unfold edgeStep
        rw [hobj0, Option.map_some', hbDef]
      have hdone' : edgesOf g₀ vid = (done ++ [eid]) ++ rest := by
        rw [hdone, List.append_cons]
      cases hexp : nbr.explored with
      | true =>
        have hrun : spProcessEdges destOpt vid (eid :: rest) g q =
            spProcessEdges destOpt vid rest g q :=
          spPE_skip hobj hbDef.symm hnbrF hexp
        have hnbrExp : exploredFlag g b = true := by
          unfold exploredFlag
          rw [hnbrF]
          exact hexp
        have hInv' : SpMidInv g₀ src destOpt g vid c q rest := by
          refine ⟨hInv.hids, hInv.hedges, hInv.hheap, hInv.srcExp, hInv.vExp, hInv.vLayer,
            ⟨done ++ [eid], hdone', ?_⟩, hInv.qIds, hInv.qExp, hInv.qSplit,
            hInv.expDist, hInv.expFP, hInv.destUnexp⟩
          intro eid' hmem' b' hstep'
          rcases List.mem_append.1 hmem' with h1 | h1
          · exact hproc eid' h1 b' hstep'
          · rcases List.mem_singleton.1 h1 with rfl
            have hb' : b' = b := by
              rw [hstep0] at hstep'
              exact (Option.some_injective _ hstep').symm
            rw [hb']
            exact hnbrExp
        rcases ih c g q hInv' with ⟨g', q', hrun', hI, hm⟩ | ⟨d, hd, hrun', hp, hmin⟩
        · exact Or.inl ⟨g', q', hrun.trans hrun', hI, hm⟩
        · exact Or.inr ⟨d, hd, hrun.trans hrun', hp, hmin⟩
      | false =>
        obtain ⟨v, hvF⟩ := mem_ids_findVtx (show vid ∈ ids g by
          rw [hInv.hids]; exact hvid)
        have hvLayer : v.layer = c := by
          have h1 := hInv.vLayer
          unfold layerOf at h1
          rw [hvF] at h1
          exact h1
        have hnbrUnexp : exploredFlag g b = false := by
          unfold exploredFlag
          rw [hnbrF]
          exact hexp
        have hvidb : vid ≠ b := by
          intro hc
          have h1 := hInv.vExp
          rw [hc, hnbrUnexp] at h1
          cases h1
        have hAdjVb : Adj g₀ vid b := adj_iff.2 ⟨eid, hmemE, hstep0⟩
        have hPathB : HasPath g₀ src b (c + 1) := by
          have hPv := (hInv.expDist vid hInv.vExp).1
          rw [hInv.vLayer] at hPv
          exact hPv.succ hAdjVb
        obtain ⟨q1, q2, hq, hq1, hq2⟩ := hInv.qSplit
        have hMinB : ∀ m, HasPath g₀ src b m → c + 1 ≤ m := by
          intro m hm
          have hqc : ∀ x ∈ vid :: q, c ≤ layerOf g x := by
            intro x hx
            rcases List.mem_cons.1 hx with rfl | hx'
            · rw [hInv.vLayer]
            · rw [hq] at hx'
              rcases List.mem_append.1 hx' with h1 | h1
              · rw [hq1 x h1]
              · rw [hq2 x h1]
                omega
          have hdeep := reach_deep (vid :: q) c hInv.srcExp
            (fun x hx => (hInv.expDist x hx).2)
            (fun x hx hxq y hy => hInv.expFP x hx
              (fun hc => hxq (hc ▸ List.mem_cons_self _ _))
              (fun hc => hxq (List.mem_cons_of_mem _ hc)) y hy)
            hqc
          rcases hdeep m b hm with hexp' | hle
          · rw [hnbrUnexp] at hexp'
            cases hexp'
          · exact hle
        cases hbeq : (destOpt == some b) with
        | true =>
          have hrun : spProcessEdges destOpt vid (eid :: rest) g q =
              Except.ok (Sum.inr (v.layer + 1)) :=
            spPE_hit hobj hbDef.symm hnbrF hexp hvF hbeq
          rw [hvLayer] at hrun
          exact Or.inr ⟨b, eq_of_beq hbeq, hrun, hPathB, hMinB⟩
        | false =>
          set nbr' : Vertex := { nbr with explored := true, layer := v.layer + 1 }
            with hnbr'Def
          have hnbr'Id : nbr'.vtxId = b := hnbrId
          have hnbr'F : g.findVtx nbr'.vtxId = some nbr := by
            rw [hnbr'Id]
            exact hnbrF
          set g' : Graph := g.updateVtx nbr' with hg'Def
          have hrun : spProcessEdges destOpt vid (eid :: rest) g q =
              spProcessEdges destOpt vid rest g' (q ++ [b]) :=
            spPE_flip hobj hbDef.symm hnbrF hexp hvF hbeq
          -- facts about the flipped state
          have hexpSelf : exploredFlag g' b = true := by
            have h1 := exploredFlag_update_self hnbr'F
            rw [hnbr'Id] at h1
            rw [h1]
          have hlaySelf : layerOf g' b = c + 1 := by
            have h1 := layerOf_update_self hnbr'F
            rw [hnbr'Id] at h1
            rw [h1, show nbr'.layer = v.layer + 1 from rfl, hvLayer]
          have hexpOther : ∀ x, x ≠ b → exploredFlag g' x = exploredFlag g x := by
            intro x hx
            exact exploredFlag_update_other g nbr' (by rw [hnbr'Id]; exact hx)
          have hlayOther : ∀ x, x ≠ b → layerOf g' x = layerOf g x := by
            intro x hx
            exact layerOf_update_other g nbr' (by rw [hnbr'Id]; exact hx)
          have hexpMono : ∀ x, exploredFlag g x = true → exploredFlag g' x = true :=
            fun x hx => exploredFlag_mono_flip rfl hx
          have hneqb : ∀ x, exploredFlag g x = true → x ≠ b := by
            intro x hx hc
            rw [hc, hnbrUnexp] at hx
            cases hx
          have hInv' : SpMidInv g₀ src destOpt g' vid c (q ++ [b]) rest := by
            refine ⟨?_, ?_, ?_, ?_, ?_, ?_, ?_, ?_, ?_, ?_, ?_, ?_, ?_⟩
            · rw [show ids g' = ids g from updateVtx_ids_bfs g nbr']
              exact hInv.hids
            · intro j
              rw [show edgesOf g' j = edgesOf g j from edgesOf_update hnbr'F rfl j]
              exact hInv.hedges j
            · exact hInv.hheap
            · exact hexpMono src hInv.srcExp
            · exact hexpMono vid hInv.vExp
            · rw [hlayOther vid hvidb]
              exact hInv.vLayer
            · refine ⟨done ++ [eid], hdone', ?_⟩
              intro eid' hmem' b' hstep'
              rcases List.mem_append.1 hmem' with h1 | h1
              · exact hexpMono b' (hproc eid' h1 b' hstep')
              · rcases List.mem_singleton.1 h1 with rfl
                have hb' : b' = b := by
                  rw [hstep0] at hstep'
                  exact (Option.some_injective _ hstep').symm
                rw [hb']
                exact hexpSelf
            · intro x hx
              rcases List.mem_append.1 hx with h1 | h1
              · exact hInv.qIds x h1
              · rcases List.mem_singleton.1 h1 with rfl
                exact hnbrIds
            · intro x hx
              rcases List.mem_append.1 hx with h1 | h1
              · exact hexpMono x (hInv.qExp x h1)
              · rcases List.mem_singleton.1 h1 with rfl
                exact hexpSelf
            · refine ⟨q1, q2 ++ [b], by rw [hq, List.append_assoc], ?_, ?_⟩
              · intro x hx
                have hxb : x ≠ b := hneqb x (hInv.qExp x (by rw [hq]; exact List.mem_append_left _ hx))
                rw [hlayOther x hxb]
                exact hq1 x hx
              · intro x hx
                rcases List.mem_append.1 hx with h1 | h1
                · have hxb : x ≠ b := hneqb x (hInv.qExp x (by rw [hq]; exact List.mem_append_right _ h1))
                  rw [hlayOther x hxb]
                  exact hq2 x h1
                · rcases List.mem_singleton.1 h1 with rfl
                  exact hlaySelf
            · intro x hx
              by_cases hxb : x = b
              · subst hxb
                rw [hlaySelf]
                exact ⟨hPathB, hMinB⟩
              · have hxg : exploredFlag g x = true := by
                  rw [← hexpOther x hxb]
                  exact hx
                rw [hlayOther x hxb]
                exact hInv.expDist x hxg
            · intro x hx hxvid hxq y hy
              have hxb : x ≠ b := by
                intro hc
                exact hxq (hc ▸ List.mem_append_right _ (List.mem_singleton.2 rfl))
              have hxg : exploredFlag g x = true := by
                rw [← hexpOther x hxb]
                exact hx
              have hxq' : x ∉ q := fun hc => hxq (List.mem_append_left _ hc)
              exact hexpMono y (hInv.expFP x hxg hxvid hxq' y hy)
            · intro d hd
              have hdb : d ≠ b := by
                intro hc
                subst hc
                rw [hd] at hbeq
                simp at hbeq
              rw [hexpOther d hdb]
              exact hInv.destUnexp d hd
          have hcount : unexploredCount g' + 1 = unexploredCount g := by
            refine unexploredCount_flip ?_ hnbrF hexp nbr' rfl rfl
            rw [hInv.hids]
            exact hnd
          rcases ih c g' (q ++ [b]) hInv' with ⟨g2, q2', hrun', hI, hm⟩ | ⟨d, hd, hrun', hp, hmin⟩
          · refine Or.inl ⟨g2, q2', hrun.trans hrun', hI, ?_⟩
            rw [hm]
            simp only [List.length_append, List.length_singleton]
            omega
          · exact Or.inr ⟨d, hd, hrun.trans hrun', hp, hmin⟩

end Bfs

namespace Bfs

/-- Correctness of the `shortest_path` queue loop: with enough fuel, it
returns the exact BFS distance of the destination when one exists, and `-1`
when the destination object is unreachable (or is not a vertex at all). -/
theorem spLoop_spec {g₀ : Graph} {src : Nat} {destOpt : Option Nat}
    (hnd : (ids g₀).Nodup)
    (hres : ∀ i ∈ ids g₀, ∀ eid ∈ edgesOf g₀ i, edgeOkB g₀ i eid = true) :
    ∀ (fuel : Nat) (g : Graph) (q : List Nat),
      SpInv g₀ src destOpt g q →
      unexploredCount g + q.length < fuel →
      (∃ d n, destOpt = some d ∧ spLoop destOpt fuel g q = .ok (Int.ofNat n) ∧
        HasPath g₀ src d n ∧ ∀ m, HasPath g₀ src d m → n ≤ m) ∨
      (spLoop destOpt fuel g q = .ok (-1) ∧
        ∀ d m, destOpt = some d → ¬HasPath g₀ src d m) := by
  intro fuel
  induction fuel with
  | zero =>
    intro g q _ hf
    exact absurd hf (Nat.not_lt_zero _)
  | succ f ih =>
    intro g q hInv hfuel
    cases q with
    | nil =>
      right
      refine ⟨rfl, ?_⟩
      intro d m hd hp
      have hdu := hInv.destUnexp d hd
      have hdeep := reach_deep [] m hInv.srcExp
        (fun x hx => (hInv.expDist x hx).2)
        (fun x hx _ y hy => hInv.expFP x hx (by simp) y hy)
        (by intro x hx; cases hx)
      rcases hdeep m d hp with hexp | habs
      · rw [hdu] at hexp
        cases hexp
      · omega
    | cons vid qrest =>
      have hvid : vid ∈ ids g₀ := hInv.qIds vid (List.mem_cons_self _ _)
      obtain ⟨v, hvF⟩ := mem_ids_findVtx (show vid ∈ ids g by
        rw [hInv.hids]; exact hvid)
      -- split the queue: the front is in the first (layer-c) block
      obtain ⟨c, q1, q2, hq, hne, hq1, hq2⟩ := hInv.qSplit
      cases hq1e : q1 with
      | nil =>
        rw [hq1e] at hne hq
        rw [hne rfl, List.append_nil] at hq
        cases hq
      | cons z zs =>
        rw [hq1e] at hq hq1
        rw [List.cons_append] at hq
        injection hq with h1 hqrest
        subst h1
        have hvLayer : layerOf g vid = c := hq1 vid (List.mem_cons_self _ _)
        have hvEdges : v.edges = edgesOf g₀ vid := by
          have h1 : edgesOf g vid = v.edges := by
            unfold edgesOf
            rw [hvF]
          rw [← h1, hInv.hedges]
        have hMid : SpMidInv g₀ src destOpt g vid c qrest v.edges := by
          refine ⟨hInv.hids, hInv.hedges, hInv.hheap, hInv.srcExp,
            hInv.qExp vid (List.mem_cons_self _ _), hvLayer,
            ⟨[], by rw [List.nil_append]; exact hvEdges.symm, ?_⟩, ?_, ?_, ?_,
            hInv.expDist, ?_, hInv.destUnexp⟩
          · intro eid hmem
            cases hmem
          · intro x hx
            exact hInv.qIds x (List.mem_cons_of_mem _ hx)
          · intro x hx
            exact hInv.qExp x (List.mem_cons_of_mem _ hx)
          · refine ⟨zs, q2, hqrest, ?_, hq2⟩
            intro x hx
            exact hq1 x (List.mem_cons_of_mem _ hx)
          · intro x hx hxvid hxq y hy
            refine hInv.expFP x hx ?_ y hy
            intro hc
            rcases List.mem_cons.1 hc with h1 | h1
            · exact hxvid h1
            · exact hxq h1
        rcases spProcessEdges_spec hnd hres hvid v.edges c g qrest hMid with
          ⟨g', q', hrun, hI, hm⟩ | ⟨d, hd, hrun, hp, hmin⟩
        · have hstep : spLoop destOpt (f + 1) g (vid :: qrest) = spLoop destOpt f g' q' := by
            have h1 : spLoop destOpt (f + 1) g (vid :: qrest) =
                (match g.findVtx vid with
                  | none => Except.error PyErr.orphanRef
                  | some v =>
                    match spProcessEdges destOpt vid v.edges g qrest with
                    | .error er => Except.error er
                    | .ok (.inr ans) => Except.ok (Int.ofNat ans)
                    | .ok (.inl (g', q')) => spLoop destOpt f g' q') := rfl
            rw [hvF] at h1
            have h2 : spLoop destOpt (f + 1) g (vid :: qrest) =
                (match spProcessEdges destOpt vid v.edges g qrest with
                  | .error er => Except.error er
                  | .ok (.inr ans) => Except.ok (Int.ofNat ans)
                  | .ok (.inl (g', q')) => spLoop destOpt f g' q') := h1
            rw [hrun] at h2
            exact h2
          have hfuel' : unexploredCount g' + q'.length < f := by
            rw [hm]
            simp only [List.length_cons] at hfuel
            omega
          rcases ih g' q' hI hfuel' with ⟨d, n, hd, hrun', hp, hmin⟩ | ⟨hrun', hunr⟩
          · exact Or.inl ⟨d, n, hd, hstep.trans hrun', hp, hmin⟩
          · exact Or.inr ⟨hstep.trans hrun', hunr⟩
        · have hstep : spLoop destOpt (f + 1) g (vid :: qrest) =
              Except.ok (Int.ofNat (c + 1)) := by
            have h1 : spLoop destOpt (f + 1) g (vid :: qrest) =
                (match g.findVtx vid with
                  | none => Except.error PyErr.orphanRef
                  | some v =>
                    match spProcessEdges destOpt vid v.edges g qrest with
                    | .error er => Except.error er
                    | .ok (.inr ans) => Except.ok (Int.ofNat ans)
                    | .ok (.inl (g', q')) => spLoop destOpt f g' q') := rfl
            rw [hvF] at h1
            have h2 : spLoop destOpt (f + 1) g (vid :: qrest) =
                (match spProcessEdges destOpt vid v.edges g qrest with
                  | .error er => Except.error er
                  | .ok (.inr ans) => Except.ok (Int.ofNat ans)
                  | .ok (.inl (g', q')) => spLoop destOpt f g' q') := h1
            rw [hrun] at h2
            exact h2
          exact Or.inl ⟨d, c + 1, hd, hstep, hp, hmin⟩

end Bfs

namespace Bfs

/-- The invariant holds on entry to the queue loop: only the source is
explored (at layer 0) and the queue is `[src]`. -/
theorem spInv_init {g : Graph} {srcId : Nat} (destOpt : Option Nat) {vs : Vertex}
    (hnd : (ids g).Nodup)
    (hfresh : ∀ v ∈ g.vtxList, v.explored = false ∧ v.layer = 0)
    (hsv : g.findVtx srcId = some vs)
    (hdest : ∀ d, destOpt = some d → d ≠ srcId) :
    SpInv g srcId destOpt (g.updateVtx { vs with explored := true }) [srcId] ∧
    unexploredCount (g.updateVtx { vs with explored := true }) + 1 = unexploredCount g := by
  have hvsId : vs.vtxId = srcId := (findVtx_some_bfs hsv).2
  have hvsMem : vs ∈ g.vtxList := (findVtx_some_bfs hsv).1
  have hsvF : g.findVtx ({ vs with explored := true } : Vertex).vtxId = some vs := by
    show g.findVtx vs.vtxId = some vs
    rw [hvsId]
    exact hsv
  have hidEq : ({ vs with explored := true } : Vertex).vtxId = srcId := hvsId
  have hsrcExp : exploredFlag (g.updateVtx { vs with explored := true }) srcId = true := by
    rw [show srcId = ({ vs with explored := true } : Vertex).vtxId from hidEq.symm]
    exact exploredFlag_update_self hsvF
  have hexpOther : ∀ x, x ≠ srcId →
      exploredFlag (g.updateVtx { vs with explored := true }) x = exploredFlag g x := by
    intro x hx
    exact exploredFlag_update_other g _ (by rw [hidEq]; exact hx)
  have hlaySrc : layerOf (g.updateVtx { vs with explored := true }) srcId = 0 := by
    rw [show srcId = ({ vs with explored := true } : Vertex).vtxId from hidEq.symm]
    rw [layerOf_update_self hsvF]
    exact (hfresh vs hvsMem).2
  have hexpChar : ∀ x,
      exploredFlag (g.updateVtx { vs with explored := true }) x = true → x = srcId := by
    intro x hx
    by_cases hxs : x = srcId
    · exact hxs
    · rw [hexpOther x hxs, exploredFlag_fresh hfresh x] at hx
      cases hx
  refine ⟨⟨updateVtx_ids_bfs g _, edgesOf_update hsvF rfl, rfl, hsrcExp, ?_, ?_, ?_, ?_, ?_, ?_⟩, ?_⟩
  · intro x hx
    rcases List.mem_singleton.1 hx with rfl
    exact findVtx_mem_ids hsv
  · intro x hx
    rcases List.mem_singleton.1 hx with rfl
    exact hsrcExp
  · refine ⟨0, [srcId], [], rfl, ?_, ?_, ?_⟩
    · intro hc
      cases hc
    · intro x hx
      rcases List.mem_singleton.1 hx with rfl
      exact hlaySrc
    · intro x hx
      cases hx
  · intro x hx
    rcases hexpChar x hx with rfl
    rw [hlaySrc]
    exact ⟨HasPath.zero, fun m _ => Nat.zero_le m⟩
  · intro x hx hxq
    rcases hexpChar x hx with rfl
    exact absurd (List.mem_singleton.2 rfl) hxq
  · intro d hd
    have hds : d ≠ srcId := hdest d hd
    rw [hexpOther d hds, exploredFlag_fresh hfresh d]
  · exact unexploredCount_flip hnd hsv (hfresh vs hvsMem).1 _ rfl rfl

end Bfs

namespace Bfs

/-- **C4** (corrected: the general part requires `src ≠ dest`; the original
claim fails at `src = dest`, where the code returns `-1` although the true
hop count is 0).  For every well-formed fresh graph whose source and
destination both exist and differ, `shortest_path` returns the hop count of
a fewest-edge path from `src` to `dest` when one exists, and the sentinel
`-1` exactly when `dest` is unreachable; in particular, on the 6-vertex
cycle-plus-chord graph, `shortest_path(1, 6) = 1` and `bfs(1)` returns
exactly the vertex ids `{1, 2, 3, 4, 5, 6}`. -/
theorem claim_C4 {g : Graph} {srcId destId : Nat}
    (hnd : (ids g).Nodup)
    (hres : ∀ i ∈ ids g, ∀ eid ∈ edgesOf g i, edgeOkB g i eid = true)
    (hfresh : ∀ v ∈ g.vtxList, v.explored = false ∧ v.layer = 0)
    (hsv : (g.findVtx srcId).isSome = true)
    (hdv : (g.findVtx destId).isSome = true)
    (hne : srcId ≠ destId) :
    ((∃ n : Nat, shortestPath g srcId destId = .ok (Int.ofNat n) ∧
        HasPath g srcId destId n ∧ ∀ m, HasPath g srcId destId m → n ≤ m) ∨
      ((∀ m, ¬HasPath g srcId destId m) ∧ shortestPath g srcId destId = .ok (-1))) ∧
    shortestPath example6 1 6 = .ok 1 ∧
    bfs example6 1 = .ok [1, 2, 6, 4, 3, 5] ∧
    [1, 2, 6, 4, 3, 5].Perm [1, 2, 3, 4, 5, 6] := by
  refine ⟨?_, by rfl, by rfl, by decide⟩
  obtain ⟨vs, hsv'⟩ := Option.isSome_iff_exists.1 hsv
  obtain ⟨vd, hdv'⟩ := Option.isSome_iff_exists.1 hdv
  have hdmap : (g.findVtx destId).map Vertex.vtxId = some destId := by
    rw [hdv', Option.map_some', (findVtx_some_bfs hdv').2]
  have hrun : shortestPath g srcId destId =
      spLoop (some destId) (g.vtxList.length + 1)
        (g.updateVtx { vs with explored := true }) [srcId] := by
    have h1 : shortestPath g srcId destId =
        (match g.findVtx srcId with
          | none => .error (.illegalArgument
              "The input source and destination vertices don't both exist.")
          | some src =>
            spLoop ((g.findVtx destId).map Vertex.vtxId) (g.vtxList.length + 1)
              (g.updateVtx { src with explored := true }) [srcId]) := rfl
    rw [hsv', hdmap] at h1
    exact h1
  obtain ⟨hInv, hcount⟩ := spInv_init (some destId) hnd hfresh hsv'
    (fun d hd => by cases hd; exact hne.symm)
  have hle : unexploredCount g ≤ g.vtxList.length := List.countP_le_length _
  have hfuel : unexploredCount (g.updateVtx { vs with explored := true }) +
      ([srcId] : List Nat).length < g.vtxList.length + 1 := by
    simp only [List.length_singleton]
    omega
  rcases spLoop_spec hnd hres (g.vtxList.length + 1) _ [srcId] hInv hfuel with
    ⟨d, n, hd, hrun', hp, hmin⟩ | ⟨hrun', hunr⟩
  · cases hd
    exact Or.inl ⟨n, hrun.trans hrun', hp, hmin⟩
  · exact Or.inr ⟨fun m => hunr destId m rfl, hrun.trans hrun'⟩

end Bfs

namespace Bfs

/-- Witness for C4: the 6-vertex graph of the claim satisfies all the
hypotheses at `src = 1`, `dest = 6`, and the theorem applies to it. -/
theorem claim_C4_witness :
    ((ids example6).Nodup ∧ (example6.findVtx 1).isSome = true ∧
      (example6.findVtx 6).isSome = true ∧ (1 : Nat) ≠ 6) ∧
    ((∃ n : Nat, shortestPath example6 1 6 = .ok (Int.ofNat n) ∧
        HasPath example6 1 6 n ∧ ∀ m, HasPath example6 1 6 m → n ≤ m) ∨
      ((∀ m, ¬HasPath example6 1 6 m) ∧ shortestPath example6 1 6 = .ok (-1))) := by
  refine ⟨⟨by decide, by decide, by decide, by decide⟩, ?_⟩
  exact (claim_C4 (by decide) (by decide) (by decide) (by decide) (by decide)
    (by decide)).1

/-- Counterexample for C4 as literally stated: on the claim's own 6-vertex
graph, `shortest_path(1, 1)` returns `-1`, yet the true number of hops from
vertex 1 to itself is `0` (the empty path). The unqualified sentence
"returns the number of hops on a shortest path" is therefore false when
`src = dest`: the source is marked explored before the loop, so the
`pop → compare to dest` branch never fires for it. -/
theorem claim_C4_counterexample :
    shortestPath example6 1 1 = .ok (-1) ∧
    HasPath example6 1 1 0 ∧
    (example6.findVtx 1).isSome = true :=
  ⟨rfl, HasPath.zero, rfl⟩

/-- **C10.** When the source exists but the destination id names no vertex,
`shortest_path` does not raise: only the source is checked, the looked-up
destination object is `None`, no discovered vertex can be it, so the BFS
drains the queue and returns the unreachable sentinel `-1`. -/
theorem claim_C10 {g : Graph} {srcId destId : Nat}
    (hnd : (ids g).Nodup)
    (hres : ∀ i ∈ ids g, ∀ eid ∈ edgesOf g i, edgeOkB g i eid = true)
    (hfresh : ∀ v ∈ g.vtxList, v.explored = false ∧ v.layer = 0)
    (hsv : (g.findVtx srcId).isSome = true)
    (hdv : g.findVtx destId = none) :
    shortestPath g srcId destId = .ok (-1) := by
  obtain ⟨vs, hsv'⟩ := Option.isSome_iff_exists.1 hsv
  have hdmap : (g.findVtx destId).map Vertex.vtxId = none := by
    rw [hdv]
    rfl
  have hrun : shortestPath g srcId destId =
      spLoop none (g.vtxList.length + 1)
        (g.updateVtx { vs with explored := true }) [srcId] := by
    have h1 : shortestPath g srcId destId =
        (match g.findVtx srcId with
          | none => .error (.illegalArgument
              "The input source and destination vertices don't both exist.")
          | some src =>
            spLoop ((g.findVtx destId).map Vertex.vtxId) (g.vtxList.length + 1)
              (g.updateVtx { src with explored := true }) [srcId]) := rfl
    rw [hsv', hdmap] at h1
    exact h1
  obtain ⟨hInv, hcount⟩ := spInv_init none hnd hfresh hsv' (fun d hd => by cases hd)
  have hle : unexploredCount g ≤ g.vtxList.length := List.countP_le_length _
  have hfuel : unexploredCount (g.updateVtx { vs with explored := true }) +
      ([srcId] : List Nat).length < g.vtxList.length + 1 := by
    simp only [List.length_singleton]
    omega
  rcases spLoop_spec hnd hres (g.vtxList.length + 1) _ [srcId] hInv hfuel with
    ⟨d, n, hd, -⟩ | ⟨hrun', -⟩
  · cases hd
  · exact hrun.trans hrun'

/-- Witness for C10: on the 6-vertex graph, id 9 names no vertex and
`shortest_path(1, 9)` returns `-1` without raising. -/
theorem claim_C10_witness :
    ((ids example6).Nodup ∧ (example6.findVtx 1).isSome = true ∧
      example6.findVtx 9 = none) ∧
    shortestPath example6 1 9 = .ok (-1) :=
  ⟨⟨by decide, by decide, by decide⟩,
    claim_C10 (by decide) (by decide) (by decide) (by decide) (by decide)⟩

end Bfs

namespace Digraph

/-- Any vertex reachable from 3 in the counterexample graph is 3 itself
(vertex 3 has no emissive edges). -/
theorem exampleD_reach_three : ∀ y, DReach exampleD 3 y → y = 3 := by
  intro y hy
  induction hy with
  | refl => rfl
  | @step b c hb hadj ih =>
    rw [ih] at hadj
    exact absurd hadj Bool.false_ne_true

/-- **C6.** Refutation: pass 2 of `num_of_connected_components_with_dfs`
runs on the ORIGINAL graph in INCREASING finishing-time order (the list is
never reversed and the graph never transposed), which is not Kosaraju's
scheme; on the graph with edges 1→2, 2→1, 1→3 it returns 1, while the graph
has two strongly-connected components ({1, 2} and {3}: vertices 1 and 3
both exist and 3 cannot reach 1, so at least two SCCs exist). -/
theorem claim_C6 :
    numOfConnectedComponentsWithDfs exampleD = .ok 1 ∧
    (exampleD.findVtx 1).isSome = true ∧
    (exampleD.findVtx 3).isSome = true ∧
    ¬DReach exampleD 3 1 := by
  refine ⟨by rfl, by rfl, by rfl, ?_⟩
  intro h
  exact absurd (exampleD_reach_three 1 h) (by decide)

/-- Vertex 2 of the 2-vertex graph 1→2 reaches only itself, so that graph
is acyclic. -/
theorem exampleD2_reach_two : ∀ y, DReach exampleD2 2 y → y = 2 := by
  intro y hy
  induction hy with
  | refl => rfl
  | @step b c hb hadj ih =>
    rw [ih] at hadj
    exact absurd hadj Bool.false_ne_true

/-- **C7.** Refutation of the acyclic half: `_remove_vtx` builds
`edges_to_remove` as a NEW list (`extend`), so removing `edges_to_remove[0]`
from the graph never shrinks the list, and the second round raises
`IllegalArgumentError` inside `remove_emissive_edge`.  On the acyclic
2-vertex graph 1→2 (acyclic since 2 reaches nothing but itself),
`topological_sort_straightforward` raises instead of returning `[1, 2]`.
On the pure 2-cycle it does return the all-zero invalid array `[0, 0]`. -/
theorem claim_C7 :
    (topologicalSortStraightforward exampleD2).isErr = true ∧
    ¬DReach exampleD2 2 1 ∧
    (topologicalSortStraightforward exampleD3).val? = some [0, 0] ∧
    dAdjB exampleD3 1 2 = true ∧ dAdjB exampleD3 2 1 = true := by
  refine ⟨by rfl, ?_, by rfl, by rfl, by rfl⟩
  intro h
  exact absurd (exampleD2_reach_two 1 h) (by decide)

end Digraph

namespace SPR

/-- **C3.** Refutation: the base class defines only `_INFINITY`; both
algorithms read the nonexistent `super().INFINITY` during initialization, so
on every graph with at least 2 vertices — in particular the claim's
2-vertex graph with edges (1→2, -1) and (2→1, -1) — both raise
`AttributeError` before any negative-cycle check can run, instead of
reporting the negative cycle. -/
theorem claim_C3 {g : WGraph} {srcId : Nat} (hlen : 2 ≤ g.vtxList.length)
    (hsv : (g.findVtx srcId).isSome = true) :
    bellmanFordShortestPaths g srcId =
      .error (.attributeError "'super' object has no attribute 'INFINITY'") ∧
    floydWarshallApsp g =
      .error (.attributeError "'super' object has no attribute 'INFINITY'") ∧
    bellmanFordShortestPaths negCycleGraph 1 =
      .error (.attributeError "'super' object has no attribute 'INFINITY'") ∧
    floydWarshallApsp negCycleGraph =
      .error (.attributeError "'super' object has no attribute 'INFINITY'") ∧
    negCycleGraph.edgeObj 0 = some ⟨1, 2, -1⟩ ∧
    negCycleGraph.edgeObj 1 = some ⟨2, 1, -1⟩ := by
  refine ⟨?_, ?_, by rfl, by rfl, by rfl, by rfl⟩
  · obtain ⟨vs, hsv'⟩ := Option.isSome_iff_exists.1 hsv
    cases hl : g.vtxList with
    | nil =>
      rw [hl] at hlen
      cases hlen
    | cons a t =>
      cases hl2 : t with
      | nil =>
        rw [hl, hl2] at hlen
        simp at hlen
      | cons b t2 =>
        have h1 : bellmanFordShortestPaths g srcId =
            (match g.vtxList with
              | [] => Except.error PyErr.orphanRef
              | [v] =>
                if v.vtxId = 0 then
                  match v.incidentEdges with
                  | [] => Except.ok [[0]]
                  | _ :: _ => Except.error PyErr.orphanRef
                else Except.error PyErr.indexError
              | _ :: _ :: _ =>
                Except.error
                  (PyErr.attributeError "'super' object has no attribute 'INFINITY'")) := by
          unfold bellmanFordShortestPaths
          rw [hsv']
        rw [hl, hl2] at h1
        exact h1
  · cases hl : g.vtxList with
    | nil =>
      rw [hl] at hlen
      cases hlen
    | cons a t =>
      cases hl2 : t with
      | nil =>
        rw [hl, hl2] at hlen
        simp at hlen
      | cons b t2 =>
        have h1 : floydWarshallApsp g =
            (match g.vtxList with
              | [] => Except.ok []
              | [v] =>
                match g.edgeList with
                | [] =>
                  if v.vtxId = 0 then Except.ok [[0]] else Except.error PyErr.indexError
                | _ :: _ => Except.error PyErr.orphanRef
              | _ :: _ :: _ =>
                Except.error
                  (PyErr.attributeError "'super' object has no attribute 'INFINITY'")) := rfl
        rw [hl, hl2] at h1
        exact h1

/-- Witness for C3: the 2-vertex negative-cycle graph has 2 vertices and
vertex 1 exists, so the theorem applies to it. -/
theorem claim_C3_witness :
    (2 ≤ negCycleGraph.vtxList.length ∧ (negCycleGraph.findVtx 1).isSome = true) ∧
    bellmanFordShortestPaths negCycleGraph 1 =
      .error (.attributeError "'super' object has no attribute 'INFINITY'") :=
  ⟨⟨by decide, by decide⟩, (claim_C3 (by decide) (by decide)).1⟩

end SPR

namespace Mst

/-- **C5.** Refutation: on the claim's own 4-vertex graph the three MST
routines do NOT agree.  `prim_mst_straightforward` returns 4.0 (8
half-units) from every possible random source choice, but
`kruskal_mst_straightforward` returns 6.5 (13 half-units) — its cycle check
runs DFS with `explored` flags that are never cleared
between edges, so a later check misses an existing path and admits a cycle
edge — and `kruskal_mst_improved` raises `IllegalArgumentError`: the
`UnionFind` is keyed by `obj.name`, which the vertex never overrides (it
defines `obj_name` instead), so every group is registered under `None` and
the first `union("1", ...)` call fails its existence check. -/
theorem claim_C5 :
    primMstStraightforward exampleM 0 = .ok 8 ∧
    primMstStraightforward exampleM 1 = .ok 8 ∧
    primMstStraightforward exampleM 2 = .ok 8 ∧
    primMstStraightforward exampleM 3 = .ok 8 ∧
    kruskalMstStraightforward exampleM = .ok 13 ∧
    ((13 : Int) ≠ 8) ∧
    (kruskalMstImproved exampleM).isErr = true := by
  refine ⟨by rfl, by rfl, by rfl, by rfl, by rfl, by decide, by rfl⟩

end Mst

namespace UF

theorem findObj_some_id {s : UFState} {i : Nat} {o : UFObj}
    (h : findObj s i = some o) : o.objId = i := by
  have := List.find?_some h
  simpa using this

/-- Re-parenting commutes with object lookup: the looked-up object is the
original one, with its leader replaced when it belongs to the group. -/
theorem findObj_updateLeaders (s : UFState) (group : List Nat) (L : Nat)
    (groups' : List (Option Nat × List Nat)) (x : Nat) :
    findObj ⟨updateLeaders s.store group L, groups'⟩ x =
      (findObj s x).map
        (fun o => if o.objId ∈ group then { o with leader := L } else o) := by
  show (updateLeaders s.store group L).find? (fun o => o.objId == x) = _
  unfold updateLeaders
  rw [List.find?_map]
  have hp : ((fun o : UFObj => o.objId == x) ∘
      (fun o => if o.objId ∈ group then { o with leader := L } else o)) =
      (fun o : UFObj => o.objId == x) := by
    funext o
    by_cases h : o.objId ∈ group <;> simp [h]
  rw [hp]
  rfl

/-- After re-parenting the smaller group `gs` to the leader `L` of the
larger group `gl` (disjoint from `gs`), every member of either group
resolves to `L`'s name, and the larger group's objects are untouched. -/
theorem find_after_update {s : UFState} {gl gs : List Nat} {L : Nat} {oL : UFObj}
    (hL : findObj s L = some oL) (hLmem : L ∈ gl)
    (hdisj : ∀ i ∈ gl, i ∉ gs)
    (hMl : ∀ i ∈ gl, ∃ o, findObj s i = some o ∧ o.leader = L)
    (hMs : ∀ i ∈ gs, ∃ o, findObj s i = some o)
    (groups' : List (Option Nat × List Nat)) :
    (∀ x, x ∈ gl ∨ x ∈ gs → find ⟨updateLeaders s.store gs L, groups'⟩ x = .ok oL.name) ∧
    (∀ x ∈ gl, findObj ⟨updateLeaders s.store gs L, groups'⟩ x = findObj s x) := by
  have hLs : L ∉ gs := hdisj L hLmem
  have hLpres : findObj ⟨updateLeaders s.store gs L, groups'⟩ L = some oL := by
    rw [findObj_updateLeaders, hL, Option.map_some']
    rw [if_neg (by rw [findObj_some_id hL]; exact hLs)]
  have hglPres : ∀ x ∈ gl,
      findObj ⟨updateLeaders s.store gs L, groups'⟩ x = findObj s x := by
    intro x hx
    obtain ⟨o, ho, -⟩ := hMl x hx
    rw [findObj_updateLeaders, ho, Option.map_some']
    rw [if_neg (by rw [findObj_some_id ho]; exact hdisj x hx)]
  refine ⟨?_, hglPres⟩
  intro x hx
  rcases hx with hx | hx
  · obtain ⟨o, ho, holead⟩ := hMl x hx
    unfold find
    rw [hglPres x hx, ho]
    show (match findObj ⟨updateLeaders s.store gs L, groups'⟩ o.leader with
      | none => Except.error PyErr.orphanRef
      | some l => Except.ok l.name) = Except.ok oL.name
    rw [holead, hLpres]
  · obtain ⟨o, ho⟩ := hMs x hx
    have hoUpd : findObj ⟨updateLeaders s.store gs L, groups'⟩ x =
        some { o with leader := L } := by
      rw [findObj_updateLeaders, ho, Option.map_some']
      rw [if_pos (by rw [findObj_some_id ho]; exact hx)]
    unfold find
    rw [hoUpd]
    show (match findObj ⟨updateLeaders s.store gs L, groups'⟩ L with
      | none => Except.error PyErr.orphanRef
      | some l => Except.ok l.name) = Except.ok oL.name
    rw [hLpres]

/-- **C8.** On a union-find over disjoint groups, `union(a, b)` on two
distinct existing group names re-parents the members of the smaller group
to the leader of the larger group (ties break toward `a`'s group, as
`len(group_a) >= len(group_b)` does), leaves the larger group's objects —
in particular its leader — untouched, and afterwards `find(x)` returns the
larger group's leader's name for every member of both original groups. -/
theorem claim_C8 {s : UFState} {a b : Option Nat} {ga gb : List Nat}
    (hga : Py.dictFind? s.groups a = some ga)
    (hgb : Py.dictFind? s.groups b = some gb)
    (hisa : a.isSome = true) (hisb : b.isSome = true)
    {La Lb : Nat} {oLa oLb : UFObj}
    (hLa : findObj s La = some oLa) (hLaName : oLa.name = a)
    (hLaMem : La ∈ ga) (hLaSelf : oLa.leader = La)
    (hMa : ∀ i ∈ ga, ∃ o, findObj s i = some o ∧ o.leader = La)
    (hLb : findObj s Lb = some oLb) (hLbName : oLb.name = b)
    (hLbMem : Lb ∈ gb) (hLbSelf : oLb.leader = Lb)
    (hMb : ∀ i ∈ gb, ∃ o, findObj s i = some o ∧ o.leader = Lb)
    (hdisj : ∀ i, i ∈ ga → i ∉ gb) :
    ∃ s', union s a b = .ok s' ∧
      ((gb.length ≤ ga.length ∧
          (∀ x, x ∈ ga ∨ x ∈ gb → find s' x = .ok a) ∧
          (∀ x, x ∈ ga → findObj s' x = findObj s x)) ∨
        (ga.length < gb.length ∧
          (∀ x, x ∈ ga ∨ x ∈ gb → find s' x = .ok b) ∧
          (∀ x, x ∈ gb → findObj s' x = findObj s x))) := by
  have hnone : (a.isNone || b.isNone) = false := by
    cases a with
    | none => cases hisa
    | some av =>
      cases b with
      | none => cases hisb
      | some bv => rfl
  have hnone' : ¬((a.isNone || b.isNone) = true) := by
    rw [hnone]
    exact Bool.false_ne_true
  obtain ⟨la0, gat, rfl⟩ : ∃ x t, ga = x :: t := by
    cases ga with
    | nil => cases hLaMem
    | cons x t => exact ⟨x, t, rfl⟩
  obtain ⟨lb0, gbt, rfl⟩ : ∃ x t, gb = x :: t := by
    cases gb with
    | nil => cases hLbMem
    | cons x t => exact ⟨x, t, rfl⟩
  have h1 : union s a b =
      (let lgsm := if (la0 :: gat).length ≥ (lb0 :: gbt).length
        then (la0 :: gat, lb0 :: gbt, a) else (lb0 :: gbt, la0 :: gat, b)
      match lgsm.1 with
      | [] => Except.error PyErr.indexError
      | l0 :: _ =>
        match findObj s l0 with
        | none => Except.error PyErr.orphanRef
        | some o0 =>
          match lgsm.2.1 with
          | [] => Except.error PyErr.indexError
          | s0 :: _ =>
            match findObj s s0 with
            | none => Except.error PyErr.orphanRef
            | some so0 =>
              match findObj s so0.leader with
              | none => Except.error PyErr.orphanRef
              | some sl =>
                Except.ok { store := updateLeaders s.store lgsm.2.1 o0.leader,
                            groups := Py.dictDrop
                              (Py.dictPut s.groups lgsm.2.2 (lgsm.1 ++ lgsm.2.1))
                              sl.name }) := by
    unfold union
    rw [if_neg hnone', hga, hgb]
  by_cases hsz : (la0 :: gat).length ≥ (lb0 :: gbt).length
  · rw [if_pos hsz] at h1
    obtain ⟨o0, ho0, ho0lead⟩ := hMa la0 (List.mem_cons_self _ _)
    obtain ⟨so0, hso0, hso0lead⟩ := hMb lb0 (List.mem_cons_self _ _)
    have h2 : union s a b =
        (match findObj s la0 with
          | none => Except.error PyErr.orphanRef
          | some o0 =>
            match findObj s lb0 with
            | none => Except.error PyErr.orphanRef
            | some so0 =>
              match findObj s so0.leader with
              | none => Except.error PyErr.orphanRef
              | some sl =>
                Except.ok { store := updateLeaders s.store (lb0 :: gbt) o0.leader,
                            groups := Py.dictDrop
                              (Py.dictPut s.groups a ((la0 :: gat) ++ (lb0 :: gbt)))
                              sl.name }) := h1
    rw [ho0] at h2
    have h3 : union s a b =
        (match findObj s lb0 with
          | none => Except.error PyErr.orphanRef
          | some so0 =>
            match findObj s so0.leader with
            | none => Except.error PyErr.orphanRef
            | some sl =>
              Except.ok { store := updateLeaders s.store (lb0 :: gbt) o0.leader,
                          groups := Py.dictDrop
                            (Py.dictPut s.groups a ((la0 :: gat) ++ (lb0 :: gbt)))
                            sl.name }) := h2
    rw [hso0] at h3
    have h4 : union s a b =
        (match findObj s so0.leader with
          | none => Except.error PyErr.orphanRef
          | some sl =>
            Except.ok { store := updateLeaders s.store (lb0 :: gbt) o0.leader,
                        groups := Py.dictDrop
                          (Py.dictPut s.groups a ((la0 :: gat) ++ (lb0 :: gbt)))
                          sl.name }) := h3
    rw [hso0lead, hLb] at h4
    have h5 : union s a b =
        Except.ok { store := updateLeaders s.store (lb0 :: gbt) o0.leader,
                    groups := Py.dictDrop
                      (Py.dictPut s.groups a ((la0 :: gat) ++ (lb0 :: gbt)))
                      oLb.name } := h4
    rw [ho0lead] at h5
    obtain ⟨hfind, hpres⟩ := find_after_update hLa hLaMem hdisj hMa
      (fun i hi => ⟨(hMb i hi).choose, (hMb i hi).choose_spec.1⟩)
      (Py.dictDrop (Py.dictPut s.groups a ((la0 :: gat) ++ (lb0 :: gbt))) oLb.name)
    refine ⟨_, h5, Or.inl ⟨hsz, ?_, hpres⟩⟩
    intro x hx
    rw [hfind x hx, hLaName]
  · rw [if_neg hsz] at h1
    obtain ⟨o0, ho0, ho0lead⟩ := hMb lb0 (List.mem_cons_self _ _)
    obtain ⟨so0, hso0, hso0lead⟩ := hMa la0 (List.mem_cons_self _ _)
    have h2 : union s a b =
        (match findObj s lb0 with
          | none => Except.error PyErr.orphanRef
          | some o0 =>
            match findObj s la0 with
            | none => Except.error PyErr.orphanRef
            | some so0 =>
              match findObj s so0.leader with
              | none => Except.error PyErr.orphanRef
              | some sl =>
                Except.ok { store := updateLeaders s.store (la0 :: gat) o0.leader,
                            groups := Py.dictDrop
                              (Py.dictPut s.groups b ((lb0 :: gbt) ++ (la0 :: gat)))
                              sl.name }) := h1
    rw [ho0] at h2
    have h3 : union s a b =
        (match findObj s la0 with
          | none => Except.error PyErr.orphanRef
          | some so0 =>
            match findObj s so0.leader with
            | none => Except.error PyErr.orphanRef
            | some sl =>
              Except.ok { store := updateLeaders s.store (la0 :: gat) o0.leader,
                          groups := Py.dictDrop
                            (Py.dictPut s.groups b ((lb0 :: gbt) ++ (la0 :: gat)))
                            sl.name }) := h2
    rw [hso0] at h3
    have h4 : union s a b =
        (match findObj s so0.leader with
          | none => Except.error PyErr.orphanRef
          | some sl =>
            Except.ok { store := updateLeaders s.store (la0 :: gat) o0.leader,
                        groups := Py.dictDrop
                          (Py.dictPut s.groups b ((lb0 :: gbt) ++ (la0 :: gat)))
                          sl.name }) := h3
    rw [hso0lead, hLa] at h4
    have h5 : union s a b =
        Except.ok { store := updateLeaders s.store (la0 :: gat) o0.leader,
                    groups := Py.dictDrop
                      (Py.dictPut s.groups b ((lb0 :: gbt) ++ (la0 :: gat)))
                      oLa.name } := h4
    rw [ho0lead] at h5
    obtain ⟨hfind, hpres⟩ := find_after_update hLb hLbMem
      (fun i hi hc => hdisj i hc hi) hMb
      (fun i hi => ⟨(hMa i hi).choose, (hMa i hi).choose_spec.1⟩)
      (Py.dictDrop (Py.dictPut s.groups b ((lb0 :: gbt) ++ (la0 :: gat))) oLa.name)
    refine ⟨_, h5, Or.inr ⟨by simp at hsz ⊢; omega, ?_, hpres⟩⟩
    intro x hx
    rw [hfind x hx.symm, hLbName]

/-- Witness for C8: on the concrete instance, group `"1" = {1}` is merged
into the larger group `"2" = {2, 3}`, and all three objects then find to
`"2"`. -/
theorem claim_C8_witness :
    ∃ s', union exampleUF (some 1) (some 2) = .ok s' ∧
      find s' 1 = .ok (some 2) ∧ find s' 2 = .ok (some 2) ∧ find s' 3 = .ok (some 2) := by
  obtain ⟨s', hrun, h⟩ := claim_C8
    (show Py.dictFind? exampleUF.groups (some 1) = some [1] from rfl)
    (show Py.dictFind? exampleUF.groups (some 2) = some [2, 3] from rfl)
    rfl rfl
    (show findObj exampleUF 1 = some ⟨1, some 1, 1⟩ from rfl) rfl
    (by decide) rfl
    (fun i hi => by
      rcases List.mem_singleton.1 hi with rfl
      exact ⟨⟨1, some 1, 1⟩, rfl, rfl⟩)
    (show findObj exampleUF 2 = some ⟨2, some 2, 2⟩ from rfl) rfl
    (by decide) rfl
    (fun i hi => by
      rcases List.mem_cons.1 hi with rfl | hi2
      · exact ⟨⟨2, some 2, 2⟩, rfl, rfl⟩
      · rcases List.mem_singleton.1 hi2 with rfl
        exact ⟨⟨3, some 3, 2⟩, rfl, rfl⟩)
    (by decide)
  rcases h with ⟨hle, -, -⟩ | ⟨-, hfind, -⟩
  · exact absurd hle (by decide)
  · exact ⟨s', hrun, hfind 1 (Or.inl (by decide)), hfind 2 (Or.inr (by decide)),
      hfind 3 (Or.inr (by decide))⟩

end UF
